import Mathlib

/-!
# gost forwarding engine: Router, recorder and handlers

A shallow embedding of

* `x/chain/router.go`            (`Router.Dial`, `Router.record`, `Router.dial`, `Router.Bind`),
* `x/recorder/recorder.go`       (`HandlerRecorderObject.Record`),
* `x/handler/forward/remote/handler.go` (`forwardHandler.Init`, `Handle`, `checkRateLimit`),
* `x/handler/relay/connect.go`   (`relayHandler.handleConnect`).

The collaborators the code calls through interfaces (resolver, chain, routes, recorder sinks,
hop, limiter, sniffer, clock, sub-handlers, the client connection) are fields of `Env`.  Every
such field receives the history of the call, the list of events so far in chronological order,
so a field may answer differently at each invocation: quantifying over `Env` quantifies over
every behaviour of the collaborators.  Each function of the program takes the history and
returns its Go results together with the extended history.

Conventions.
* A Go `error` is `Option GoError`, `none` being `nil`; the `GoError` is the text of `Error()`.
* A collaborator that returns `(value, error)` answers with an `Except`: either a value or an
  error, never both.
* `context.Context`, the timeout installed on it and the logger have no influence on the control
  flow of the embedded functions and are left out.
* Go `int` is the 64-bit signed integer; `wrapInt` is its wrap-around.
-/

namespace Gost

/-! ## Data model -/

/-- Text of a Go error, as returned by `Error()`. -/
abbrev GoError := String

/-- Byte slice `[]byte`. -/
abbrev Bytes := List UInt8

/-- Conversion `[]byte(s)` of a Go string. -/
def bytesOf (s : String) : Bytes := s.toUTF8.data.toList

/-- Two's complement wrap-around of a Go `int` (64 bits). -/
def wrapInt (x : Int) : Int := (x + 2 ^ 63) % 2 ^ 64 - 2 ^ 63

/-- Values of the Go type `int`. -/
def isGoInt (x : Int) : Prop := -(2 ^ 63) ≤ x ∧ x < 2 ^ 63

instance (x : Int) : Decidable (isGoInt x) := by unfold isGoInt; infer_instance

mutual
/-- A `chain.Route`: the package's `DefaultRoute` (no nodes, direct I/O) or a route made of nodes. -/
inductive Route where
  | defaultRoute
  | chainRoute (nodes : List Node)
/-- A `chain.Node`: name, address, `Options()` (nil-able), `Marker()` (nil-able, a handle). -/
inductive Node where
  | mk (name addr : String) (options : Option NodeOptions) (marker : Option Nat)
/-- The `chain.NodeOptions` fields the code reads. -/
inductive NodeOptions where
  | mk (network : String) (transport : Option Transport)
/-- A node's transport; `Options().Route` may be nil. -/
inductive Transport where
  | mk (route : Option Route)
end

/-- The nodes of a route, `Route.Nodes()`. -/
def Route.Nodes : Route → List Node
  | .defaultRoute => []
  | .chainRoute nodes => nodes

/-- The package variable `DefaultRoute`. -/
def DefaultRoute : Route := .defaultRoute

def Node.Name : Node → String
  | .mk name _ _ _ => name

def Node.Addr : Node → String
  | .mk _ addr _ _ => addr

def Node.Options : Node → Option NodeOptions
  | .mk _ _ options _ => options

def Node.Marker : Node → Option Nat
  | .mk _ _ _ marker => marker

def NodeOptions.Network : NodeOptions → String
  | .mk network _ => network

def NodeOptions.Transport : NodeOptions → Option Transport
  | .mk _ transport => transport

/-- A `net.Conn` returned by a dial: a handle, or the router's `packetConn` shim around one. -/
inductive Conn where
  | handle (id : Nat)
  | packetConn (inner : Option Conn)

/-- A `net.Listener` handle. -/
abbrev Listener := Nat

/-- A recorder binding `recorder.RecorderObject` with a bound (non-nil) sink: the sink handle and
the `Record` tag.  The zero binding, whose `Recorder` is nil, is `none : Option RecorderObject`. -/
structure RecorderObject where
  Recorder : Nat
  Record : String

/-- The `chain.RouterOptions` fields that steer `Dial` and `Bind`. -/
structure RouterOptions where
  Chain : Option Nat
  Retries : Int
  Recorders : List RecorderObject

/-- Modelled from the spec: the recorder tags of `github.com/go-gost/core/recorder`, which is not
among the sources (section 6 lists the tag namespace). -/
def RecorderServiceRouterDialAddress : String := "recorder.service.router.dial.address"

/-- Modelled from the spec: see `RecorderServiceRouterDialAddress`. -/
def RecorderServiceRouterDialAddressError : String := "recorder.service.router.dial.address.error"

/-- The constant `RecorderServiceHandler` of `x/recorder/recorder.go`. -/
def RecorderServiceHandler : String := "recorder.service.handler"

/-- The error `ErrEmptyRoute` of package `chain`. -/
def ErrEmptyRoute : GoError := "empty route"

/-- The error `rate_limiter.ErrRateLimit`. -/
def ErrRateLimit : GoError := "rate limit"

/-- The error `xbypass.ErrBypass`. -/
def ErrBypass : GoError := "bypass"

/-- A `time.Time`: the zero value `time.Time{}` or a reading of the clock.  `time.Now()` never
reads the zero instant. -/
inductive GoTime where
  | zero
  | clock (ns : Nat)

/-- The method `Time.IsZero`. -/
def GoTime.IsZero : GoTime → Bool
  | .zero => true
  | .clock _ => false

/-- The `HandlerRecorderObject` of `x/recorder/recorder.go`; the sub-records are handles. -/
structure HandlerRecorderObject where
  Node : String := ""
  Service : String := ""
  Network : String := ""
  RemoteAddr : String := ""
  LocalAddr : String := ""
  Host : String := ""
  ClientIP : String := ""
  ClientID : String := ""
  Proto : String := ""
  HTTP : Option Nat := none
  TLS : Option Nat := none
  DNS : Option Nat := none
  Route : String := ""
  Err : String := ""
  Duration : Int := 0
  Time : GoTime := GoTime.zero
  SID : String := ""

/-- Which `HandlerRecorderObject` a pointer refers to: the object `ro` allocated at the start of
the connection, or the copy `ro2` allocated at a dispatch. -/
inductive ObjRef where
  | ro
  | ro2

/-- A `net.Addr`: its `Network()` and its `String()`. -/
structure Addr where
  Network : String
  String : String

/-- An IP address `net.IP`: a byte slice, `none` being nil. -/
abbrev IP := Option (List UInt8)

/-- The variable `net.IPv4zero`, the 16-byte form of 0.0.0.0. -/
def IPv4zero : IP := some [0, 0, 0, 0, 0, 0, 0, 0, 0, 0, 0xff, 0xff, 0, 0, 0, 0]

/-- The variable `net.IPv6zero`. -/
def IPv6zero : IP := some [0, 0, 0, 0, 0, 0, 0, 0, 0, 0, 0, 0, 0, 0, 0, 0]

/-- The prefix of the 16-byte form of an IPv4 address. -/
def v4InV6Prefix : List UInt8 := [0, 0, 0, 0, 0, 0, 0, 0, 0, 0, 0xff, 0xff]

/-- The method `IP.Equal` of package `net`. -/
def IP.Equal (ip x : IP) : Bool :=
  let a := ip.getD []
  let b := x.getD []
  if a.length = b.length then a == b
  else if a.length = 4 ∧ b.length = 16 then b.take 12 == v4InV6Prefix && a == b.drop 12
  else if a.length = 16 ∧ b.length = 4 then a.take 12 == v4InV6Prefix && a.drop 12 == b
  else false

/-- The address `convertAddr` builds: a `*net.TCPAddr` or a `*net.UDPAddr`. -/
inductive IPAddr where
  | TCPAddr (ip : IP) (port : Int)
  | UDPAddr (ip : IP) (port : Int)

/-- The accepted connection `conn`: its addresses and whether it is a `net.PacketConn`. -/
structure ClientConn where
  RemoteAddr : Addr
  LocalAddr : Addr
  isPacketConn : Bool

/-- A relay response frame `relay.Response` (no features). -/
structure Response where
  Version : Nat
  Status : Nat

/-- Modelled from the spec: the constants of `github.com/go-gost/relay`, which is not among the
sources (section 6: version 1, `OK=200`, `BadRequest=400`, `Forbidden=403`,
`NetworkUnreachable=502`). -/
def Version1 : Nat := 1

/-- Modelled from the spec: see `Version1`. -/
def StatusOK : Nat := 200

/-- Modelled from the spec: see `Version1`. -/
def StatusBadRequest : Nat := 400

/-- Modelled from the spec: see `Version1`. -/
def StatusForbidden : Nat := 403

/-- Modelled from the spec: see `Version1`. -/
def StatusNetworkUnreachable : Nat := 502

/-- The options given to `traffic_wrapper.WrapReadWriter` in `handleConnect`. -/
structure LimiterOptions where
  Scope : String
  Service : String
  Network : String
  Addr : String
  Client : String
  Src : String

/-- The constant `limiter.ScopeClient`. -/
def ScopeClient : String := "client"

/-- The client-side stream, as the expression that builds it. -/
inductive RW where
  /-- The accepted connection. -/
  | conn
  /-- The wrapper `&udpConn{Conn: conn}`, with the response header cached in its `wbuf` or not. -/
  | udpConn (c : RW) (header : Option Response)
  /-- The wrapper `&tcpConn{Conn: conn}` with the response header cached in its `wbuf`. -/
  | tcpConn (c : RW) (header : Option Response)
  /-- The call `traffic_wrapper.WrapReadWriter(limiter, rw, key, opts...)`. -/
  | trafficLimited (limiter : Option Nat) (rw : RW) (key : String) (opts : LimiterOptions)
  /-- The call `stats_wrapper.WrapReadWriter(rw, pstats)`, the stats being those of `key`. -/
  | stats (rw : RW) (key : String)
  /-- The call `bufio.NewReader(r)`. -/
  | bufio (r : RW)
  /-- The call `xio.NewReadWriter(r, w)`. -/
  | readWriter (r w : RW)
  /-- The call `xnet.NewReadWriteConn(r, w, c)`. -/
  | readWriteConn (r w c : RW)

/-- The upstream stream `cc`. -/
inductive Upstream where
  /-- A connection opened by `Router.Dial`, a unix dial or a serial port (nil-able). -/
  | conn (c : Option Conn)
  /-- The call `proxyproto.WrapClientConn(ppv, src, dst, c)`. -/
  | wrapClientConn (ppv : Int) (src : Addr) (dst : IPAddr) (c : Upstream)

/-- The counters `stats.KindTotalConns` and `stats.KindCurrentConns`. -/
inductive StatsKind where
  | KindTotalConns
  | KindCurrentConns

/-- Modelled from the spec: the protocol tags of `x/internal/util/sniffing`, which is not among
the sources (section 3: the protocol identifier is `"http"`, `"tls"` or `""`). -/
def ProtoHTTP : String := "http"

/-- Modelled from the spec: see `ProtoHTTP`. -/
def ProtoTLS : String := "tls"

/-- What the program asks of its collaborators, in the order it asks. -/
inductive Event where
  | resolve (address : String) (result : Except GoError String)
  | chainRoute (chain : Nat) (network addr : String) (host : Option String) (result : Option Route)
  | routeDial (route : Route) (network ipAddr : String) (result : Except GoError Conn)
  | routeBind (route : Route) (network address : String) (result : Except GoError Listener)
  | sinkRecord (sink : Nat) (data : Bytes)
  | allow (limiter : Nat) (n : Int) (result : Bool)
  | setReadDeadline (clear : Bool)
  | sniff (proto : String)
  | subHandler (proto : String) (rw : RW) (cc : Option Upstream) (obj : ObjRef)
      (ro : HandlerRecorderObject)
  | hopSelect (hop : Nat) (proto : String) (target : Option Node)
  | mark (marker : Nat)
  | reset (marker : Nat)
  | transport (rw : RW) (cc : Upstream)
  | upstreamClose
  | clientClose
  | writeTo (buffered : Bool) (resp : Response)
  | bypassContains (network address : String) (result : Bool)
  | dialUnix (address : String) (result : Except GoError Conn)
  | openSerial (address : String) (result : Except GoError Conn)
  | statsAdd (key : String) (kind : StatsKind) (n : Int)

/-- The collaborators. -/
structure Env where
  /-- The function `net.SplitHostPort`: host and port, both empty on error. -/
  SplitHostPort : String → String × String
  /-- The function `net.ParseIP`. -/
  ParseIP : String → IP
  /-- The function `strconv.Atoi`, 0 on error. -/
  Atoi : String → Int
  /-- The function `json.Marshal` on a `HandlerRecorderObject`. -/
  jsonMarshal : HandlerRecorderObject → Except GoError Bytes
  /-- The call `xnet.Resolve(ctx, "ip", address, resolver, hostMapper, logger)`. -/
  resolve : List Event → String → Except GoError String
  /-- The call `Chain.Route(ctx, network, addr, opts...)` with the optional host-route option. -/
  chainRoute : List Event → Nat → String → String → Option String → Option Route
  /-- The call `route.Dial(ctx, network, ipAddr, opts...)`. -/
  routeDial : List Event → Route → String → String → Except GoError Conn
  /-- The call `route.Bind(ctx, network, address, opts...)`. -/
  routeBind : List Event → Route → String → String → Except GoError Listener
  /-- The call `Recorder.Record(ctx, data)` on a sink. -/
  sinkRecord : List Event → Nat → Bytes → Option GoError
  /-- The type assertion `conn.(net.PacketConn)` on a connection handle. -/
  isPacketConn : Nat → Bool
  /-- The contents `buf.String()` of the trace buffer handed to `Router.Dial` in the context. -/
  traceBuffer : List Event → String
  /-- The call `time.Now()`. -/
  now : List Event → Nat
  /-- The call `time.Since(start)`. -/
  since : List Event → GoTime → Int
  /-- The call `RateLimiter.Limiter(host)`, nil-able. -/
  rateLimiter : List Event → Nat → String → Option Nat
  /-- The call `limiter.Allow(n)`. -/
  allow : List Event → Nat → Int → Bool
  /-- The protocol `sniffing.Sniff(ctx, br)` returns. -/
  sniff : List Event → String
  /-- The call `Hop.Select(ctx, hop.ProtocolSelectOption(proto))`. -/
  hopSelect : List Event → Nat → String → Option Node
  /-- The sub-handlers `handleHTTP` and `handleTLS`, which are not among the sources: the error
  returned and the state in which the `HandlerRecorderObject` handed over is left. -/
  subHandler : List Event → String → RW → Option Upstream → HandlerRecorderObject →
    Option GoError × HandlerRecorderObject
  /-- The call `resp.WriteTo(w)`, to the client connection or to a write buffer. -/
  writeTo : List Event → Bool → Response → Option GoError
  /-- The call `Bypass.Contains(ctx, network, address)`. -/
  bypassContains : List Event → Nat → String → String → Bool
  /-- The call `(&net.Dialer{}).DialContext(ctx, "unix", address)`. -/
  dialUnix : List Event → String → Except GoError Conn
  /-- The call `serial.OpenPort(serial.ParseConfigFromAddr(address))`. -/
  openSerial : List Event → String → Except GoError Conn

/-! ## `x/chain/router.go` -/

/-- `Router.record`. -/
def Router.record (env : Env) (o : RouterOptions) (name : String) (data : Bytes)
    (tr : List Event) : Option GoError × List Event :=
  if data.length = 0 then (none, tr)
  else
    match o.Recorders.find? (fun rec => rec.Record = name) with
    | some rec => (env.sinkRecord tr rec.Recorder data, tr ++ [Event.sinkRecord rec.Recorder data])
    | none => (none, tr)

/-- The step `if route == nil { route = DefaultRoute }`. -/
def routeOrDefault : Option Route → Route
  | none => DefaultRoute
  | some r => r

/-- The iteration count of the retry loops: `count := Retries + 1; if count <= 0 { count = 1 }`. -/
def retryCount (retries : Int) : Int :=
  let count := wrapInt (retries + 1)
  if count ≤ 0 then 1 else count

/-- One iteration of the retry loop of `Router.dial`, entered with the named result `conn`.  The
flag is `true` when the iteration leaves the loop (`break`), `false` when it continues. -/
def Router.dialIter (env : Env) (o : RouterOptions) (network address : String)
    (conn : Option Conn) (tr : List Event) : Bool × (Option Conn × Option GoError) × List Event :=
  match env.resolve tr address with
  | .error e => (true, (conn, some e), tr ++ [Event.resolve address (.error e)])
  | .ok ipAddr =>
    let tr1 := tr ++ [Event.resolve address (.ok ipAddr)]
    let rt : Option Route × List Event :=
      match o.Chain with
      | some c =>
        let r := env.chainRoute tr1 c network ipAddr (some address)
        (r, tr1 ++ [Event.chainRoute c network ipAddr (some address) r])
      | none => (none, tr1)
    let route := routeOrDefault rt.1
    match env.routeDial rt.2 route network ipAddr with
    | .ok c => (true, (some c, none), rt.2 ++ [Event.routeDial route network ipAddr (.ok c)])
    | .error e =>
      (false, (none, some e), rt.2 ++ [Event.routeDial route network ipAddr (.error e)])

/-- The retry loop `for i := 0; i < count; i++` of `Router.dial` with `n` iterations left;
`conn` and `err` are the named results. -/
def Router.dialLoop (env : Env) (o : RouterOptions) (network address : String) :
    Nat → Option Conn → Option GoError → List Event → (Option Conn × Option GoError) × List Event
  | 0, conn, err, tr => ((conn, err), tr)
  | n + 1, conn, _, tr =>
    let s := Router.dialIter env o network address conn tr
    if s.1 then s.2 else Router.dialLoop env o network address n s.2.1.1 s.2.1.2 s.2.2

/-- `Router.dial`. -/
def Router.dial (env : Env) (o : RouterOptions) (network address : String) (tr : List Event) :
    (Option Conn × Option GoError) × List Event :=
  Router.dialLoop env o network address (retryCount o.Retries).toNat none none tr

/-- The type assertion `conn.(net.PacketConn)` on a nil-able `net.Conn`. -/
def isPacket (env : Env) : Option Conn → Bool
  | none => false
  | some (.handle id) => env.isPacketConn id
  | some (.packetConn _) => true

/-- The telemetry host of `Router.Dial`: the host part of the address, or the address. -/
def Router.dialHost (env : Env) (address : String) : String :=
  let h := (env.SplitHostPort address).1
  if h ≠ "" then h else address

/-- `Router.Dial`. -/
def Router.Dial (env : Env) (o : RouterOptions) (network address : String) (tr : List Event) :
    (Option Conn × Option GoError) × List Event :=
  let host := Router.dialHost env address
  let tr1 := (Router.record env o RecorderServiceRouterDialAddress (bytesOf host) tr).2
  let r := Router.dial env o network address tr1
  match r.1.2 with
  | some e =>
    ((r.1.1, some e),
      (Router.record env o RecorderServiceRouterDialAddressError (bytesOf host) r.2).2)
  | none =>
    if (network = "udp" ∨ network = "udp4" ∨ network = "udp6") ∧ isPacket env r.1.1 = false then
      ((some (Conn.packetConn r.1.1), none), r.2)
    else ((r.1.1, none), r.2)

/-- The end of an iteration of `Router.Bind`: the nil route becomes `DefaultRoute` and
`route.Bind` is tried. -/
def Router.bindTry (env : Env) (network address : String) (route : Option Route)
    (tr : List Event) : Bool × (Option Listener × Option GoError) × List Event :=
  let rt := routeOrDefault route
  match env.routeBind tr rt network address with
  | .ok l => (true, (some l, none), tr ++ [Event.routeBind rt network address (.ok l)])
  | .error e => (false, (none, some e), tr ++ [Event.routeBind rt network address (.error e)])

/-- One iteration of the retry loop of `Router.Bind`, entered with the named result `ln`.  The
flag is `true` when the iteration leaves the loop (`return` or `break`). -/
def Router.bindIter (env : Env) (o : RouterOptions) (network address : String)
    (ln : Option Listener) (tr : List Event) :
    Bool × (Option Listener × Option GoError) × List Event :=
  match o.Chain with
  | some c =>
    let r := env.chainRoute tr c network address none
    let tr1 := tr ++ [Event.chainRoute c network address none r]
    match r with
    | none => (true, (ln, some ErrEmptyRoute), tr1)
    | some rt =>
      if rt.Nodes.length = 0 then (true, (ln, some ErrEmptyRoute), tr1)
      else Router.bindTry env network address (some rt) tr1
  | none => Router.bindTry env network address none tr

/-- The retry loop of `Router.Bind` with `n` iterations left. -/
def Router.bindLoop (env : Env) (o : RouterOptions) (network address : String) :
    Nat → Option Listener → Option GoError → List Event →
      (Option Listener × Option GoError) × List Event
  | 0, ln, err, tr => ((ln, err), tr)
  | n + 1, ln, _, tr =>
    let s := Router.bindIter env o network address ln tr
    if s.1 then s.2 else Router.bindLoop env o network address n s.2.1.1 s.2.1.2 s.2.2

/-- `Router.Bind`. -/
def Router.Bind (env : Env) (o : RouterOptions) (network address : String) (tr : List Event) :
    (Option Listener × Option GoError) × List Event :=
  Router.bindLoop env o network address (retryCount o.Retries).toNat none none tr

mutual
/-- The function `routePath` on a route that is not nil: the loop over `route.Nodes()`, entered
with the nil `path`.  The result is `none` when `node.Options()` is nil for a node met on the
way, where Go dereferences a nil pointer. -/
def Route.routePath : Route → Option (List Node)
  | .defaultRoute => some []
  | .chainRoute nodes => routePathLoop nodes []
/-- The loop `for _, node := range route.Nodes()` of `routePath` over the nodes left, with the
`path` built so far. -/
def routePathLoop : List Node → List Node → Option (List Node)
  | [], path => some path
  | node :: rest, path =>
    match Node.routePathStep node with
    | some step => routePathLoop rest (path ++ step)
    | none => none
/-- What one iteration of the loop appends to `path`: the path of the route nested in the
transport of the node, when it has a transport, then the node. -/
def Node.routePathStep : Node → Option (List Node)
  | .mk _ _ none _ => none
  | .mk name addr (some opts) marker =>
    match NodeOptions.transportPath opts with
    | some nested => some (nested ++ [Node.mk name addr (some opts) marker])
    | none => none
/-- The step `if tr := node.Options().Transport; tr != nil` of `routePath`. -/
def NodeOptions.transportPath : NodeOptions → Option (List Node)
  | .mk _ none => some []
  | .mk _ (some tr) => Transport.routePath tr
/-- The call `routePath(tr.Options().Route)`. -/
def Transport.routePath : Transport → Option (List Node)
  | .mk none => some []
  | .mk (some r) => Route.routePath r
end

/-- `routePath`: nil for the nil route. -/
def routePath : Option Route → Option (List Node)
  | none => some []
  | some r => r.routePath

/-! ## `x/recorder/recorder.go` -/

/-- `HandlerRecorderObject.Record`: `p` is the receiver and `r` the sink, both nil-able. -/
def HandlerRecorderObject.Record (env : Env) (p : Option HandlerRecorderObject) (r : Option Nat)
    (tr : List Event) : Option GoError × List Event :=
  match p, r with
  | some p, some r =>
    if p.Time.IsZero then (none, tr)
    else
      match env.jsonMarshal p with
      | .error e => (some e, tr)
      | .ok data => (env.sinkRecord tr r data, tr ++ [Event.sinkRecord r data])
  | _, _ => (none, tr)

/-! ## `x/handler/forward/remote/handler.go` -/

/-- The metadata of the forward handler that `Handle` reads. -/
structure ForwardMetadata where
  sniffing : Bool
  sniffingTimeout : Int
  proxyProtocol : Int

/-- The `handler.Options` fields the handlers read; the router is the `Router` above. -/
structure HandlerOptions where
  Service : String
  Router : RouterOptions
  RateLimiter : Option Nat
  Bypass : Option Nat
  Observer : Option Nat
  Recorders : List RecorderObject

/-- The `forwardHandler`; `recorder` is `none` while no binding was found by `Init`. -/
structure forwardHandler where
  hop : Option Nat
  md : ForwardMetadata
  options : HandlerOptions
  recorder : Option RecorderObject

/-- The binding loop of `forwardHandler.Init`, after `parseMetadata` succeeded. -/
def forwardHandler.Init (h : forwardHandler) : forwardHandler :=
  match h.options.Recorders.find? (fun ro => ro.Record = RecorderServiceHandler) with
  | some ro => { h with recorder := some ro }
  | none => h

/-- What a handler body hands to its deferred calls: the error it returns, the object `ro` as it
leaves it, and the history. -/
structure BodyResult where
  err : Option GoError
  ro : HandlerRecorderObject
  tr : List Event

/-- `forwardHandler.checkRateLimit`. -/
def forwardHandler.checkRateLimit (env : Env) (h : forwardHandler) (addr : Addr)
    (tr : List Event) : Bool × List Event :=
  match h.options.RateLimiter with
  | none => (true, tr)
  | some rl =>
    match env.rateLimiter tr rl (env.SplitHostPort addr.String).1 with
    | some limiter => (env.allow tr limiter 1, tr ++ [Event.allow limiter 1 (env.allow tr limiter 1)])
    | none => (true, tr)

/-- `convertAddr`. -/
def convertAddr (env : Env) (addr : Addr) : IPAddr :=
  let hp := env.SplitHostPort addr.String
  let ip := env.ParseIP hp.1
  let port := env.Atoi hp.2
  let ip1 := if ip.isNone ∨ IP.Equal ip IPv6zero = true then IPv4zero else ip
  if addr.Network = "tcp" ∨ addr.Network = "tcp4" ∨ addr.Network = "tcp6" then
    IPAddr.TCPAddr ip1 port
  else IPAddr.UDPAddr ip1 port

/-- The sniffing step shared by both handlers: the read deadline is set when the timeout is
positive, the protocol is sniffed, the deadline is cleared. -/
def sniffStep (env : Env) (timeout : Int) (tr : List Event) : String × List Event :=
  let tr1 := if timeout > 0 then tr ++ [Event.setReadDeadline false] else tr
  let proto := env.sniff tr1
  let tr2 := tr1 ++ [Event.sniff proto]
  (proto, if timeout > 0 then tr2 ++ [Event.setReadDeadline true] else tr2)

/-- The step `if marker := target.Marker(); marker != nil { marker.Mark() }`. -/
def markEvents (target : Node) : List Event :=
  match target.Marker with
  | some marker => [Event.mark marker]
  | none => []

/-- The step `if marker := target.Marker(); marker != nil { marker.Reset() }`. -/
def resetEvents (target : Node) : List Event :=
  match target.Marker with
  | some marker => [Event.reset marker]
  | none => []

/-- The network of the dial (lines 154 to 160): `"unix"` when the options of the target say so,
the network of the connection otherwise. -/
def targetNetwork (network : String) (target : Node) : String :=
  match target.Options with
  | some opts => if opts.Network = "unix" then opts.Network else network
  | none => network

/-- The part of `forwardHandler.Handle` after a target was selected (lines 154 to 198): the dial
through the router, the marker, the splice and the deferred `cc.Close()`. -/
def forwardHandler.dialTarget (env : Env) (h : forwardHandler) (conn : ClientConn)
    (network : String) (rw : RW) (ro : HandlerRecorderObject) (target : Node)
    (tr : List Event) : BodyResult :=
  let network1 := targetNetwork network target
  let ro1 := { ro with Network := network1, Host := target.Addr }
  let d := Router.Dial env h.options.Router network1 target.Addr tr
  let roR := { ro1 with Route := env.traceBuffer d.2 }
  match d.1.2 with
  | some e => ⟨some e, roR, d.2 ++ markEvents target⟩
  | none =>
    let cc := Upstream.wrapClientConn h.md.proxyProtocol conn.RemoteAddr
      (convertAddr env conn.LocalAddr) (Upstream.conn d.1.1)
    ⟨none, roR, d.2 ++ resetEvents target ++ [Event.transport rw cc, Event.upstreamClose]⟩

/-- The part of `forwardHandler.Handle` from `Hop.Select` to the splice (lines 142 to 198). -/
def forwardHandler.forward (env : Env) (h : forwardHandler) (conn : ClientConn)
    (network proto : String) (rw : RW) (ro : HandlerRecorderObject) (tr : List Event) :
    BodyResult :=
  let sel : Option Node × List Event :=
    match h.hop with
    | some hop =>
      (env.hopSelect tr hop proto, tr ++ [Event.hopSelect hop proto (env.hopSelect tr hop proto)])
    | none => (none, tr)
  match sel.1 with
  | none => ⟨some "node not available", ro, sel.2⟩
  | some target => forwardHandler.dialTarget env h conn network rw ro target sel.2

/-- The network of the accepted connection (lines 109 to 112). -/
def connNetwork (conn : ClientConn) : String :=
  if conn.isPacketConn then "udp" else "tcp"

/-- The body of `forwardHandler.Handle` after the deferred calls are registered (lines 105 to
198), entered with the object `ro`. -/
def forwardHandler.body (env : Env) (h : forwardHandler) (conn : ClientConn)
    (ro : HandlerRecorderObject) (tr : List Event) : BodyResult :=
  let rl := forwardHandler.checkRateLimit env h conn.RemoteAddr tr
  if rl.1 = false then ⟨some ErrRateLimit, ro, rl.2⟩
  else
    let network := connNetwork conn
    let ro1 := { ro with Network := network }
    if network = "tcp" ∧ h.md.sniffing = true then
      let sn := sniffStep env h.md.sniffingTimeout rl.2
      let roP := { ro1 with Proto := sn.1 }
      let rw := RW.readWriter (RW.bufio RW.conn) RW.conn
      if sn.1 = ProtoHTTP then
        let r := env.subHandler sn.2 ProtoHTTP rw none roP
        ⟨r.1, { roP with Time := GoTime.zero },
          sn.2 ++ [Event.subHandler ProtoHTTP rw none ObjRef.ro2 roP]⟩
      else if sn.1 = ProtoTLS then
        let r := env.subHandler sn.2 ProtoTLS (RW.readWriteConn rw rw RW.conn) none roP
        ⟨r.1, r.2,
          sn.2 ++ [Event.subHandler ProtoTLS (RW.readWriteConn rw rw RW.conn) none ObjRef.ro roP]⟩
      else forwardHandler.forward env h conn network sn.1 rw roP sn.2
    else forwardHandler.forward env h conn network "" RW.conn ro1 rl.2

/-- The object `ro` that `forwardHandler.Handle` allocates (lines 75 to 84); the session id of
the context is `sid`. -/
def forwardHandler.newRecord (env : Env) (h : forwardHandler) (sid : String) (conn : ClientConn)
    (tr : List Event) : HandlerRecorderObject :=
  { Service := h.options.Service
    RemoteAddr := conn.RemoteAddr.String
    LocalAddr := conn.LocalAddr.String
    Time := GoTime.clock (env.now tr)
    SID := sid
    ClientIP := (env.SplitHostPort conn.RemoteAddr.String).1 }

/-- The writes of the deferred function of `Handle` into `ro` (lines 94 to 97): the message of
the error when there is one, and the duration. -/
def closeRecord (env : Env) (b : BodyResult) (start : GoTime) : HandlerRecorderObject :=
  let ro1 := match b.err with
    | some e => { b.ro with Err := e }
    | none => b.ro
  { ro1 with Duration := env.since b.tr start }

/-- `forwardHandler.Handle`: the object `ro` is built, the body runs, then the deferred function
(the error and the duration are written into `ro`, `ro.Record` is called) and the deferred
`conn.Close()`. -/
def forwardHandler.Handle (env : Env) (h : forwardHandler) (sid : String) (conn : ClientConn)
    (tr : List Event) : Option GoError × List Event :=
  let ro := forwardHandler.newRecord env h sid conn tr
  let b := forwardHandler.body env h conn ro tr
  let r := HandlerRecorderObject.Record env (some (closeRecord env b ro.Time))
    (h.recorder.map (fun x => x.Recorder)) b.tr
  (b.err, r.2 ++ [Event.clientClose])

/-! ## `x/handler/relay/connect.go` -/

/-- The metadata of the relay handler that `handleConnect` reads. -/
structure RelayMetadata where
  hash : String
  noDelay : Bool
  sniffing : Bool
  sniffingTimeout : Int

/-- The `relayHandler`; `limiter` is its traffic limiter. -/
structure relayHandler where
  md : RelayMetadata
  options : HandlerOptions
  limiter : Option Nat

/-- The upstream opened by `handleConnect` (lines 67 to 77): `cc`, `err`, the object `ro` and the
history. -/
def relayHandler.openUpstream (env : Env) (h : relayHandler) (network address : String)
    (ro : HandlerRecorderObject) (tr : List Event) :
    Option Conn × Option GoError × HandlerRecorderObject × List Event :=
  if network = "unix" then
    match env.dialUnix tr address with
    | .ok c => (some c, none, ro, tr ++ [Event.dialUnix address (.ok c)])
    | .error e => (none, some e, ro, tr ++ [Event.dialUnix address (.error e)])
  else if network = "serial" then
    match env.openSerial tr address with
    | .ok c => (some c, none, ro, tr ++ [Event.openSerial address (.ok c)])
    | .error e => (none, some e, ro, tr ++ [Event.openSerial address (.error e)])
  else
    let d := Router.Dial env h.options.Router network address tr
    (d.1.1, d.1.2, { ro with Route := env.traceBuffer d.2 }, d.2)

/-- The response header of `handleConnect` (lines 85 to 115): written to the client when
`noDelay` is set, cached in the write buffer of a `udpConn` or `tcpConn` otherwise.  The result
is the error that ends the call, the connection `conn` and the history. -/
def relayHandler.writeHeader (env : Env) (h : relayHandler) (network : String) (resp : Response)
    (tr : List Event) : Option GoError × RW × List Event :=
  let w1 : Option GoError × List Event :=
    if h.md.noDelay = true then (env.writeTo tr false resp, tr ++ [Event.writeTo false resp])
    else (none, tr)
  match w1.1 with
  | some e => (some e, RW.conn, w1.2)
  | none =>
    if network = "udp" ∨ network = "udp4" ∨ network = "udp6" then
      if h.md.noDelay = false then
        match env.writeTo w1.2 true resp with
        | some e => (some e, RW.conn, w1.2 ++ [Event.writeTo true resp])
        | none => (none, RW.udpConn RW.conn (some resp), w1.2 ++ [Event.writeTo true resp])
      else (none, RW.udpConn RW.conn none, w1.2)
    else
      if h.md.noDelay = false then
        match env.writeTo w1.2 true resp with
        | some e => (some e, RW.conn, w1.2 ++ [Event.writeTo true resp])
        | none => (none, RW.tcpConn RW.conn (some resp), w1.2 ++ [Event.writeTo true resp])
      else (none, RW.conn, w1.2)

/-- The wrappers of `handleConnect` (lines 117 to 135) around the connection `conn1`: the traffic
limiter, and the stats when an observer is configured, which count the connection. -/
def relayHandler.wrap (h : relayHandler) (clientID : String) (conn : ClientConn)
    (network address : String) (conn1 : RW) (tr : List Event) : RW × List Event :=
  let rw := RW.trafficLimited h.limiter conn1 clientID
    ⟨ScopeClient, h.options.Service, network, address, clientID, conn.RemoteAddr.String⟩
  match h.options.Observer with
  | some _ =>
    (RW.stats rw clientID,
      tr ++ [Event.statsAdd clientID StatsKind.KindTotalConns 1,
        Event.statsAdd clientID StatsKind.KindCurrentConns 1])
  | none => (rw, tr)

/-- The deferred calls of `handleConnect` once the upstream is open, in the order they run: the
stats when an observer is configured, then `cc.Close()`. -/
def relayHandler.deferred (h : relayHandler) (clientID : String) : List Event :=
  match h.options.Observer with
  | some _ => [Event.statsAdd clientID StatsKind.KindCurrentConns (-1), Event.upstreamClose]
  | none => [Event.upstreamClose]

/-- The end of `handleConnect` (lines 117 to 169), with the connection `conn1` and the upstream
`cc`: wrappers, sniffing and dispatch, splice; then the deferred calls registered on the way. -/
def relayHandler.splice (env : Env) (h : relayHandler) (clientID : String) (conn : ClientConn)
    (network address : String) (conn1 : RW) (cc : Option Conn) (ro : HandlerRecorderObject)
    (tr : List Event) : BodyResult :=
  let st := relayHandler.wrap h clientID conn network address conn1 tr
  let deferred := relayHandler.deferred h clientID
  if h.md.sniffing = true then
    let sn := sniffStep env h.md.sniffingTimeout st.2
    let roP := { ro with Proto := sn.1 }
    let rw1 := RW.readWriter (RW.bufio conn1) conn1
    if sn.1 = ProtoHTTP then
      let r := env.subHandler sn.2 ProtoHTTP rw1 (some (Upstream.conn cc)) roP
      ⟨r.1, { roP with Time := GoTime.zero },
        sn.2 ++ [Event.subHandler ProtoHTTP rw1 (some (Upstream.conn cc)) ObjRef.ro2 roP]
          ++ deferred⟩
    else if sn.1 = ProtoTLS then
      let r := env.subHandler sn.2 ProtoTLS rw1 (some (Upstream.conn cc)) roP
      ⟨r.1, r.2,
        sn.2 ++ [Event.subHandler ProtoTLS rw1 (some (Upstream.conn cc)) ObjRef.ro roP]
          ++ deferred⟩
    else ⟨none, roP, sn.2 ++ [Event.transport rw1 (Upstream.conn cc)] ++ deferred⟩
  else ⟨none, ro, st.2 ++ [Event.transport st.1 (Upstream.conn cc)] ++ deferred⟩

/-- The target address of `handleConnect` (lines 29 to 33): for the networks `"unix"` and
`"serial"` the host part, when there is one. -/
def relayHandler.connectAddress (env : Env) (network address : String) : String :=
  if network = "unix" ∨ network = "serial" then
    if (env.SplitHostPort address).1 ≠ "" then (env.SplitHostPort address).1 else address
  else address

/-- The condition `h.options.Bypass != nil && h.options.Bypass.Contains(ctx, network, address)`
of `handleConnect` (line 55). -/
def relayHandler.checkBypass (env : Env) (h : relayHandler) (network address : String)
    (tr : List Event) : Bool × List Event :=
  match h.options.Bypass with
  | some b =>
    (env.bypassContains tr b network address,
      tr ++ [Event.bypassContains network address (env.bypassContains tr b network address)])
  | none => (false, tr)

/-- `relayHandler.handleConnect`, called with the object `ro` of the connection; the client id of
the context is `clientID`. -/
def relayHandler.handleConnect (env : Env) (h : relayHandler) (clientID : String)
    (conn : ClientConn) (network address : String) (ro : HandlerRecorderObject)
    (tr : List Event) : BodyResult :=
  let address1 := relayHandler.connectAddress env network address
  if address1 = "" then
    ⟨some "target not specified", ro, tr ++ [Event.writeTo false ⟨Version1, StatusBadRequest⟩]⟩
  else
    let bp := relayHandler.checkBypass env h network address1 tr
    if bp.1 = true then
      ⟨some ErrBypass, ro, bp.2 ++ [Event.writeTo false ⟨Version1, StatusForbidden⟩]⟩
    else
      let up := relayHandler.openUpstream env h network address1 ro bp.2
      match up.2.1 with
      | some e =>
        ⟨some e, up.2.2.1, up.2.2.2 ++ [Event.writeTo false ⟨Version1, StatusNetworkUnreachable⟩]⟩
      | none =>
        let w := relayHandler.writeHeader env h network ⟨Version1, StatusOK⟩ up.2.2.2
        match w.1 with
        | some e => ⟨some e, up.2.2.1, w.2.2 ++ [Event.upstreamClose]⟩
        | none =>
          relayHandler.splice env h clientID conn network address1 w.2.1 up.1 up.2.2.1 w.2.2

/-! ## Reading a history -/

def Event.isResolve : Event → Bool
  | .resolve _ _ => true
  | _ => false

def Event.isChainRoute : Event → Bool
  | .chainRoute _ _ _ _ _ => true
  | _ => false

def Event.isRouteDial : Event → Bool
  | .routeDial _ _ _ _ => true
  | _ => false

def Event.isRouteBind : Event → Bool
  | .routeBind _ _ _ _ => true
  | _ => false

def Event.isSinkRecord : Event → Bool
  | .sinkRecord _ _ => true
  | _ => false

/-- The result of a `Route.Dial` invocation, for the events that are one. -/
def Event.dialResult : Event → Option (Except GoError Conn)
  | .routeDial _ _ _ r => some r
  | _ => none

/-- The results of the `Route.Dial` invocations of a history, in order. -/
def dialResults (ev : List Event) : List (Except GoError Conn) := ev.filterMap Event.dialResult

/-- A failed resolution. -/
def Event.isResolveError : Event → Bool
  | .resolve _ (.error _) => true
  | _ => false

/-- The invocations made by the retry loop of `Router.dial`. -/
def Event.isDialStep : Event → Bool
  | .resolve _ _ => true
  | .chainRoute _ _ _ _ _ => true
  | .routeDial _ _ _ _ => true
  | _ => false

/-- The invocations made by `Router.Dial`: those of the retry loop and the recorders. -/
def Event.isRouterCall : Event → Bool
  | .resolve _ _ => true
  | .chainRoute _ _ _ _ _ => true
  | .routeDial _ _ _ _ => true
  | .sinkRecord _ _ => true
  | _ => false

/-- A response frame written to the client or to a write buffer. -/
def Event.isWriteTo : Event → Bool
  | .writeTo _ _ => true
  | _ => false

/-- An upstream opened: a `Route.Dial`, a unix dial or a serial port. -/
def Event.isUpstreamOpen : Event → Bool
  | .routeDial _ _ _ _ => true
  | .dialUnix _ _ => true
  | .openSerial _ _ => true
  | _ => false

/-- What a handler does before it selects a node or dispatches: the rate limiter, the read
deadline, the sniffer. -/
def Event.isPrelude : Event → Bool
  | .allow _ _ _ => true
  | .setReadDeadline _ => true
  | .sniff _ => true
  | _ => false

/-- A `Hop.Select` that returned a node. -/
def Event.isSelected : Event → Bool
  | .hopSelect _ _ (some _) => true
  | _ => false

/-- A `Mark` received by the marker `m`. -/
def Event.isMark (m : Nat) : Event → Bool
  | .mark k => k == m
  | _ => false

/-- A `Reset` received by the marker `m`. -/
def Event.isReset (m : Nat) : Event → Bool
  | .reset k => k == m
  | _ => false

/-- A dispatch to a sub-handler. -/
def Event.isSubHandler : Event → Bool
  | .subHandler _ _ _ _ _ => true
  | _ => false

/-- A call on a marker. -/
def Event.isMarkerCall : Event → Bool
  | .mark _ => true
  | .reset _ => true
  | _ => false

/-- An answer of `Chain.Route` that is nil or a route with zero nodes. -/
def Event.isEmptyChainRoute : Event → Bool
  | .chainRoute _ _ _ _ none => true
  | .chainRoute _ _ _ _ (some rt) => decide (rt.Nodes.length = 0)
  | _ => false

/-- The events a call added to the history `tr` it started from. -/
def newEvents (tr after : List Event) : List Event := after.drop tr.length

/-! ## Concrete collaborators -/

/-- Collaborators for concrete runs: the `k`-th resolution answers `resolves[k]` and fails past
the end of the list, the `k`-th `Route.Dial` answers `dials[k]` and fails past the end, the chain
returns the nil route, sinks and writes succeed, nothing is sniffed and the hop selects no node. -/
def scriptedEnv (resolves : List (Except GoError String)) (dials : List (Except GoError Conn)) :
    Env where
  SplitHostPort := fun a =>
    (String.mk (a.data.takeWhile (fun c => c ≠ ':')),
      String.mk ((a.data.dropWhile (fun c => c ≠ ':')).drop 1))
  ParseIP := fun _ => none
  Atoi := fun s => s.toInt?.getD 0
  jsonMarshal := fun p => .ok (bytesOf ("err=" ++ p.Err))
  resolve := fun h _ => (resolves.get? (h.countP Event.isResolve)).getD (.error "no such host")
  chainRoute := fun _ _ _ _ _ => none
  routeDial := fun h _ _ _ =>
    (dials.get? (h.countP Event.isRouteDial)).getD (.error "connection refused")
  routeBind := fun _ _ _ _ => .error "bind failed"
  sinkRecord := fun _ _ _ => none
  isPacketConn := fun _ => false
  traceBuffer := fun _ => ""
  now := fun h => h.length + 1
  since := fun _ _ => 1
  rateLimiter := fun _ _ _ => none
  allow := fun _ _ _ => true
  sniff := fun _ => ""
  hopSelect := fun _ _ _ => none
  subHandler := fun _ _ _ _ ro => (none, ro)
  writeTo := fun _ _ _ => none
  bypassContains := fun _ _ _ _ => false
  dialUnix := fun _ _ => .error "no such file"
  openSerial := fun _ _ => .error "no such device"

/-- Collaborators for concrete runs: every resolution succeeds and every route refuses. -/
def refusingEnv : Env :=
  { scriptedEnv [] [] with resolve := fun _ a => .ok a }

/-- Collaborators for concrete runs: three resolutions succeed, the first two routes refuse and
the third connects. -/
def thirdTimeEnv : Env :=
  scriptedEnv [.ok "10.0.0.1:80", .ok "10.0.0.1:80", .ok "10.0.0.1:80"]
    [.error "refused", .error "refused", .ok (Conn.handle 7)]

/-- Collaborators for concrete runs: the first resolution succeeds and its route refuses, the
second resolution fails. -/
def secondResolveFailsEnv : Env :=
  scriptedEnv [.ok "10.0.0.1:80"] [.error "refused"]

/-- Collaborators for concrete runs: the upstream connects, every write of a response frame
fails. -/
def brokenPipeEnv : Env :=
  { scriptedEnv [.ok "10.0.0.1:22"] [.ok (Conn.handle 1)] with
    writeTo := fun _ _ _ => some "broken pipe" }

/-- Collaborators for concrete runs: the resolution succeeds and the route refuses. -/
def unreachableEnv : Env :=
  scriptedEnv [.ok "10.0.0.1:22"] []

/-- A relay handler without bypass, observer, limiter or recorders, no retries. -/
def plainRelay (noDelay sniffing : Bool) : relayHandler :=
  ⟨⟨"", noDelay, sniffing, 0⟩, ⟨"relay", ⟨none, 0, []⟩, none, none, none, []⟩, none⟩

/-- A TCP client connection. -/
def tcpClient : ClientConn :=
  ⟨⟨"tcp", "192.0.2.7:51000"⟩, ⟨"tcp", "192.0.2.1:8080"⟩, false⟩

/-- The record of a connection that started at clock reading 1. -/
def startedRecord : HandlerRecorderObject :=
  { Service := "relay", Time := GoTime.clock 1 }

/-- A node with the marker 4. -/
def markedNode : Node := Node.mk "node-1" "10.0.0.9:80" none (some 4)

/-- Collaborators for concrete runs: the hop selects `markedNode`, whose address resolves, and
the routes answer `dials` in turn. -/
def selectingEnv (dials : List (Except GoError Conn)) : Env :=
  { scriptedEnv [.ok "10.0.0.9:80"] dials with hopSelect := fun _ _ _ => some markedNode }

/-- A forward handler with a hop, no rate limiter and no retries. -/
def plainForward (sniffing : Bool) (recorder : Option RecorderObject) : forwardHandler :=
  ⟨some 1, ⟨sniffing, 0, 0⟩, ⟨"forward", ⟨none, 0, []⟩, none, none, none, []⟩, recorder⟩

/-- Collaborators for concrete runs: the sniffer reads TLS, the sub-handler leaves the record
it is handed as it is, the upstream connects. -/
def tlsEnv : Env :=
  { scriptedEnv [.ok "10.0.0.1:443"] [.ok (Conn.handle 1)] with sniff := fun _ => ProtoTLS }

/-! ## The retry loop of `Router.dial` as a set of runs -/

/-- The runs of the retry loop of `Router.dial` with `n` iterations left, entered with the named
results `conn` and `err`: the events of the run and the results it leaves. -/
inductive DialRun (address : String) :
    Nat → Option Conn → Option GoError → List Event → Option Conn × Option GoError → Prop
  | done (conn : Option Conn) (err : Option GoError) : DialRun address 0 conn err [] (conn, err)
  | resolveError (n : Nat) (conn : Option Conn) (err : Option GoError) (e : GoError) :
      DialRun address (n + 1) conn err [Event.resolve address (.error e)] (conn, some e)
  | dialOk (n : Nat) (conn : Option Conn) (err : Option GoError) (ip : String)
      (mid : List Event) (route : Route) (network : String) (c : Conn)
      (hmid : ∀ x ∈ mid, x.isChainRoute = true) :
      DialRun address (n + 1) conn err
        (Event.resolve address (.ok ip) :: (mid ++ [Event.routeDial route network ip (.ok c)]))
        (some c, none)
  | dialError (n : Nat) (conn : Option Conn) (err : Option GoError) (ip : String)
      (mid : List Event) (route : Route) (network : String) (e : GoError)
      (ev : List Event) (res : Option Conn × Option GoError)
      (hmid : ∀ x ∈ mid, x.isChainRoute = true)
      (h : DialRun address n none (some e) ev res) :
      DialRun address (n + 1) conn err
        (Event.resolve address (.ok ip) ::
          (mid ++ Event.routeDial route network ip (.error e) :: ev)) res

/-- The results of the `Route.Dial` invocations of a `Router.Dial` call, in order. -/
def Router.dialAttempts (env : Env) (o : RouterOptions) (network address : String)
    (tr : List Event) : List (Except GoError Conn) :=
  dialResults (newEvents tr (Router.Dial env o network address tr).2)

/-- A failed `Route.Dial`. -/
def dialFailed : Except GoError Conn → Bool
  | .error _ => true
  | .ok _ => false

/-- The runs of the retry loop of `Router.Bind` with `n` iterations left, entered with the named
results `ln` and `err`. -/
inductive BindRun (chain : Option Nat) (network address : String) :
    Nat → Option Listener → Option GoError → List Event → Option Listener × Option GoError → Prop
  | done (ln : Option Listener) (err : Option GoError) :
      BindRun chain network address 0 ln err [] (ln, err)
  | emptyRoute (n : Nat) (ln : Option Listener) (err : Option GoError) (y : Event)
      (hc : chain.isSome = true) (hy : y.isEmptyChainRoute = true) :
      BindRun chain network address (n + 1) ln err [y] (ln, some ErrEmptyRoute)
  | bindOk (n : Nat) (ln : Option Listener) (err : Option GoError) (mid : List Event)
      (route : Route) (l : Listener)
      (hmid : ∀ x ∈ mid, x.isEmptyChainRoute = false)
      (hnone : chain = none → mid = [] ∧ route = DefaultRoute) :
      BindRun chain network address (n + 1) ln err
        (mid ++ [Event.routeBind route network address (.ok l)]) (some l, none)
  | bindError (n : Nat) (ln : Option Listener) (err : Option GoError) (mid : List Event)
      (route : Route) (e : GoError) (ev : List Event) (res : Option Listener × Option GoError)
      (hmid : ∀ x ∈ mid, x.isEmptyChainRoute = false)
      (hnone : chain = none → mid = [] ∧ route = DefaultRoute)
      (h : BindRun chain network address n none (some e) ev res) :
      BindRun chain network address (n + 1) ln err
        (mid ++ Event.routeBind route network address (.error e) :: ev) res

/-- The record `ro` once the network and the sniffed protocol are written into it. -/
def sniffedRecord (ro : HandlerRecorderObject) (network proto : String) :
    HandlerRecorderObject :=
  { ro with Network := network, Proto := proto }

/-! ## Route trees -/

/-- The route of a transport, `tr.Options().Route`. -/
def Transport.Route : Transport → Option Route
  | .mk route => route

/-- The route nested in a node: the route of its transport, nil when the node has no transport
(or no options). -/
def Node.nestedRoute (n : Node) : Option Route :=
  match n.Options with
  | some opts =>
    match opts.Transport with
    | some tr => tr.Route
    | none => none
  | none => none

mutual
/-- Every node of the tree has options: `node.Options()` is never nil. -/
def Route.hasOptions : Route → Bool
  | .defaultRoute => true
  | .chainRoute nodes => nodesHaveOptions nodes
/-- Every node of the list, and of the trees below, has options. -/
def nodesHaveOptions : List Node → Bool
  | [] => true
  | n :: ns => Node.hasOptions n && nodesHaveOptions ns
/-- The node and every node below it has options. -/
def Node.hasOptions : Node → Bool
  | .mk _ _ none _ => false
  | .mk _ _ (some opts) _ => NodeOptions.hasOptions opts
/-- Every node below these options has options. -/
def NodeOptions.hasOptions : NodeOptions → Bool
  | .mk _ none => true
  | .mk _ (some tr) => Transport.hasOptions tr
/-- Every node below this transport has options. -/
def Transport.hasOptions : Transport → Bool
  | .mk none => true
  | .mk (some r) => Route.hasOptions r
end

mutual
/-- The traversal in the words of the specification, on a route that is not nil: the
concatenation over the nodes of the route, in order, of the traversal of each node. -/
def Route.preorderPath : Route → List Node
  | .defaultRoute => []
  | .chainRoute nodes => preorderNodes nodes
/-- The concatenation, in order, of the traversals of the nodes of a list. -/
def preorderNodes : List Node → List Node
  | [] => []
  | n :: ns => Node.preorderPath n ++ preorderNodes ns
/-- The traversal of a node: the nodes of the route nested in its transport first, then the node
itself. -/
def Node.preorderPath : Node → List Node
  | .mk name addr none marker => [Node.mk name addr none marker]
  | .mk name addr (some opts) marker =>
    NodeOptions.preorderPath opts ++ [Node.mk name addr (some opts) marker]
/-- The traversal of the route nested below these options, nothing without a transport. -/
def NodeOptions.preorderPath : NodeOptions → List Node
  | .mk _ none => []
  | .mk _ (some tr) => Transport.preorderPath tr
/-- The traversal of the route of a transport. -/
def Transport.preorderPath : Transport → List Node
  | .mk none => []
  | .mk (some r) => Route.preorderPath r
end

/-- The traversal in the words of the specification: empty for the nil route. -/
def preorderPath : Option Route → List Node
  | none => []
  | some r => r.preorderPath

mutual
/-- The nodes of a route tree, each once: every node of the route, followed by the nodes of the
tree nested in it. -/
def Route.treeNodes : Route → List Node
  | .defaultRoute => []
  | .chainRoute nodes => treeNodesOf nodes
/-- The nodes of the trees of a list of nodes. -/
def treeNodesOf : List Node → List Node
  | [] => []
  | n :: ns => Node.treeNodes n ++ treeNodesOf ns
/-- A node and the nodes of the tree nested in it. -/
def Node.treeNodes : Node → List Node
  | .mk name addr none marker => [Node.mk name addr none marker]
  | .mk name addr (some opts) marker =>
    Node.mk name addr (some opts) marker :: NodeOptions.treeNodes opts
/-- The nodes of the tree nested below these options. -/
def NodeOptions.treeNodes : NodeOptions → List Node
  | .mk _ none => []
  | .mk _ (some tr) => Transport.treeNodes tr
/-- The nodes of the tree nested in a transport. -/
def Transport.treeNodes : Transport → List Node
  | .mk none => []
  | .mk (some r) => Route.treeNodes r
end

/-- A node without transport. -/
def leafNode (name : String) : Node :=
  Node.mk name "10.0.0.1:1080" (some (NodeOptions.mk "" none)) none

/-- A node whose transport goes through the route of the nodes `nested`. -/
def relayNode (name : String) (nested : List Node) : Node :=
  Node.mk name "10.0.0.2:1080"
    (some (NodeOptions.mk "" (some (Transport.mk (some (Route.chainRoute nested)))))) none

/-- A route tree: `b` goes through `a1` and `a2`, `d` through `c`, which goes through `c1`. -/
def sampleRoute : Route :=
  Route.chainRoute
    [relayNode "b" [leafNode "a1", leafNode "a2"],
      relayNode "d" [relayNode "c" [leafNode "c1"]],
      leafNode "e"]

/-! ## Streams and addresses -/

/-- The client-side stream an event hands over: to the splice `xnet.Transport` or to a
sub-handler. -/
def Event.handedStream : Event → Option RW
  | .transport rw _ => some rw
  | .subHandler _ rw _ _ _ => some rw
  | _ => none

/-- A splice. -/
def Event.isTransport : Event → Bool
  | .transport _ _ => true
  | _ => false

/-- Whether a traffic limiter wrapper occurs anywhere in the expression of a stream. -/
def RW.hasTrafficLimiter : RW → Bool
  | .conn => false
  | .udpConn c _ => c.hasTrafficLimiter
  | .tcpConn c _ => c.hasTrafficLimiter
  | .trafficLimited _ _ _ _ => true
  | .stats rw _ => rw.hasTrafficLimiter
  | .bufio r => r.hasTrafficLimiter
  | .readWriter r w => r.hasTrafficLimiter || w.hasTrafficLimiter
  | .readWriteConn r w c => r.hasTrafficLimiter || w.hasTrafficLimiter || c.hasTrafficLimiter

/-- Whether a stats wrapper occurs anywhere in the expression of a stream. -/
def RW.hasStats : RW → Bool
  | .conn => false
  | .udpConn c _ => c.hasStats
  | .tcpConn c _ => c.hasStats
  | .trafficLimited _ rw _ _ => rw.hasStats
  | .stats _ _ => true
  | .bufio r => r.hasStats
  | .readWriter r w => r.hasStats || w.hasStats
  | .readWriteConn r w c => r.hasStats || w.hasStats || c.hasStats

/-- The field `IP` of a `net.TCPAddr` or `net.UDPAddr`. -/
def IPAddr.IP : IPAddr → IP
  | .TCPAddr ip _ => ip
  | .UDPAddr ip _ => ip

/-- The field `Port` of a `net.TCPAddr` or `net.UDPAddr`. -/
def IPAddr.Port : IPAddr → Int
  | .TCPAddr _ port => port
  | .UDPAddr _ port => port

/-- Whether the address is a `net.TCPAddr`. -/
def IPAddr.isTCP : IPAddr → Bool
  | .TCPAddr _ _ => true
  | .UDPAddr _ _ => false

/-- A relay handler with a traffic limiter and an observer, no retries. -/
def observedRelay (sniffing : Bool) : relayHandler :=
  ⟨⟨"", true, sniffing, 0⟩, ⟨"relay", ⟨none, 0, []⟩, none, none, some 1, []⟩, some 2⟩

/-- Collaborators for concrete runs: as `selectingEnv` with a connecting upstream, and the
local address `[::]:8080` splits into the host `::`, which parses to the IPv6 zero address, and
the port `8080`. -/
def wildcardEnv : Env :=
  { selectingEnv [.ok (Conn.handle 1)] with
    SplitHostPort := fun a => if a = "[::]:8080" then ("::", "8080") else ("", "")
    ParseIP := fun s => if s = "::" then IPv6zero else none
    Atoi := fun s => if s = "8080" then 8080 else 0 }

/-- A client of a listener on the wildcard address. -/
def wildcardClient : ClientConn :=
  ⟨⟨"tcp", "192.0.2.7:51000"⟩, ⟨"tcp", "[::]:8080"⟩, false⟩

/-- Collaborators for concrete runs: the sniffer reads HTTP, the sub-handler leaves the record
it is handed as it is, the upstream connects. -/
def httpEnv : Env :=
  { scriptedEnv [.ok "10.0.0.1:80"] [.ok (Conn.handle 1)] with sniff := fun _ => ProtoHTTP }

/-! ## Arithmetic of the retry count -/

theorem newEvents_append (tr ev : List Event) : newEvents tr (tr ++ ev) = ev := by
  simp [newEvents]

theorem wrapInt_of_isGoInt (x : Int) (h : isGoInt x) : wrapInt x = x := by
  unfold isGoInt at h
  unfold wrapInt
  omega

theorem retryCount_pos (r : Int) : 1 ≤ retryCount r := by
  unfold retryCount
  simp only
  split <;> omega

theorem retryCount_eq_max (r : Int) (h : isGoInt r) (h1 : r < 2 ^ 63 - 1) :
    retryCount r = max (r + 1) 1 := by
  unfold isGoInt at h
  have hw : wrapInt (r + 1) = r + 1 := wrapInt_of_isGoInt _ (by unfold isGoInt; omega)
  unfold retryCount
  simp only [hw]
  split <;> omega

theorem retryCount_le_max (r : Int) (h : isGoInt r) : retryCount r ≤ max (r + 1) 1 := by
  by_cases h1 : r < 2 ^ 63 - 1
  · exact le_of_eq (retryCount_eq_max r h h1)
  · unfold isGoInt at h
    have hr : r = 2 ^ 63 - 1 := by omega
    subst hr
    unfold retryCount wrapInt
    norm_num

/-- The events of one iteration of the retry loop of `Router.dial`. -/
theorem dialIter_shape (env : Env) (o : RouterOptions) (network address : String)
    (conn : Option Conn) (tr : List Event) :
    (∃ e, Router.dialIter env o network address conn tr =
        (true, (conn, some e), tr ++ [Event.resolve address (.error e)])) ∨
    (∃ ip mid route, (∀ x ∈ mid, x.isChainRoute = true) ∧ mid.length ≤ 1 ∧
      ((∃ c, Router.dialIter env o network address conn tr =
          (true, (some c, none), tr ++ (Event.resolve address (.ok ip) ::
            (mid ++ [Event.routeDial route network ip (.ok c)])))) ∨
       (∃ e, Router.dialIter env o network address conn tr =
          (false, (none, some e), tr ++ (Event.resolve address (.ok ip) ::
            (mid ++ [Event.routeDial route network ip (.error e)])))))) := by
  unfold Router.dialIter
  cases hres : env.resolve tr address with
  | error e => exact Or.inl ⟨e, rfl⟩
  | ok ip =>
    right
    cases hc : o.Chain with
    | none =>
      refine ⟨ip, [], DefaultRoute, by simp, by simp, ?_⟩
      simp only [routeOrDefault]
      cases hd : env.routeDial (tr ++ [Event.resolve address (.ok ip)]) DefaultRoute network ip with
      | ok c => exact Or.inl ⟨c, by simp⟩
      | error e => exact Or.inr ⟨e, by simp⟩
    | some ch =>
      simp only
      refine ⟨ip, [Event.chainRoute ch network ip (some address)
          (env.chainRoute (tr ++ [Event.resolve address (.ok ip)]) ch network ip (some address))],
        routeOrDefault
          (env.chainRoute (tr ++ [Event.resolve address (.ok ip)]) ch network ip (some address)),
        by simp [Event.isChainRoute], by simp, ?_⟩
      cases hd : env.routeDial (tr ++ [Event.resolve address (.ok ip)] ++
        [Event.chainRoute ch network ip (some address)
          (env.chainRoute (tr ++ [Event.resolve address (.ok ip)]) ch network ip (some address))])
        (routeOrDefault
          (env.chainRoute (tr ++ [Event.resolve address (.ok ip)]) ch network ip (some address)))
        network ip with
      | ok c => exact Or.inl ⟨c, by simp⟩
      | error e => exact Or.inr ⟨e, by simp⟩

/-- Every call of the retry loop is one of the runs. -/
theorem dialLoop_run (env : Env) (o : RouterOptions) (network address : String) :
    ∀ (n : Nat) (conn : Option Conn) (err : Option GoError) (tr : List Event),
      ∃ ev, (Router.dialLoop env o network address n conn err tr).2 = tr ++ ev ∧
        DialRun address n conn err ev (Router.dialLoop env o network address n conn err tr).1 := by
  intro n
  induction n with
  | zero =>
    intro conn err tr
    exact ⟨[], by simp [Router.dialLoop], by simpa [Router.dialLoop] using DialRun.done conn err⟩
  | succ n ih =>
    intro conn err tr
    rcases dialIter_shape env o network address conn tr with ⟨e, he⟩ | ⟨ip, mid, route, hmid, _, h⟩
    · refine ⟨[Event.resolve address (.error e)], ?_, ?_⟩
      · simp [Router.dialLoop, he]
      · simpa [Router.dialLoop, he] using DialRun.resolveError n conn err e
    · rcases h with ⟨c, hc⟩ | ⟨e, he⟩
      · refine ⟨Event.resolve address (.ok ip) ::
            (mid ++ [Event.routeDial route network ip (.ok c)]), ?_, ?_⟩
        · simp [Router.dialLoop, hc]
        · simpa [Router.dialLoop, hc] using
            DialRun.dialOk n conn err ip mid route network c hmid
      · obtain ⟨ev, hev, hrun⟩ := ih none (some e)
          (tr ++ (Event.resolve address (.ok ip) ::
            (mid ++ [Event.routeDial route network ip (.error e)])))
        refine ⟨Event.resolve address (.ok ip) ::
            (mid ++ Event.routeDial route network ip (.error e) :: ev), ?_, ?_⟩
        · simp only [Router.dialLoop, he]
          simpa using hev
        · simp only [Router.dialLoop, he]
          exact DialRun.dialError n conn err ip mid route network e ev _ hmid (by simpa using hrun)

theorem countP_eq_zero_of_chainRoute (p : Event → Bool) (mid : List Event)
    (hp : ∀ x, x.isChainRoute = true → p x = false)
    (hmid : ∀ x ∈ mid, x.isChainRoute = true) : mid.countP p = 0 := by
  rw [List.countP_eq_zero]
  intro x hx
  simp [hp x (hmid x hx)]

/-- Counting the invocations of a run. -/
theorem DialRun.counts {address : String} {n : Nat} {conn : Option Conn} {err : Option GoError}
    {ev : List Event} {res : Option Conn × Option GoError}
    (h : DialRun address n conn err ev res) :
    ev.countP Event.isResolve ≤ n ∧
    ev.countP Event.isRouteDial ≤ ev.countP Event.isResolve ∧
    ev.countP Event.isResolve ≤ ev.countP Event.isRouteDial + 1 ∧
    (0 < n → 1 ≤ ev.countP Event.isResolve) ∧
    (∀ a ip, ev.find? Event.isResolve = some (Event.resolve a (.ok ip)) →
      1 ≤ ev.countP Event.isRouteDial) ∧
    (∀ a e, ev.find? Event.isResolve = some (Event.resolve a (.error e)) →
      ev.countP Event.isRouteDial = 0) := by
  induction h with
  | done conn err => simp
  | resolveError n conn err e => simp [Event.isResolve, Event.isRouteDial]
  | dialOk n conn err ip mid route network c hmid =>
    have h1 := countP_eq_zero_of_chainRoute Event.isResolve mid
      (by intro x; cases x <;> simp [Event.isChainRoute, Event.isResolve]) hmid
    have h2 := countP_eq_zero_of_chainRoute Event.isRouteDial mid
      (by intro x; cases x <;> simp [Event.isChainRoute, Event.isRouteDial]) hmid
    simp [List.countP_cons, List.countP_append, Event.isResolve, Event.isRouteDial, h1, h2]
  | dialError n conn err ip mid route network e ev res hmid h ih =>
    have h1 := countP_eq_zero_of_chainRoute Event.isResolve mid
      (by intro x; cases x <;> simp [Event.isChainRoute, Event.isResolve]) hmid
    have h2 := countP_eq_zero_of_chainRoute Event.isRouteDial mid
      (by intro x; cases x <;> simp [Event.isChainRoute, Event.isRouteDial]) hmid
    obtain ⟨i1, i2, i3, _, _, _⟩ := ih
    simp only [List.countP_cons, List.countP_append, Event.isResolve, Event.isRouteDial, h1, h2,
      List.find?_cons]
    simp only [reduceCtorEq, if_true, if_false, Option.some.injEq, Event.resolve.injEq,
      Bool.false_eq_true]
    refine ⟨by omega, by omega, by omega, by omega, ?_, ?_⟩
    · intro a ip' _
      omega
    · intro a e' h'
      simp at h'

/-- The events of `Router.record`. -/
theorem record_shape (env : Env) (o : RouterOptions) (name : String) (data : Bytes)
    (tr : List Event) :
    (Router.record env o name data tr).2 = tr ∨
    (∃ rec, o.Recorders.find? (fun rec => rec.Record = name) = some rec ∧ data ≠ [] ∧
      (Router.record env o name data tr).2 = tr ++ [Event.sinkRecord rec.Recorder data]) := by
  unfold Router.record
  split
  · exact Or.inl rfl
  · rename_i hd
    cases hf : o.Recorders.find? (fun rec => rec.Record = name) with
    | none => exact Or.inl rfl
    | some rec =>
      refine Or.inr ⟨rec, rfl, ?_, rfl⟩
      intro h
      exact hd (by simp [h])

/-- The events of `Router.Dial`: a recorder invocation at most, a run of the retry loop, and a
recorder invocation at most, which stays out when the loop leaves no error. -/
theorem Dial_run (env : Env) (o : RouterOptions) (network address : String) (tr : List Event) :
    ∃ rec1 ev rec2 res,
      (Router.Dial env o network address tr).2 = tr ++ (rec1 ++ (ev ++ rec2)) ∧
      (Router.dial env o network address (Router.record env o RecorderServiceRouterDialAddress
        (bytesOf (Router.dialHost env address)) tr).2).1 = res ∧
      (∀ x ∈ rec1, ∃ s d, x = Event.sinkRecord s d ∧ d ≠ []) ∧
      (∀ x ∈ rec2, ∃ s d, x = Event.sinkRecord s d ∧ d ≠ []) ∧
      DialRun address (retryCount o.Retries).toNat none none ev res ∧
      (Router.Dial env o network address tr).1.2 = res.2 ∧
      (res.2 = none → rec2 = [] ∧
        ((Router.Dial env o network address tr).1.1 = res.1 ∨
          (Router.Dial env o network address tr).1.1 = some (Conn.packetConn res.1))) ∧
      (res.2 ≠ none → (Router.Dial env o network address tr).1.1 = res.1) ∧
      (∀ x ∈ rec1 ++ rec2, ∃ rec, rec ∈ o.Recorders ∧
        (rec.Record = RecorderServiceRouterDialAddress ∨
          rec.Record = RecorderServiceRouterDialAddressError) ∧
        x = Event.sinkRecord rec.Recorder (bytesOf (Router.dialHost env address))) := by
  have hrec1 := record_shape env o RecorderServiceRouterDialAddress
    (bytesOf (Router.dialHost env address)) tr
  obtain ⟨rec1, h1, hr1, hq1⟩ : ∃ rec1, (Router.record env o RecorderServiceRouterDialAddress
      (bytesOf (Router.dialHost env address)) tr).2
        = tr ++ rec1 ∧ (∀ x ∈ rec1, ∃ s d, x = Event.sinkRecord s d ∧ d ≠ []) ∧
        (∀ x ∈ rec1, ∃ rec, rec ∈ o.Recorders ∧
          (rec.Record = RecorderServiceRouterDialAddress ∨
            rec.Record = RecorderServiceRouterDialAddressError) ∧
          x = Event.sinkRecord rec.Recorder (bytesOf (Router.dialHost env address))) := by
    rcases hrec1 with h | ⟨rec, hf, hd, h⟩
    · exact ⟨[], by simpa using h, by simp, by simp⟩
    · refine ⟨[Event.sinkRecord rec.Recorder _], h, ?_, ?_⟩
      · intro x hx
        rw [List.mem_singleton] at hx
        exact ⟨_, _, hx, hd⟩
      · intro x hx
        rw [List.mem_singleton] at hx
        exact ⟨rec, List.mem_of_find?_eq_some hf,
          Or.inl (by simpa using List.find?_some hf), hx⟩
  obtain ⟨ev, hev, hrun⟩ := dialLoop_run env o network address (retryCount o.Retries).toNat
    none none (tr ++ rec1)
  have hdial : Router.dial env o network address (tr ++ rec1) =
      ((Router.dialLoop env o network address (retryCount o.Retries).toNat none none
        (tr ++ rec1)).1, tr ++ (rec1 ++ ev)) := by
    unfold Router.dial
    rw [Prod.ext_iff]
    exact ⟨rfl, by simpa using hev⟩
  cases he : (Router.dialLoop env o network address (retryCount o.Retries).toNat none none
      (tr ++ rec1)).1.2 with
  | none =>
    refine ⟨rec1, ev, [], _, ?_, by rw [h1, hdial], hr1, by simp, hrun, ?_, ?_, ?_,
      by simpa using hq1⟩
    · unfold Router.Dial
      simp only [h1, hdial, he]
      split <;> simp
    · unfold Router.Dial
      simp only [h1, hdial, he]
      split <;> simp
    · intro _
      refine ⟨rfl, ?_⟩
      unfold Router.Dial
      simp only [h1, hdial, he]
      split
      · exact Or.inr rfl
      · exact Or.inl rfl
    · intro h
      exact absurd he h
  | some e =>
    have hrec2 := record_shape env o RecorderServiceRouterDialAddressError
      (bytesOf (Router.dialHost env address))
      (tr ++ (rec1 ++ ev))
    obtain ⟨rec2, h2, hr2, hq2⟩ : ∃ rec2, (Router.record env o RecorderServiceRouterDialAddressError
        (bytesOf (Router.dialHost env address))
        (tr ++ (rec1 ++ ev))).2 = tr ++ (rec1 ++ ev) ++ rec2 ∧
          (∀ x ∈ rec2, ∃ s d, x = Event.sinkRecord s d ∧ d ≠ []) ∧
          (∀ x ∈ rec2, ∃ rec, rec ∈ o.Recorders ∧
            (rec.Record = RecorderServiceRouterDialAddress ∨
              rec.Record = RecorderServiceRouterDialAddressError) ∧
            x = Event.sinkRecord rec.Recorder (bytesOf (Router.dialHost env address))) := by
      rcases hrec2 with h | ⟨rec, hf, hd, h⟩
      · exact ⟨[], by simpa using h, by simp, by simp⟩
      · refine ⟨[Event.sinkRecord rec.Recorder _], h, ?_, ?_⟩
        · intro x hx
          rw [List.mem_singleton] at hx
          exact ⟨_, _, hx, hd⟩
        · intro x hx
          rw [List.mem_singleton] at hx
          exact ⟨rec, List.mem_of_find?_eq_some hf,
            Or.inr (by simpa using List.find?_some hf), hx⟩
    refine ⟨rec1, ev, rec2, _, ?_, by rw [h1, hdial], hr1, hr2, hrun, ?_, ?_, ?_, ?_⟩
    · unfold Router.Dial
      simp only [h1, hdial, he, h2]
      simp
    · unfold Router.Dial
      simp only [h1, hdial, he]
    · intro h
      rw [he] at h
      exact absurd h (by simp)
    · intro _
      unfold Router.Dial
      simp only [h1, hdial, he]
    · intro x hx
      rw [List.mem_append] at hx
      rcases hx with hx | hx
      · exact hq1 x hx
      · exact hq2 x hx

/-- Recorder invocations are no resolution and no `Route.Dial`. -/
theorem sinkRecords_counts (recs : List Event)
    (h : ∀ x ∈ recs, ∃ s d, x = Event.sinkRecord s d ∧ d ≠ []) :
    recs.countP Event.isResolve = 0 ∧ recs.countP Event.isRouteDial = 0 ∧
    recs.find? Event.isResolve = none := by
  refine ⟨?_, ?_, ?_⟩
  · rw [List.countP_eq_zero]
    intro x hx
    obtain ⟨s, d, rfl, _⟩ := h x hx
    simp [Event.isResolve]
  · rw [List.countP_eq_zero]
    intro x hx
    obtain ⟨s, d, rfl, _⟩ := h x hx
    simp [Event.isRouteDial]
  · rw [List.find?_eq_none]
    intro x hx
    obtain ⟨s, d, rfl, _⟩ := h x hx
    simp [Event.isResolve]

/-- One iteration of the retry loop resolves once and invokes `Route.Dial` once at most. -/
theorem dialIter_counts (env : Env) (o : RouterOptions) (network address : String)
    (conn : Option Conn) (tr : List Event) :
    ∃ it, (Router.dialIter env o network address conn tr).2.2 = tr ++ it ∧
      it.countP Event.isResolve = 1 ∧ it.countP Event.isRouteDial ≤ 1 := by
  rcases dialIter_shape env o network address conn tr with ⟨e, he⟩ | ⟨ip, mid, route, hmid, _, h⟩
  · exact ⟨_, by rw [he], by simp [Event.isResolve], by simp [Event.isRouteDial]⟩
  · have h1 := countP_eq_zero_of_chainRoute Event.isResolve mid
      (by intro x; cases x <;> simp [Event.isChainRoute, Event.isResolve]) hmid
    have h2 := countP_eq_zero_of_chainRoute Event.isRouteDial mid
      (by intro x; cases x <;> simp [Event.isChainRoute, Event.isRouteDial]) hmid
    rcases h with ⟨c, hc⟩ | ⟨e, he⟩
    · exact ⟨_, by rw [hc],
        by simp [List.countP_cons, List.countP_append, Event.isResolve, h1],
        by simp [List.countP_cons, List.countP_append, Event.isRouteDial, h2]⟩
    · exact ⟨_, by rw [he],
        by simp [List.countP_cons, List.countP_append, Event.isResolve, h1],
        by simp [List.countP_cons, List.countP_append, Event.isRouteDial, h2]⟩

theorem dialResults_of_chainRoute (mid : List Event) (hmid : ∀ x ∈ mid, x.isChainRoute = true) :
    dialResults mid = [] := by
  unfold dialResults
  rw [List.filterMap_eq_nil_iff]
  intro x hx
  have := hmid x hx
  cases x <;> simp_all [Event.isChainRoute, Event.dialResult]

theorem dialResults_of_sinkRecords (recs : List Event)
    (h : ∀ x ∈ recs, ∃ s d, x = Event.sinkRecord s d ∧ d ≠ []) : dialResults recs = [] := by
  unfold dialResults
  rw [List.filterMap_eq_nil_iff]
  intro x hx
  obtain ⟨s, d, rfl, _⟩ := h x hx
  rfl

/-- The attempts of a run in which no resolution fails: the run ends with the first attempt that
succeeds and returns its connection, or makes all `n` attempts and returns the last error. -/
theorem DialRun.attempts {address : String} {n : Nat} {conn : Option Conn} {err : Option GoError}
    {ev : List Event} {res : Option Conn × Option GoError}
    (h : DialRun address n conn err ev res) (hres : ∀ x ∈ ev, x.isResolveError = false) :
    (dialResults ev).length ≤ n ∧
    (∀ k c, (dialResults ev)[k]? = some (.ok c) →
      (dialResults ev).length = k + 1 ∧ res = (some c, none)) ∧
    (∀ j, j + 1 < (dialResults ev).length → ∃ e, (dialResults ev)[j]? = some (.error e)) ∧
    ((∀ d ∈ dialResults ev, ∃ e, d = Except.error e) →
      (dialResults ev).length = n ∧ (n = 0 → res = (conn, err)) ∧
      (∀ d, (dialResults ev).getLast? = some d → ∃ e, d = Except.error e ∧ res = (none, some e)))
    := by
  induction h with
  | done conn err => simp [dialResults]
  | resolveError n conn err e =>
    have := hres (Event.resolve address (.error e)) (by simp)
    simp [Event.isResolveError] at this
  | dialOk n conn err ip mid route network c hmid =>
    have hm := dialResults_of_chainRoute mid hmid
    have hds : dialResults (Event.resolve address (.ok ip) ::
        (mid ++ [Event.routeDial route network ip (.ok c)])) = [Except.ok c] := by
      unfold dialResults at hm ⊢
      simp [List.filterMap_cons, List.filterMap_append, Event.dialResult, hm]
    rw [hds]
    refine ⟨by simp, ?_, ?_, ?_⟩
    · intro k c1 hk
      cases k with
      | zero =>
        simp only [List.getElem?_cons_zero, Option.some.injEq, Except.ok.injEq] at hk
        subst hk
        simp
      | succ k => simp at hk
    · intro j hj
      simp at hj
    · intro hall
      obtain ⟨e, he⟩ := hall (Except.ok c) (by simp)
      cases he
  | dialError n conn err ip mid route network e ev res hmid h ih =>
    have hm := dialResults_of_chainRoute mid hmid
    have hds : dialResults (Event.resolve address (.ok ip) ::
        (mid ++ Event.routeDial route network ip (.error e) :: ev)) =
          Except.error e :: dialResults ev := by
      unfold dialResults at hm ⊢
      simp [List.filterMap_cons, List.filterMap_append, Event.dialResult, hm]
    rw [hds]
    obtain ⟨i1, i2, i3, i4⟩ := ih (by
      intro x hx
      exact hres x (by simp [hx]))
    refine ⟨by simpa using i1, ?_, ?_, ?_⟩
    · intro k c hk
      cases k with
      | zero => simp at hk
      | succ k =>
        rw [List.getElem?_cons_succ] at hk
        obtain ⟨hl, hr⟩ := i2 k c hk
        exact ⟨by simp [hl], hr⟩
    · intro j hj
      cases j with
      | zero => exact ⟨e, by simp⟩
      | succ j =>
        rw [List.getElem?_cons_succ]
        exact i3 j (by simpa using hj)
    · intro hall
      obtain ⟨j1, j2, j3⟩ := i4 (by
        intro d hd
        exact hall d (by simp [hd]))
      refine ⟨by simp [j1], by simp, ?_⟩
      intro d hd
      cases hds2 : dialResults ev with
      | nil =>
        rw [hds2] at hd j1
        simp only [List.getLast?_singleton, Option.some.injEq] at hd
        subst hd
        exact ⟨e, rfl, j2 (by simpa using j1.symm)⟩
      | cons d1 ds1 =>
        rw [hds2, List.getLast?_cons_cons] at hd
        rw [hds2] at j3
        exact j3 d hd

/-- Splitting a list made of three parts at an element that only the middle part can hold. -/
theorem split_in_middle {α : Type} (p : α → Bool) (y : α) (hy : p y = true) :
    ∀ (a b c pre post : List α), (∀ x ∈ a, p x = false) → (∀ x ∈ c, p x = false) →
      a ++ (b ++ c) = pre ++ y :: post →
      ∃ pre1 post1, b = pre1 ++ y :: post1 ∧ post = post1 ++ c ∧ pre = a ++ pre1 := by
  intro a
  induction a with
  | nil =>
    intro b
    induction b with
    | nil =>
      intro c pre post _ hc h
      have hmem : y ∈ c := by
        simp only [List.nil_append] at h
        rw [h]
        simp
      have := hc y hmem
      rw [hy] at this
      cases this
    | cons b0 b ih =>
      intro c pre post ha hc h
      cases pre with
      | nil =>
        simp only [List.nil_append, List.cons_append, List.cons.injEq] at h
        exact ⟨[], b, by simp [h.1], h.2.symm, rfl⟩
      | cons p0 pre =>
        simp only [List.nil_append, List.cons_append, List.cons.injEq] at h
        obtain ⟨pre1, post1, h1, h2, h3⟩ := ih c pre post ha hc (by simpa using h.2)
        exact ⟨b0 :: pre1, post1, by simp [h1], h2, by simp [h.1, h3]⟩
  | cons a0 a ih =>
    intro b c pre post ha hc h
    cases pre with
    | nil =>
      simp only [List.nil_append, List.cons_append, List.cons.injEq] at h
      have := ha a0 (by simp)
      rw [h.1, hy] at this
      cases this
    | cons p0 pre =>
      simp only [List.cons_append, List.cons.injEq] at h
      obtain ⟨pre1, post1, h1, h2, h3⟩ :=
        ih b c pre post (fun x hx => ha x (by simp [hx])) hc h.2
      exact ⟨pre1, post1, h1, h2, by simp [h.1, h3]⟩

/-- In a run, a failed resolution is the last event and its error is the error of the run. -/
theorem DialRun.resolve_error_last {address : String} {n : Nat} {conn : Option Conn}
    {err : Option GoError} {ev : List Event} {res : Option Conn × Option GoError}
    (h : DialRun address n conn err ev res) :
    ∀ pre post a e, ev = pre ++ Event.resolve a (.error e) :: post →
      post = [] ∧ res.2 = some e := by
  induction h with
  | done conn err =>
    intro pre post a e h
    simp at h
  | resolveError n conn err e0 =>
    intro pre post a e h
    cases pre with
    | nil =>
      simp only [List.nil_append, List.cons.injEq, Event.resolve.injEq, Except.error.injEq] at h
      exact ⟨h.2.symm, by rw [h.1.2]⟩
    | cons p0 pre => simp at h
  | dialOk n conn err ip mid route network c hmid =>
    intro pre post a e h
    have hy : Event.resolve a (.error e) ∈ Event.resolve address (.ok ip) ::
        (mid ++ [Event.routeDial route network ip (.ok c)]) := by
      rw [h]
      simp
    simp only [List.mem_cons, List.mem_append, Event.resolve.injEq, reduceCtorEq, and_false,
      List.mem_singleton, or_false, false_or, List.not_mem_nil] at hy
    have := hmid _ hy
    simp [Event.isChainRoute] at this
  | dialError n conn err ip mid route network e0 ev res hmid h ih =>
    intro pre post a e heq
    have hsplit := split_in_middle Event.isResolveError (Event.resolve a (.error e)) rfl
      (Event.resolve address (.ok ip) :: (mid ++ [Event.routeDial route network ip (.error e0)]))
      ev [] pre post
      (by
        intro x hx
        simp only [List.mem_cons, List.mem_append, List.mem_singleton, List.not_mem_nil,
          or_false] at hx
        rcases hx with rfl | hx | rfl
        · rfl
        · have := hmid x hx
          cases x <;> first | rfl | (simp [Event.isChainRoute] at this)
        · rfl)
      (by simp)
      (by simpa using heq)
    obtain ⟨pre1, post1, h1, h2, _⟩ := hsplit
    obtain ⟨i1, i2⟩ := ih pre1 post1 a e h1
    exact ⟨by simp [h2, i1], i2⟩

/-- C2 (amended): for every `Router.Dial` call in which every resolution succeeds, with `n` the
iteration count of the source (`Retries + 1` in Go `int` arithmetic, 1 when that is not
positive), which is `max(Retries+1, 1)` whenever `Retries` is below the largest `int`:
`Route.Dial` is invoked at least once and every attempt but the last fails; if the `k`-th attempt
succeeds, `Route.Dial` is invoked exactly `k` times and the retry loop returns that attempt's
connection with no error; if all attempts fail, `Route.Dial` is invoked exactly `n` times and
`Dial` returns the error of the last attempt and no connection. -/
theorem c2_first_success_or_last_error (env : Env) (o : RouterOptions) (network address : String)
    (tr : List Event) (hR : isGoInt o.Retries)
    (hres : ∀ x ∈ newEvents tr (Router.Dial env o network address tr).2,
      x.isResolveError = false) :
    (o.Retries < 2 ^ 63 - 1 → ((retryCount o.Retries).toNat : Int) = max (o.Retries + 1) 1) ∧
    1 ≤ (Router.dialAttempts env o network address tr).length ∧
    (Router.dialAttempts env o network address tr).length ≤ (retryCount o.Retries).toNat ∧
    (∀ j, j + 1 < (Router.dialAttempts env o network address tr).length →
      ∃ e, (Router.dialAttempts env o network address tr)[j]? = some (.error e)) ∧
    (∀ k c, 1 ≤ k → (Router.dialAttempts env o network address tr)[k - 1]? = some (.ok c) →
      (Router.dialAttempts env o network address tr).length = k ∧
      (Router.dial env o network address (Router.record env o RecorderServiceRouterDialAddress
        (bytesOf (Router.dialHost env address)) tr).2).1 = (some c, none) ∧
      (Router.Dial env o network address tr).1.2 = none ∧
      ((Router.Dial env o network address tr).1.1 = some c ∨
        (Router.Dial env o network address tr).1.1 = some (Conn.packetConn (some c)))) ∧
    ((∀ d ∈ Router.dialAttempts env o network address tr, dialFailed d = true) →
      (Router.dialAttempts env o network address tr).length = (retryCount o.Retries).toNat ∧
      ∃ e, (Router.dialAttempts env o network address tr).getLast? = some (.error e) ∧
        (Router.Dial env o network address tr).1 = (none, some e)) := by
  obtain ⟨rec1, ev, rec2, res, htr, hloop, hr1, hr2, hrun, herr, hok, hfail, _⟩ :=
    Dial_run env o network address tr
  have hnew : newEvents tr (Router.Dial env o network address tr).2 = rec1 ++ (ev ++ rec2) := by
    rw [htr]
    exact newEvents_append _ _
  have hds : Router.dialAttempts env o network address tr = dialResults ev := by
    unfold Router.dialAttempts
    rw [hnew]
    have e1 := dialResults_of_sinkRecords rec1 hr1
    have e2 := dialResults_of_sinkRecords rec2 hr2
    unfold dialResults at e1 e2 ⊢
    simp [List.filterMap_append, e1, e2]
  have hres1 : ∀ x ∈ ev, x.isResolveError = false := by
    intro x hx
    exact hres x (by rw [hnew]; simp [hx])
  obtain ⟨a1, a2, a3, a4⟩ := hrun.attempts hres1
  obtain ⟨_, _, _, c4, _, _⟩ := hrun.counts
  have hpos := retryCount_pos o.Retries
  rw [hds]
  refine ⟨?_, ?_, a1, a3, ?_, ?_⟩
  · intro h1
    rw [← retryCount_eq_max o.Retries hR h1]
    omega
  · by_contra hlen
    have hnil : dialResults ev = [] := by
      cases hd : dialResults ev with
      | nil => rfl
      | cons d ds =>
        rw [hd] at hlen
        simp at hlen
    obtain ⟨j1, _, _⟩ := a4 (by rw [hnil]; simp)
    rw [hnil] at j1
    simp only [List.length_nil] at j1
    omega
  · intro k c hk hget
    obtain ⟨b1, b2⟩ := a2 (k - 1) c hget
    have hres2 : res.2 = none := by rw [b2]
    obtain ⟨_, hconn⟩ := hok hres2
    refine ⟨by omega, by rw [hloop, b2], by rw [herr, hres2], ?_⟩
    rw [b2] at hconn
    exact hconn
  · intro hall
    obtain ⟨j1, j2, j3⟩ := a4 (by
      intro d hd
      have := hall d hd
      cases d with
      | error e => exact ⟨e, rfl⟩
      | ok c => simp [dialFailed] at this)
    refine ⟨j1, ?_⟩
    cases hl : (dialResults ev).getLast? with
    | none =>
      have hnil : dialResults ev = [] := by
        cases hd : dialResults ev with
        | nil => rfl
        | cons d ds =>
          rw [hd, List.getLast?_cons] at hl
          cases hl
      rw [hnil] at j1
      simp only [List.length_nil] at j1
      omega
    | some d =>
      obtain ⟨e, he, hr⟩ := j3 d hl
      refine ⟨e, by rw [he], ?_⟩
      have h1 : (Router.Dial env o network address tr).1.1 = res.1 :=
        hfail (by rw [hr]; simp)
      rw [Prod.ext_iff]
      exact ⟨by rw [h1, hr], by rw [herr, hr]⟩

/-- C2, a concrete call: two retries, the first two routes refuse and the third connects. -/
theorem c2_first_success_or_last_error_witness :
    1 ≤ (Router.dialAttempts thirdTimeEnv ⟨none, 2, []⟩ "tcp" "example.com:80" []).length ∧
    (Router.dialAttempts thirdTimeEnv ⟨none, 2, []⟩ "tcp" "example.com:80" []).length ≤
      (retryCount 2).toNat ∧
    (Router.dialAttempts thirdTimeEnv ⟨none, 2, []⟩ "tcp" "example.com:80" []).length = 3 := by
  have h := c2_first_success_or_last_error thirdTimeEnv ⟨none, 2, []⟩ "tcp" "example.com:80" []
    (by decide) (by decide)
  exact ⟨h.2.1, h.2.2.1, by decide⟩

/-- C2 as stated fails at the largest `int`: every resolution succeeds and every route refuses,
`Retries + 1` wraps around, the count is normalised to 1 and `Route.Dial` is invoked once, not
`max(Retries+1, 1)` times. -/
theorem c2_largest_retries_single_attempt :
    isGoInt (2 ^ 63 - 1) ∧
    (∀ x ∈ newEvents [] (Router.Dial refusingEnv ⟨none, 2 ^ 63 - 1, []⟩ "tcp"
      "example.com:80" []).2, x.isResolveError = false) ∧
    (∀ d ∈ Router.dialAttempts refusingEnv ⟨none, 2 ^ 63 - 1, []⟩ "tcp" "example.com:80" [],
      dialFailed d = true) ∧
    (Router.dialAttempts refusingEnv ⟨none, 2 ^ 63 - 1, []⟩ "tcp" "example.com:80" []).length
      = 1 ∧
    ((Router.dialAttempts refusingEnv ⟨none, 2 ^ 63 - 1, []⟩ "tcp" "example.com:80" []).length
      : Int) ≠ max ((2 ^ 63 - 1 : Int) + 1) 1 := by
  decide

/-- C3: for every `Router.Dial` call and every `Retries`, if a resolution fails, then no
resolution, `Chain.Route` or `Route.Dial` is invoked afterwards in that call, and `Dial` returns
the error of that resolution. -/
theorem c3_resolution_failure_is_terminal (env : Env) (o : RouterOptions)
    (network address : String) (tr pre post : List Event) (a : String) (e : GoError)
    (h : newEvents tr (Router.Dial env o network address tr).2 =
      pre ++ Event.resolve a (.error e) :: post) :
    (∀ x ∈ post, x.isResolve = false ∧ x.isChainRoute = false ∧ x.isRouteDial = false) ∧
    (Router.Dial env o network address tr).1.2 = some e := by
  obtain ⟨rec1, ev, rec2, res, htr, _, hr1, hr2, hrun, herr, _, _⟩ :=
    Dial_run env o network address tr
  have hnew : newEvents tr (Router.Dial env o network address tr).2 = rec1 ++ (ev ++ rec2) := by
    rw [htr]
    exact newEvents_append _ _
  rw [hnew] at h
  have hrecs : ∀ (recs : List Event), (∀ x ∈ recs, ∃ s d, x = Event.sinkRecord s d ∧ d ≠ []) →
      ∀ x ∈ recs, x.isResolveError = false := by
    intro recs hrecs x hx
    obtain ⟨s, d, rfl, _⟩ := hrecs x hx
    rfl
  obtain ⟨pre1, post1, h1, h2, _⟩ := split_in_middle Event.isResolveError
    (Event.resolve a (.error e)) rfl rec1 ev rec2 pre post (hrecs rec1 hr1) (hrecs rec2 hr2) h
  obtain ⟨i1, i2⟩ := hrun.resolve_error_last pre1 post1 a e h1
  refine ⟨?_, by rw [herr, i2]⟩
  intro x hx
  rw [h2, i1] at hx
  obtain ⟨s, d, rfl, _⟩ := hr2 x (by simpa using hx)
  exact ⟨rfl, rfl, rfl⟩

/-- C3, a concrete call: the second resolution fails after a refused route; what follows is the
recorder invocation only, and `Dial` returns the resolution error. -/
theorem c3_resolution_failure_is_terminal_witness :
    (∀ x ∈ [Event.sinkRecord 5 (bytesOf "example.com")],
      x.isResolve = false ∧ x.isChainRoute = false ∧ x.isRouteDial = false) ∧
    (Router.Dial secondResolveFailsEnv
      ⟨none, 3, [⟨5, RecorderServiceRouterDialAddressError⟩]⟩ "tcp" "example.com:80" []).1.2
        = some "no such host" :=
  c3_resolution_failure_is_terminal secondResolveFailsEnv
    ⟨none, 3, [⟨5, RecorderServiceRouterDialAddressError⟩]⟩ "tcp" "example.com:80" []
    [Event.resolve "example.com:80" (.ok "10.0.0.1:80"),
      Event.routeDial DefaultRoute "tcp" "10.0.0.1:80" (.error "refused")]
    [Event.sinkRecord 5 (bytesOf "example.com")] "example.com:80" "no such host" (by rfl)

/-- The events of one iteration of the retry loop of `Router.Bind`. -/
theorem bindIter_shape (env : Env) (o : RouterOptions) (network address : String)
    (ln : Option Listener) (tr : List Event) :
    (∃ y, o.Chain.isSome = true ∧ y.isEmptyChainRoute = true ∧
      Router.bindIter env o network address ln tr = (true, (ln, some ErrEmptyRoute), tr ++ [y])) ∨
    (∃ mid route, (∀ x ∈ mid, x.isEmptyChainRoute = false) ∧
      (o.Chain = none → mid = [] ∧ route = DefaultRoute) ∧
      ((∃ l, Router.bindIter env o network address ln tr =
          (true, (some l, none), tr ++ (mid ++ [Event.routeBind route network address (.ok l)]))) ∨
       (∃ e, Router.bindIter env o network address ln tr =
          (false, (none, some e),
            tr ++ (mid ++ [Event.routeBind route network address (.error e)]))))) := by
  unfold Router.bindIter
  cases hc : o.Chain with
  | none =>
    right
    refine ⟨[], DefaultRoute, by simp, by simp, ?_⟩
    simp only [Router.bindTry, routeOrDefault]
    cases hb : env.routeBind tr DefaultRoute network address with
    | ok l => exact Or.inl ⟨l, by simp⟩
    | error e => exact Or.inr ⟨e, by simp⟩
  | some c =>
    simp only
    cases hr : env.chainRoute tr c network address none with
    | none => exact Or.inl ⟨Event.chainRoute c network address none none, rfl, rfl, rfl⟩
    | some rt =>
      simp only
      by_cases hn : rt.Nodes.length = 0
      · rw [if_pos hn]
        exact Or.inl ⟨Event.chainRoute c network address none (some rt), rfl,
          by simp [Event.isEmptyChainRoute, hn], rfl⟩
      · rw [if_neg hn]
        right
        refine ⟨[Event.chainRoute c network address none (some rt)], rt,
          by simp [Event.isEmptyChainRoute, hn], by simp, ?_⟩
        simp only [Router.bindTry, routeOrDefault]
        cases hb : env.routeBind (tr ++ [Event.chainRoute c network address none (some rt)]) rt
          network address with
        | ok l => exact Or.inl ⟨l, by simp⟩
        | error e => exact Or.inr ⟨e, by simp⟩

/-- Every call of the retry loop of `Router.Bind` is one of the runs. -/
theorem bindLoop_run (env : Env) (o : RouterOptions) (network address : String) :
    ∀ (n : Nat) (ln : Option Listener) (err : Option GoError) (tr : List Event),
      ∃ ev, (Router.bindLoop env o network address n ln err tr).2 = tr ++ ev ∧
        BindRun o.Chain network address n ln err ev
          (Router.bindLoop env o network address n ln err tr).1 := by
  intro n
  induction n with
  | zero =>
    intro ln err tr
    exact ⟨[], by simp [Router.bindLoop], by simpa [Router.bindLoop] using BindRun.done ln err⟩
  | succ n ih =>
    intro ln err tr
    rcases bindIter_shape env o network address ln tr with
      ⟨y, hc, hy, he⟩ | ⟨mid, route, hmid, hnone, h⟩
    · refine ⟨[y], ?_, ?_⟩
      · simp [Router.bindLoop, he]
      · simpa [Router.bindLoop, he] using BindRun.emptyRoute n ln err y hc hy
    · rcases h with ⟨l, hl⟩ | ⟨e, he⟩
      · refine ⟨mid ++ [Event.routeBind route network address (.ok l)], ?_, ?_⟩
        · simp [Router.bindLoop, hl]
        · simpa [Router.bindLoop, hl] using BindRun.bindOk n ln err mid route l hmid hnone
      · obtain ⟨ev, hev, hrun⟩ := ih none (some e)
          (tr ++ (mid ++ [Event.routeBind route network address (.error e)]))
        refine ⟨mid ++ Event.routeBind route network address (.error e) :: ev, ?_, ?_⟩
        · simp only [Router.bindLoop, he]
          simpa using hev
        · simp only [Router.bindLoop, he]
          exact BindRun.bindError n ln err mid route e ev _ hmid hnone (by simpa using hrun)

/-- In a run of `Router.Bind`, an empty answer of the chain is the last event, the error is
`ErrEmptyRoute`, and the listener is the one the run was entered with or nil. -/
theorem BindRun.empty_route_last {chain : Option Nat} {network address : String} {n : Nat}
    {ln : Option Listener} {err : Option GoError} {ev : List Event}
    {res : Option Listener × Option GoError}
    (h : BindRun chain network address n ln err ev res) :
    ∀ pre post y, ev = pre ++ y :: post → y.isEmptyChainRoute = true →
      post = [] ∧ res.2 = some ErrEmptyRoute ∧ (ln = none → res.1 = none) := by
  induction h with
  | done ln err =>
    intro pre post y h
    simp at h
  | emptyRoute n ln err y0 hc hy0 =>
    intro pre post y h _
    cases pre with
    | nil =>
      simp only [List.nil_append, List.cons.injEq] at h
      exact ⟨h.2.symm, rfl, fun hl => hl⟩
    | cons p0 pre => simp at h
  | bindOk n ln err mid route l hmid hnone =>
    intro pre post y h hy
    have hmem : y ∈ mid ++ [Event.routeBind route network address (.ok l)] := by
      rw [h]
      simp
    simp only [List.mem_append, List.mem_singleton] at hmem
    rcases hmem with hm | rfl
    · rw [hmid y hm] at hy
      cases hy
    · simp [Event.isEmptyChainRoute] at hy
  | bindError n ln err mid route e ev res hmid hnone h ih =>
    intro pre post y heq hy
    obtain ⟨pre1, post1, h1, h2, _⟩ := split_in_middle Event.isEmptyChainRoute y hy
      (mid ++ [Event.routeBind route network address (.error e)]) ev [] pre post
      (by
        intro x hx
        simp only [List.mem_append, List.mem_singleton] at hx
        rcases hx with hx | rfl
        · exact hmid x hx
        · rfl)
      (by simp)
      (by simpa using heq)
    obtain ⟨i1, i2, i3⟩ := ih pre1 post1 y h1 hy
    exact ⟨by simp [h2, i1], i2, fun _ => i3 rfl⟩

/-- Without a chain, a run of `Router.Bind` only invokes `Route.Bind` on the default route, and
does so at least once when an iteration is left. -/
theorem BindRun.default_route {network address : String} {n : Nat}
    {ln : Option Listener} {err : Option GoError} {ev : List Event}
    {res : Option Listener × Option GoError}
    (h : BindRun none network address n ln err ev res) :
    (∀ x ∈ ev, ∃ r, x = Event.routeBind DefaultRoute network address r) ∧
    (0 < n → 1 ≤ ev.length) := by
  induction h with
  | done ln err => simp
  | emptyRoute n ln err y hc hy => simp at hc
  | bindOk n ln err mid route l hmid hnone =>
    obtain ⟨h1, h2⟩ := hnone rfl
    subst h1 h2
    simp
  | bindError n ln err mid route e ev res hmid hnone h ih =>
    obtain ⟨h1, h2⟩ := hnone rfl
    subst h1 h2
    obtain ⟨i1, _⟩ := ih
    refine ⟨?_, by simp⟩
    intro x hx
    simp only [List.nil_append, List.mem_cons] at hx
    rcases hx with rfl | hx
    · exact ⟨_, rfl⟩
    · exact i1 x hx

/-- C4: for every `Router.Bind` call with a configured chain `c`, as soon as `Chain.Route`
returns nil or a route with zero nodes, `Bind` returns `ErrEmptyRoute` with no listener and
nothing is invoked afterwards (no `Route.Bind` in that iteration, no further iteration); when the
chain answers so in the first iteration, the call consists of that one consultation of the chain,
whatever the value of `Retries`.  Without a chain, `Bind` invokes `Route.Bind` on the default
route, at least once, and never consults a chain. -/
theorem c4_bind_empty_route (env : Env) (o : RouterOptions) (c : Nat)
    (network address : String) (tr : List Event) :
    (∀ pre post y,
      newEvents tr (Router.Bind env { o with Chain := some c } network address tr).2 =
        pre ++ y :: post →
      y.isEmptyChainRoute = true →
      post = [] ∧
      (Router.Bind env { o with Chain := some c } network address tr).1 =
        (none, some ErrEmptyRoute)) ∧
    ((Event.chainRoute c network address none
        (env.chainRoute tr c network address none)).isEmptyChainRoute = true →
      (Router.Bind env { o with Chain := some c } network address tr) =
        ((none, some ErrEmptyRoute),
          tr ++ [Event.chainRoute c network address none
            (env.chainRoute tr c network address none)])) ∧
    (∀ x ∈ newEvents tr (Router.Bind env { o with Chain := none } network address tr).2,
      ∃ r, x = Event.routeBind DefaultRoute network address r) ∧
    1 ≤ (newEvents tr (Router.Bind env { o with Chain := none } network address tr).2).length
    := by
  have hpos := retryCount_pos o.Retries
  refine ⟨?_, ?_, ?_⟩
  · intro pre post y h hy
    obtain ⟨ev, hev, hrun⟩ := bindLoop_run env { o with Chain := some c } network address
      (retryCount o.Retries).toNat none none tr
    have hnew : newEvents tr (Router.Bind env { o with Chain := some c } network address tr).2
        = ev := by
      unfold Router.Bind
      rw [hev]
      exact newEvents_append _ _
    rw [hnew] at h
    obtain ⟨i1, i2, i3⟩ := hrun.empty_route_last pre post y h hy
    refine ⟨i1, ?_⟩
    unfold Router.Bind
    rw [Prod.ext_iff]
    exact ⟨i3 rfl, i2⟩
  · intro hy
    obtain ⟨m, hm⟩ : ∃ m, (retryCount o.Retries).toNat = m + 1 :=
      ⟨(retryCount o.Retries).toNat - 1, by omega⟩
    unfold Router.Bind
    simp only [hm, Router.bindLoop, Router.bindIter]
    cases hr : env.chainRoute tr c network address none with
    | none => rfl
    | some rt =>
      rw [hr] at hy
      have hn : rt.Nodes.length = 0 := by simpa [Event.isEmptyChainRoute] using hy
      simp [hn]
  · obtain ⟨ev, hev, hrun⟩ := bindLoop_run env { o with Chain := none } network address
      (retryCount o.Retries).toNat none none tr
    have hnew : newEvents tr (Router.Bind env { o with Chain := none } network address tr).2
        = ev := by
      unfold Router.Bind
      rw [hev]
      exact newEvents_append _ _
    rw [hnew]
    obtain ⟨i1, i2⟩ := BindRun.default_route hrun
    exact ⟨i1, i2 (by
      show 0 < (retryCount o.Retries).toNat
      omega)⟩

/-- A run of the retry loop of `Router.dial` invokes the resolver, the chain and routes only. -/
theorem DialRun.steps {address : String} {n : Nat} {conn : Option Conn} {err : Option GoError}
    {ev : List Event} {res : Option Conn × Option GoError}
    (h : DialRun address n conn err ev res) : ∀ x ∈ ev, x.isDialStep = true := by
  have hcr : ∀ x : Event, x.isChainRoute = true → x.isDialStep = true := by
    intro x hx
    cases x <;> first | rfl | (simp [Event.isChainRoute] at hx)
  induction h with
  | done conn err => simp
  | resolveError n conn err e => simp [Event.isDialStep]
  | dialOk n conn err ip mid route network c hmid =>
    intro x hx
    simp only [List.mem_cons, List.mem_append, List.mem_singleton, List.not_mem_nil,
      or_false] at hx
    rcases hx with rfl | hx | rfl
    · rfl
    · exact hcr x (hmid x hx)
    · rfl
  | dialError n conn err ip mid route network e ev res hmid h ih =>
    intro x hx
    simp only [List.mem_cons, List.mem_append] at hx
    rcases hx with rfl | hx | rfl | hx
    · rfl
    · exact hcr x (hmid x hx)
    · rfl
    · exact ih x hx

/-- C7: `p.Record(ctx, r)` returns no error and does not invoke the sink when `p` is absent,
when `r` is absent, or when `p.Time` is zero; otherwise, when `json.Marshal(p)` succeeds with
`data`, it invokes the sink exactly once, with `data`, and returns the error of the sink. -/
theorem c7_record_noop_or_single_emit (env : Env) (p : Option HandlerRecorderObject)
    (r : Option Nat) (q : HandlerRecorderObject) (s : Nat) (tr : List Event) :
    HandlerRecorderObject.Record env none r tr = (none, tr) ∧
    HandlerRecorderObject.Record env p none tr = (none, tr) ∧
    (q.Time.IsZero = true → HandlerRecorderObject.Record env (some q) r tr = (none, tr)) ∧
    (∀ data, q.Time.IsZero = false → env.jsonMarshal q = .ok data →
      HandlerRecorderObject.Record env (some q) (some s) tr =
        (env.sinkRecord tr s data, tr ++ [Event.sinkRecord s data])) ∧
    (∀ e, q.Time.IsZero = false → env.jsonMarshal q = .error e →
      HandlerRecorderObject.Record env (some q) (some s) tr = (some e, tr)) := by
  refine ⟨?_, ?_, ?_, ?_, ?_⟩
  · cases r <;> rfl
  · cases p <;> rfl
  · intro hz
    cases r with
    | none => rfl
    | some s1 => simp [HandlerRecorderObject.Record, hz]
  · intro data hz hm
    simp [HandlerRecorderObject.Record, hz, hm]
  · intro e hz hm
    simp [HandlerRecorderObject.Record, hz, hm]

/-- C9: `Router.record` invokes no recorder when the payload is empty; when it is not, it
invokes the first binding, in configuration order, whose tag equals `name`, exactly once and
with the payload unchanged, and no binding when none has that tag.  `Router.Dial` never invokes
a recorder with an empty payload, whatever the address. -/
theorem c9_record_first_binding (env : Env) (o : RouterOptions) (name : String) (data : Bytes)
    (network address : String) (tr : List Event) :
    Router.record env o name [] tr = (none, tr) ∧
    (data ≠ [] → ∀ pre rec post, o.Recorders = pre ++ rec :: post →
      (∀ x ∈ pre, x.Record ≠ name) → rec.Record = name →
      Router.record env o name data tr =
        (env.sinkRecord tr rec.Recorder data, tr ++ [Event.sinkRecord rec.Recorder data])) ∧
    (data ≠ [] → (∀ x ∈ o.Recorders, x.Record ≠ name) →
      Router.record env o name data tr = (none, tr)) ∧
    (∀ x ∈ newEvents tr (Router.Dial env o network address tr).2,
      ∀ s d, x = Event.sinkRecord s d → d ≠ []) := by
  refine ⟨by simp [Router.record], ?_, ?_, ?_⟩
  · intro hd pre rec post hrecs hpre hrec
    have hlen : ¬ data.length = 0 := by
      intro h
      exact hd (List.length_eq_zero.mp h)
    have hfind : o.Recorders.find? (fun rec => decide (rec.Record = name)) = some rec := by
      rw [hrecs, List.find?_append]
      have h1 : pre.find? (fun rec => decide (rec.Record = name)) = none := by
        rw [List.find?_eq_none]
        intro x hx
        simpa using hpre x hx
      rw [h1]
      simp [List.find?_cons, hrec]
    unfold Router.record
    rw [if_neg hlen, hfind]
  · intro hd hall
    have hlen : ¬ data.length = 0 := by
      intro h
      exact hd (List.length_eq_zero.mp h)
    have hfind : o.Recorders.find? (fun rec => decide (rec.Record = name)) = none := by
      rw [List.find?_eq_none]
      intro x hx
      simpa using hall x hx
    unfold Router.record
    rw [if_neg hlen, hfind]
  · obtain ⟨rec1, ev, rec2, res, htr, _, hr1, hr2, hrun, _, _, _⟩ :=
      Dial_run env o network address tr
    have hnew : newEvents tr (Router.Dial env o network address tr).2 = rec1 ++ (ev ++ rec2) := by
      rw [htr]
      exact newEvents_append _ _
    rw [hnew]
    intro x hx s d hxd
    simp only [List.mem_append] at hx
    rcases hx with hx | hx | hx
    · obtain ⟨s1, d1, h1, h2⟩ := hr1 x hx
      rw [h1] at hxd
      cases hxd
      exact h2
    · have := hrun.steps x hx
      rw [hxd] at this
      simp [Event.isDialStep] at this
    · obtain ⟨s1, d1, h1, h2⟩ := hr2 x hx
      rw [h1] at hxd
      cases hxd
      exact h2

/-- The events of `Router.Dial` are invocations of the resolver, the chain, routes and
recorders. -/
theorem Dial_events (env : Env) (o : RouterOptions) (network address : String)
    (tr : List Event) :
    ∃ ev, (Router.Dial env o network address tr).2 = tr ++ ev ∧
      ∀ x ∈ ev, x.isRouterCall = true := by
  obtain ⟨rec1, ev, rec2, res, htr, _, hr1, hr2, hrun, _, _, _⟩ :=
    Dial_run env o network address tr
  refine ⟨rec1 ++ (ev ++ rec2), htr, ?_⟩
  intro x hx
  simp only [List.mem_append] at hx
  rcases hx with hx | hx | hx
  · obtain ⟨s1, d1, rfl, _⟩ := hr1 x hx
    rfl
  · have := hrun.steps x hx
    cases x <;> first | rfl | (simp [Event.isDialStep] at this)
  · obtain ⟨s1, d1, rfl, _⟩ := hr2 x hx
    rfl

/-- The events of `openUpstream`: those of `Router.Dial`, or one unix dial, or one serial port
opened; no response frame is written. -/
theorem openUpstream_events (env : Env) (h : relayHandler) (network address : String)
    (ro : HandlerRecorderObject) (tr : List Event) :
    ∃ ev, (relayHandler.openUpstream env h network address ro tr).2.2.2 = tr ++ ev ∧
      ∀ x ∈ ev, x.isWriteTo = false := by
  unfold relayHandler.openUpstream
  by_cases h1 : network = "unix"
  · rw [if_pos h1]
    cases env.dialUnix tr address with
    | ok c => exact ⟨_, rfl, by simp [Event.isWriteTo]⟩
    | error e => exact ⟨_, rfl, by simp [Event.isWriteTo]⟩
  · rw [if_neg h1]
    by_cases h2 : network = "serial"
    · rw [if_pos h2]
      cases env.openSerial tr address with
      | ok c => exact ⟨_, rfl, by simp [Event.isWriteTo]⟩
      | error e => exact ⟨_, rfl, by simp [Event.isWriteTo]⟩
    · rw [if_neg h2]
      obtain ⟨ev, hev, hrc⟩ := Dial_events env h.options.Router network address tr
      refine ⟨ev, hev, ?_⟩
      intro x hx
      have := hrc x hx
      cases x <;> first | rfl | (simp [Event.isRouterCall] at this)

/-- When writing the response header fails, it is the only write: to the client when `noDelay`
is set, to the write buffer otherwise. -/
theorem writeHeader_error (env : Env) (h : relayHandler) (network : String) (resp : Response)
    (tr : List Event) (e : GoError)
    (he : (relayHandler.writeHeader env h network resp tr).1 = some e) :
    (relayHandler.writeHeader env h network resp tr).2.2 =
      tr ++ [Event.writeTo (!h.md.noDelay) resp] := by
  unfold relayHandler.writeHeader at he ⊢
  cases hn : h.md.noDelay with
  | true =>
    simp only [hn, if_true] at he ⊢
    cases hw : env.writeTo tr false resp with
    | some e1 => simp
    | none =>
      rw [hw] at he
      simp only [Bool.true_eq_false, if_false] at he
      split at he <;> simp at he
  | false =>
    simp only [hn, Bool.false_eq_true, if_false, if_true] at he ⊢
    split
    · cases hw : env.writeTo tr true resp <;> simp
    · cases hw : env.writeTo tr true resp <;> simp

/-- C10 (amended): a `handleConnect` call that fails on one of the three edges below writes
exactly one response frame to the client, of version 1, with the status of the edge: 400 when
the target address is empty, 403 when the bypass contains the target, 502 when opening the
upstream (through `Router.Dial`, a unix dial or a serial port) fails.  It returns an error in
each case, writes no other frame, and in the first two cases opens no upstream.  When the
upstream is open and writing the response header fails, the call returns the write error after
that single write of the OK frame, to the client when `noDelay` is set and to the write buffer
otherwise, and closes the upstream. -/
theorem c10_connect_failure_edges (env : Env) (h : relayHandler) (clientID : String)
    (conn : ClientConn) (network address : String) (ro : HandlerRecorderObject)
    (tr : List Event) :
    (Version1 = 1 ∧ StatusOK = 200 ∧ StatusBadRequest = 400 ∧ StatusForbidden = 403 ∧
      StatusNetworkUnreachable = 502) ∧
    (relayHandler.connectAddress env network address = "" →
      relayHandler.handleConnect env h clientID conn network address ro tr =
        ⟨some "target not specified", ro, tr ++ [Event.writeTo false ⟨1, 400⟩]⟩) ∧
    (relayHandler.connectAddress env network address ≠ "" →
      (relayHandler.checkBypass env h network
        (relayHandler.connectAddress env network address) tr).1 = true →
      relayHandler.handleConnect env h clientID conn network address ro tr =
        ⟨some ErrBypass, ro, tr ++ [Event.bypassContains network
          (relayHandler.connectAddress env network address) true,
          Event.writeTo false ⟨1, 403⟩]⟩) ∧
    (relayHandler.connectAddress env network address ≠ "" →
      (relayHandler.checkBypass env h network
        (relayHandler.connectAddress env network address) tr).1 = false →
      ∀ e, (relayHandler.openUpstream env h network
          (relayHandler.connectAddress env network address) ro
          (relayHandler.checkBypass env h network
            (relayHandler.connectAddress env network address) tr).2).2.1 = some e →
        (relayHandler.handleConnect env h clientID conn network address ro tr).err = some e ∧
        (∃ ev, (relayHandler.handleConnect env h clientID conn network address ro tr).tr =
            tr ++ (ev ++ [Event.writeTo false ⟨1, 502⟩]) ∧
          ∀ x ∈ ev, x.isWriteTo = false)) ∧
    (relayHandler.connectAddress env network address ≠ "" →
      (relayHandler.checkBypass env h network
        (relayHandler.connectAddress env network address) tr).1 = false →
      (relayHandler.openUpstream env h network
          (relayHandler.connectAddress env network address) ro
          (relayHandler.checkBypass env h network
            (relayHandler.connectAddress env network address) tr).2).2.1 = none →
      ∀ e, (relayHandler.writeHeader env h network ⟨1, 200⟩
          (relayHandler.openUpstream env h network
            (relayHandler.connectAddress env network address) ro
            (relayHandler.checkBypass env h network
              (relayHandler.connectAddress env network address) tr).2).2.2.2).1 = some e →
        (relayHandler.handleConnect env h clientID conn network address ro tr).err = some e ∧
        (∃ ev, (relayHandler.handleConnect env h clientID conn network address ro tr).tr =
            tr ++ (ev ++ [Event.writeTo (!h.md.noDelay) ⟨1, 200⟩, Event.upstreamClose]) ∧
          ∀ x ∈ ev, x.isWriteTo = false)) := by
  refine ⟨⟨rfl, rfl, rfl, rfl, rfl⟩, ?_, ?_, ?_, ?_⟩
  · intro ha
    unfold relayHandler.handleConnect
    simp only [ha, if_true]
    rfl
  · intro ha hb
    unfold relayHandler.handleConnect
    simp only [ha, if_false, hb, if_true]
    have htr : (relayHandler.checkBypass env h network
        (relayHandler.connectAddress env network address) tr).2 =
        tr ++ [Event.bypassContains network
          (relayHandler.connectAddress env network address) true] := by
      unfold relayHandler.checkBypass at hb ⊢
      cases hbp : h.options.Bypass with
      | none =>
        rw [hbp] at hb
        simp at hb
      | some b =>
        rw [hbp] at hb
        simp only at hb ⊢
        rw [hb]
    rw [htr]
    simp [Version1, StatusForbidden]
  · intro ha hb e he
    obtain ⟨ev, hev, hnw⟩ := openUpstream_events env h network
      (relayHandler.connectAddress env network address) ro
      (relayHandler.checkBypass env h network
        (relayHandler.connectAddress env network address) tr).2
    have hbtr : ∃ bev, (relayHandler.checkBypass env h network
        (relayHandler.connectAddress env network address) tr).2 = tr ++ bev ∧
        ∀ x ∈ bev, x.isWriteTo = false := by
      unfold relayHandler.checkBypass
      cases h.options.Bypass with
      | none => exact ⟨[], by simp, by simp⟩
      | some b => exact ⟨_, rfl, by simp [Event.isWriteTo]⟩
    obtain ⟨bev, hbev, hbnw⟩ := hbtr
    unfold relayHandler.handleConnect
    simp only [ha, if_false, hb, Bool.false_eq_true, he]
    refine ⟨trivial, bev ++ ev, ?_, ?_⟩
    · rw [hev, hbev]
      simp [Version1, StatusNetworkUnreachable]
    · intro x hx
      simp only [List.mem_append] at hx
      rcases hx with hx | hx
      · exact hbnw x hx
      · exact hnw x hx
  · intro ha hb hu e he
    obtain ⟨ev, hev, hnw⟩ := openUpstream_events env h network
      (relayHandler.connectAddress env network address) ro
      (relayHandler.checkBypass env h network
        (relayHandler.connectAddress env network address) tr).2
    have hbtr : ∃ bev, (relayHandler.checkBypass env h network
        (relayHandler.connectAddress env network address) tr).2 = tr ++ bev ∧
        ∀ x ∈ bev, x.isWriteTo = false := by
      unfold relayHandler.checkBypass
      cases h.options.Bypass with
      | none => exact ⟨[], by simp, by simp⟩
      | some b => exact ⟨_, rfl, by simp [Event.isWriteTo]⟩
    obtain ⟨bev, hbev, hbnw⟩ := hbtr
    have hw := writeHeader_error env h network ⟨1, 200⟩
      (relayHandler.openUpstream env h network
        (relayHandler.connectAddress env network address) ro
        (relayHandler.checkBypass env h network
          (relayHandler.connectAddress env network address) tr).2).2.2.2 e he
    have hc : (⟨Version1, StatusOK⟩ : Response) = ⟨1, 200⟩ := rfl
    unfold relayHandler.handleConnect
    simp only [ha, if_false, hb, Bool.false_eq_true, hu, hc, he]
    refine ⟨trivial, bev ++ ev, ?_, ?_⟩
    · rw [hw, hev, hbev]
      simp
    · intro x hx
      simp only [List.mem_append] at hx
      rcases hx with hx | hx
      · exact hbnw x hx
      · exact hnw x hx

/-- C10, a concrete call: a CONNECT to `10.0.0.1:22` whose route refuses; the frame of version
1 and status 502 is the only frame written and the dial error is returned. -/
theorem c10_connect_failure_edges_witness :
    (relayHandler.handleConnect unreachableEnv (plainRelay true false) "" tcpClient "tcp"
      "10.0.0.1:22" startedRecord []).err = some "connection refused" ∧
    (∃ ev, (relayHandler.handleConnect unreachableEnv (plainRelay true false) "" tcpClient "tcp"
        "10.0.0.1:22" startedRecord []).tr = [] ++ (ev ++ [Event.writeTo false ⟨1, 502⟩]) ∧
      ∀ x ∈ ev, x.isWriteTo = false) :=
  (c10_connect_failure_edges unreachableEnv (plainRelay true false) "" tcpClient "tcp"
    "10.0.0.1:22" startedRecord []).2.2.2.1 (by decide) (by decide) "connection refused"
    (by rfl)

/-- C10 as stated fails: with `noDelay` set, the upstream connects and the write of the OK
header to the client fails; `handleConnect` fails before the splice, the only frame written is
the OK frame (status 200), and the error is the write error. -/
theorem c10_header_write_failure_writes_ok_frame :
    (relayHandler.handleConnect brokenPipeEnv (plainRelay true false) "" tcpClient "tcp"
      "10.0.0.1:22" startedRecord []).err = some "broken pipe" ∧
    (relayHandler.handleConnect brokenPipeEnv (plainRelay true false) "" tcpClient "tcp"
      "10.0.0.1:22" startedRecord []).tr =
      [Event.resolve "10.0.0.1:22" (.ok "10.0.0.1:22"),
        Event.routeDial DefaultRoute "tcp" "10.0.0.1:22" (.ok (Conn.handle 1)),
        Event.writeTo false ⟨1, 200⟩,
        Event.upstreamClose] :=
  ⟨by rfl, by rfl⟩

/-! ## The paths of `forwardHandler.Handle` -/

theorem checkRateLimit_events (env : Env) (h : forwardHandler) (addr : Addr) (tr : List Event) :
    ∃ P, (forwardHandler.checkRateLimit env h addr tr).2 = tr ++ P ∧
      ∀ x ∈ P, x.isPrelude = true := by
  unfold forwardHandler.checkRateLimit
  cases h.options.RateLimiter with
  | none => exact ⟨[], by simp, by simp⟩
  | some rl =>
    simp only
    cases env.rateLimiter tr rl (env.SplitHostPort addr.String).1 with
    | none => exact ⟨[], by simp, by simp⟩
    | some l => exact ⟨_, rfl, by simp [Event.isPrelude]⟩

theorem sniffStep_events (env : Env) (timeout : Int) (tr : List Event) :
    ∃ P, (sniffStep env timeout tr).2 = tr ++ P ∧ ∀ x ∈ P, x.isPrelude = true := by
  unfold sniffStep
  by_cases ht : timeout > 0
  · simp only [ht, if_true]
    exact ⟨[Event.setReadDeadline false,
      Event.sniff (env.sniff (tr ++ [Event.setReadDeadline false])),
      Event.setReadDeadline true], by simp, by simp [Event.isPrelude]⟩
  · simp only [ht, if_false]
    exact ⟨[Event.sniff (env.sniff tr)], rfl, by simp [Event.isPrelude]⟩

/-- The paths of the body of `forwardHandler.Handle`: after the prelude `P`, the rate limit
refuses, or the connection is dispatched to `handleHTTP` with the copy `ro2` and the time of `ro`
is zeroed, or it is dispatched to `handleTLS` with `ro` itself, or a node is selected. -/
theorem body_cases (env : Env) (h : forwardHandler) (conn : ClientConn)
    (ro : HandlerRecorderObject) (tr : List Event) :
    ∃ P, (∀ x ∈ P, x.isPrelude = true) ∧
      (forwardHandler.body env h conn ro tr = ⟨some ErrRateLimit, ro, tr ++ P⟩ ∨
       (∃ roP, roP.Time = ro.Time ∧
          forwardHandler.body env h conn ro tr =
            ⟨(env.subHandler (tr ++ P) ProtoHTTP (RW.readWriter (RW.bufio RW.conn) RW.conn)
                none roP).1,
              { roP with Time := GoTime.zero },
              tr ++ (P ++ [Event.subHandler ProtoHTTP (RW.readWriter (RW.bufio RW.conn) RW.conn)
                none ObjRef.ro2 roP])⟩) ∨
       (∃ roP rw, roP.Time = ro.Time ∧
          forwardHandler.body env h conn ro tr =
            ⟨(env.subHandler (tr ++ P) ProtoTLS rw none roP).1,
              (env.subHandler (tr ++ P) ProtoTLS rw none roP).2,
              tr ++ (P ++ [Event.subHandler ProtoTLS rw none ObjRef.ro roP])⟩) ∨
       (∃ proto rw ro1, (ro1.Time = ro.Time ∧ ro1.Err = ro.Err) ∧
          forwardHandler.body env h conn ro tr =
            forwardHandler.forward env h conn (connNetwork conn) proto rw ro1 (tr ++ P))) := by
  obtain ⟨P1, hP1, hp1⟩ := checkRateLimit_events env h conn.RemoteAddr tr
  unfold forwardHandler.body
  simp only [hP1]
  by_cases hrl : (forwardHandler.checkRateLimit env h conn.RemoteAddr tr).1 = false
  · rw [if_pos hrl]
    exact ⟨P1, hp1, Or.inl rfl⟩
  · rw [if_neg hrl]
    by_cases hs : connNetwork conn = "tcp" ∧ h.md.sniffing = true
    · rw [if_pos hs]
      obtain ⟨P2, hP2, hp2⟩ := sniffStep_events env h.md.sniffingTimeout (tr ++ P1)
      simp only [hP2]
      have hp : ∀ x ∈ P1 ++ P2, x.isPrelude = true := by
        intro x hx
        rw [List.mem_append] at hx
        rcases hx with hx | hx
        · exact hp1 x hx
        · exact hp2 x hx
      refine ⟨P1 ++ P2, hp, ?_⟩
      by_cases hh : (sniffStep env h.md.sniffingTimeout (tr ++ P1)).1 = ProtoHTTP
      · rw [if_pos hh]
        exact Or.inr (Or.inl ⟨sniffedRecord ro (connNetwork conn)
            (sniffStep env h.md.sniffingTimeout (tr ++ P1)).1, rfl,
          by simp [List.append_assoc, sniffedRecord]⟩)
      · rw [if_neg hh]
        by_cases ht : (sniffStep env h.md.sniffingTimeout (tr ++ P1)).1 = ProtoTLS
        · rw [if_pos ht]
          exact Or.inr (Or.inr (Or.inl ⟨sniffedRecord ro (connNetwork conn)
              (sniffStep env h.md.sniffingTimeout (tr ++ P1)).1,
            RW.readWriteConn (RW.readWriter (RW.bufio RW.conn) RW.conn)
              (RW.readWriter (RW.bufio RW.conn) RW.conn) RW.conn, rfl,
            by simp [List.append_assoc, sniffedRecord]⟩))
        · rw [if_neg ht]
          exact Or.inr (Or.inr (Or.inr ⟨(sniffStep env h.md.sniffingTimeout (tr ++ P1)).1,
            RW.readWriter (RW.bufio RW.conn) RW.conn,
            sniffedRecord ro (connNetwork conn)
              (sniffStep env h.md.sniffingTimeout (tr ++ P1)).1, ⟨rfl, rfl⟩,
            by simp [List.append_assoc, sniffedRecord]⟩))
    · rw [if_neg hs]
      exact ⟨P1, hp1, Or.inr (Or.inr (Or.inr ⟨"", RW.conn,
        sniffedRecord ro (connNetwork conn) ro.Proto, ⟨rfl, rfl⟩, rfl⟩))⟩

/-- The paths of `forwardHandler.forward`: no node is selected, or the node `N` is and the dial
follows. -/
theorem forward_cases (env : Env) (h : forwardHandler) (conn : ClientConn)
    (network proto : String) (rw : RW) (ro : HandlerRecorderObject) (tr : List Event) :
    (∃ S, (∀ x ∈ S, ∃ hop, x = Event.hopSelect hop proto none) ∧
      forwardHandler.forward env h conn network proto rw ro tr =
        ⟨some "node not available", ro, tr ++ S⟩) ∨
    (∃ hop N, forwardHandler.forward env h conn network proto rw ro tr =
      forwardHandler.dialTarget env h conn network rw ro N
        (tr ++ [Event.hopSelect hop proto (some N)])) := by
  unfold forwardHandler.forward
  cases h.hop with
  | none => exact Or.inl ⟨[], by simp, by simp⟩
  | some hop =>
    simp only
    cases env.hopSelect tr hop proto with
    | none => exact Or.inl ⟨[Event.hopSelect hop proto none], by simp, rfl⟩
    | some N => exact Or.inr ⟨hop, N, rfl⟩

/-- The paths of `forwardHandler.dialTarget`: the events of `Router.Dial`, then `Mark` and the
dial error, or `Reset`, the splice and the close of the upstream. -/
theorem dialTarget_cases (env : Env) (h : forwardHandler) (conn : ClientConn)
    (network : String) (rw : RW) (ro : HandlerRecorderObject) (N : Node) (tr : List Event) :
    ((forwardHandler.dialTarget env h conn network rw ro N tr).ro.Time = ro.Time ∧
      (forwardHandler.dialTarget env h conn network rw ro N tr).ro.Err = ro.Err) ∧
    (forwardHandler.dialTarget env h conn network rw ro N tr).err =
      (Router.Dial env h.options.Router (targetNetwork network N) N.Addr tr).1.2 ∧
    ((∃ e, (Router.Dial env h.options.Router (targetNetwork network N) N.Addr tr).1.2 = some e ∧
        (forwardHandler.dialTarget env h conn network rw ro N tr).tr =
          (Router.Dial env h.options.Router (targetNetwork network N) N.Addr tr).2
            ++ markEvents N) ∨
     ((Router.Dial env h.options.Router (targetNetwork network N) N.Addr tr).1.2 = none ∧
        ∃ cc, (forwardHandler.dialTarget env h conn network rw ro N tr).tr =
          (Router.Dial env h.options.Router (targetNetwork network N) N.Addr tr).2
            ++ (resetEvents N ++ [Event.transport rw cc, Event.upstreamClose]))) := by
  unfold forwardHandler.dialTarget
  dsimp only
  cases hd : (Router.Dial env h.options.Router (targetNetwork network N) N.Addr tr).1.2 with
  | some e => exact ⟨⟨rfl, rfl⟩, rfl, Or.inl ⟨e, rfl, rfl⟩⟩
  | none =>
    exact ⟨⟨rfl, rfl⟩, rfl, Or.inr ⟨rfl, Upstream.wrapClientConn h.md.proxyProtocol conn.RemoteAddr
      (convertAddr env conn.LocalAddr)
      (Upstream.conn (Router.Dial env h.options.Router (targetNetwork network N) N.Addr tr).1.1),
      by simp⟩⟩

/-- The events of `HandlerRecorderObject.Record`: none, or one invocation of the sink with the
serialisation of the record, whose time is not zero. -/
theorem Record_events (env : Env) (p : HandlerRecorderObject) (r : Option Nat)
    (tr : List Event) :
    (HandlerRecorderObject.Record env (some p) r tr).2 = tr ∨
    (∃ s data, r = some s ∧ p.Time.IsZero = false ∧ env.jsonMarshal p = .ok data ∧
      (HandlerRecorderObject.Record env (some p) r tr).2 = tr ++ [Event.sinkRecord s data]) := by
  cases r with
  | none => exact Or.inl rfl
  | some s =>
    unfold HandlerRecorderObject.Record
    simp only
    cases hz : p.Time.IsZero with
    | true => exact Or.inl (by simp)
    | false =>
      cases hm : env.jsonMarshal p with
      | error e => exact Or.inl (by simp)
      | ok data => exact Or.inr ⟨s, data, rfl, rfl, rfl, by simp⟩

/-- The recorder invocations of `Router.Dial` go to bindings of the router with one of the two
router tags, and carry the telemetry host. -/
theorem Dial_sinkRecords (env : Env) (o : RouterOptions) (network address : String)
    (tr : List Event) :
    ∀ x ∈ newEvents tr (Router.Dial env o network address tr).2, x.isSinkRecord = true →
      ∃ rec, rec ∈ o.Recorders ∧
        (rec.Record = RecorderServiceRouterDialAddress ∨
          rec.Record = RecorderServiceRouterDialAddressError) ∧
        x = Event.sinkRecord rec.Recorder (bytesOf (Router.dialHost env address)) := by
  obtain ⟨rec1, ev, rec2, res, htr, _, _, _, hrun, _, _, _, horigin⟩ :=
    Dial_run env o network address tr
  rw [htr, newEvents_append]
  intro x hx hs
  simp only [List.mem_append] at hx
  rcases hx with hx | hx | hx
  · exact horigin x (by simp [hx])
  · have := hrun.steps x hx
    cases x <;> simp [Event.isSinkRecord, Event.isDialStep] at hs this
  · exact horigin x (by simp [hx])

theorem not_selected_of_prelude (P : List Event) (hp : ∀ x ∈ P, x.isPrelude = true) :
    ∀ x ∈ P, x.isSelected = false := by
  intro x hx
  have := hp x hx
  cases x <;> first | rfl | (simp [Event.isPrelude] at this)

theorem not_selected_of_routerCall (P : List Event) (hp : ∀ x ∈ P, x.isRouterCall = true) :
    ∀ x ∈ P, x.isSelected = false := by
  intro x hx
  have := hp x hx
  cases x <;> first | rfl | (simp [Event.isRouterCall] at this)

theorem not_selected_markEvents (N : Node) : ∀ x ∈ markEvents N, x.isSelected = false := by
  intro x hx
  unfold markEvents at hx
  cases hm : N.Marker with
  | none => simp [hm] at hx
  | some m =>
    simp only [hm, List.mem_singleton] at hx
    subst hx
    rfl

theorem not_selected_resetEvents (N : Node) : ∀ x ∈ resetEvents N, x.isSelected = false := by
  intro x hx
  unfold resetEvents at hx
  cases hm : N.Marker with
  | none => simp [hm] at hx
  | some m =>
    simp only [hm, List.mem_singleton] at hx
    subst hx
    rfl

/-- A body of `forwardHandler.Handle` in which `Hop.Select` returned the node `N`: what comes
before is the prelude, what follows is the `Router.Dial` for `N`, then `Mark` when the dial
failed, or `Reset`, the splice and the close of the upstream when it succeeded; the error of the
body is the error of the dial. -/
theorem body_selected (env : Env) (h : forwardHandler) (conn : ClientConn)
    (ro : HandlerRecorderObject) (tr pre post : List Event) (hop : Nat) (proto : String)
    (N : Node)
    (hsel : newEvents tr (forwardHandler.body env h conn ro tr).tr =
      pre ++ Event.hopSelect hop proto (some N) :: post) :
    (∀ x ∈ pre, x.isPrelude = true) ∧
    (forwardHandler.body env h conn ro tr).err =
      (Router.Dial env h.options.Router (targetNetwork (connNetwork conn) N) N.Addr
        (tr ++ (pre ++ [Event.hopSelect hop proto (some N)]))).1.2 ∧
    ((forwardHandler.body env h conn ro tr).ro.Time = ro.Time ∧
      (forwardHandler.body env h conn ro tr).ro.Err = ro.Err) ∧
    ((∃ e, (Router.Dial env h.options.Router (targetNetwork (connNetwork conn) N) N.Addr
          (tr ++ (pre ++ [Event.hopSelect hop proto (some N)]))).1.2 = some e ∧
        post = newEvents (tr ++ (pre ++ [Event.hopSelect hop proto (some N)]))
          (Router.Dial env h.options.Router (targetNetwork (connNetwork conn) N) N.Addr
            (tr ++ (pre ++ [Event.hopSelect hop proto (some N)]))).2 ++ markEvents N) ∨
     ((Router.Dial env h.options.Router (targetNetwork (connNetwork conn) N) N.Addr
          (tr ++ (pre ++ [Event.hopSelect hop proto (some N)]))).1.2 = none ∧
        ∃ rw cc, post = newEvents (tr ++ (pre ++ [Event.hopSelect hop proto (some N)]))
          (Router.Dial env h.options.Router (targetNetwork (connNetwork conn) N) N.Addr
            (tr ++ (pre ++ [Event.hopSelect hop proto (some N)]))).2 ++
          (resetEvents N ++ [Event.transport rw cc, Event.upstreamClose]))) := by
  obtain ⟨P, hP, hcases⟩ := body_cases env h conn ro tr
  have hnsP := not_selected_of_prelude P hP
  have hcontra : ∀ (l : List Event), (∀ x ∈ l, x.isSelected = false) →
      l = pre ++ Event.hopSelect hop proto (some N) :: post → False := by
    intro l hl heq
    have := hl (Event.hopSelect hop proto (some N)) (by rw [heq]; simp)
    simp [Event.isSelected] at this
  rcases hcases with hb | ⟨roP, _, hb⟩ | ⟨roP, rw, _, hb⟩ | ⟨proto0, rw, ro1, hro1, hb⟩
  · rw [hb, newEvents_append] at hsel
    exact (hcontra P hnsP hsel).elim
  · rw [hb, newEvents_append] at hsel
    refine (hcontra _ ?_ hsel).elim
    intro x hx
    simp only [List.mem_append, List.mem_singleton] at hx
    rcases hx with hx | rfl
    · exact hnsP x hx
    · rfl
  · rw [hb, newEvents_append] at hsel
    refine (hcontra _ ?_ hsel).elim
    intro x hx
    simp only [List.mem_append, List.mem_singleton] at hx
    rcases hx with hx | rfl
    · exact hnsP x hx
    · rfl
  · rcases forward_cases env h conn (connNetwork conn) proto0 rw ro1 (tr ++ P) with
      ⟨S, hS, hf⟩ | ⟨hop0, N0, hf⟩
    · rw [hb, hf, List.append_assoc, newEvents_append] at hsel
      refine (hcontra _ ?_ hsel).elim
      intro x hx
      simp only [List.mem_append] at hx
      rcases hx with hx | hx
      · exact hnsP x hx
      · obtain ⟨hp0, rfl⟩ := hS x hx
        rfl
    · obtain ⟨hrec, herr, htail⟩ := dialTarget_cases env h conn (connNetwork conn) rw ro1 N0
        (tr ++ P ++ [Event.hopSelect hop0 proto0 (some N0)])
      obtain ⟨dev, hdev, hrc⟩ := Dial_events env h.options.Router
        (targetNetwork (connNetwork conn) N0) N0.Addr
        (tr ++ P ++ [Event.hopSelect hop0 proto0 (some N0)])
      have hnsD := not_selected_of_routerCall dev hrc
      -- the events of the body
      have hev : ∃ tail, (∀ x ∈ tail, x.isSelected = false) ∧
          newEvents tr (forwardHandler.body env h conn ro tr).tr =
            P ++ ([Event.hopSelect hop0 proto0 (some N0)] ++ (dev ++ tail)) ∧
          ((∃ e, (Router.Dial env h.options.Router (targetNetwork (connNetwork conn) N0) N0.Addr
              (tr ++ P ++ [Event.hopSelect hop0 proto0 (some N0)])).1.2 = some e ∧
              tail = markEvents N0) ∨
           ((Router.Dial env h.options.Router (targetNetwork (connNetwork conn) N0) N0.Addr
              (tr ++ P ++ [Event.hopSelect hop0 proto0 (some N0)])).1.2 = none ∧
              ∃ rw1 cc, tail = resetEvents N0 ++
                [Event.transport rw1 cc, Event.upstreamClose])) := by
        rcases htail with ⟨e, he, ht⟩ | ⟨he, cc, ht⟩
        · refine ⟨markEvents N0, not_selected_markEvents N0, ?_, Or.inl ⟨e, he, rfl⟩⟩
          rw [hb, hf, ht, hdev]
          simp [newEvents, List.append_assoc]
        · refine ⟨resetEvents N0 ++ [Event.transport rw cc, Event.upstreamClose], ?_, ?_,
            Or.inr ⟨he, rw, cc, rfl⟩⟩
          · intro x hx
            simp only [List.mem_append, List.mem_cons, List.mem_singleton, List.not_mem_nil,
              or_false] at hx
            rcases hx with hx | rfl | rfl
            · exact not_selected_resetEvents N0 x hx
            · rfl
            · rfl
          · rw [hb, hf, ht, hdev]
            simp [newEvents, List.append_assoc]
      obtain ⟨tail, hnsT, hnew, htl⟩ := hev
      rw [hnew] at hsel
      obtain ⟨pre1, post1, h1, h2, h3⟩ := split_in_middle Event.isSelected
        (Event.hopSelect hop proto (some N)) rfl P [Event.hopSelect hop0 proto0 (some N0)]
        (dev ++ tail) pre post hnsP
        (by
          intro x hx
          rw [List.mem_append] at hx
          rcases hx with hx | hx
          · exact hnsD x hx
          · exact hnsT x hx)
        hsel
      -- the selection of the hypothesis is the selection of the body
      have hpre1 : pre1 = [] := by
        cases pre1 with
        | nil => rfl
        | cons q qs =>
          simp only [List.cons_append, List.cons.injEq] at h1
          have := h1.2
          simp at this
      subst hpre1
      simp only [List.nil_append, List.cons.injEq, Event.hopSelect.injEq, Option.some.injEq]
        at h1
      obtain ⟨⟨rfl, rfl, rfl⟩, hpost1⟩ := h1
      subst hpost1
      simp only [List.append_nil] at h3
      simp only [List.nil_append] at h2
      subst h3
      have hD : (Router.Dial env h.options.Router (targetNetwork (connNetwork conn) N0) N0.Addr
          (tr ++ (pre ++ [Event.hopSelect hop0 proto0 (some N0)]))) =
          (Router.Dial env h.options.Router (targetNetwork (connNetwork conn) N0) N0.Addr
          (tr ++ pre ++ [Event.hopSelect hop0 proto0 (some N0)])) := by
        rw [List.append_assoc]
      have hDnew : newEvents (tr ++ (pre ++ [Event.hopSelect hop0 proto0 (some N0)]))
          (Router.Dial env h.options.Router (targetNetwork (connNetwork conn) N0) N0.Addr
            (tr ++ (pre ++ [Event.hopSelect hop0 proto0 (some N0)]))).2 = dev := by
        rw [hD, hdev, ← List.append_assoc tr]
        exact newEvents_append _ _
      rw [hDnew, hD]
      refine ⟨hP, ?_, ?_, ?_⟩
      · rw [hb, hf]
        exact herr
      · rw [hb, hf]
        exact ⟨hrec.1.trans hro1.1, hrec.2.trans hro1.2⟩
      · rcases htl with ⟨e, he, ht⟩ | ⟨he, rw1, cc, ht⟩
        · exact Or.inl ⟨e, he, by rw [h2, ht]⟩
        · exact Or.inr ⟨he, rw1, cc, by rw [h2, ht]⟩

/-- The deferred calls of `forwardHandler.Handle`: the error returned is the error of the
body, and the events after the body are at most one invocation of the bound sink, with the
serialisation of the closed record, and the close of the client connection. -/
theorem Handle_events (env : Env) (h : forwardHandler) (sid : String) (conn : ClientConn)
    (tr : List Event) :
    (forwardHandler.Handle env h sid conn tr).1 =
      (forwardHandler.body env h conn (forwardHandler.newRecord env h sid conn tr) tr).err ∧
    ∃ recEv, (forwardHandler.Handle env h sid conn tr).2 =
        (forwardHandler.body env h conn (forwardHandler.newRecord env h sid conn tr) tr).tr ++
          (recEv ++ [Event.clientClose]) ∧
      (∀ x ∈ recEv, x.isSinkRecord = true) ∧
      (∀ s data, h.recorder.map (fun x => x.Recorder) = some s →
        (closeRecord env
          (forwardHandler.body env h conn (forwardHandler.newRecord env h sid conn tr) tr)
          (forwardHandler.newRecord env h sid conn tr).Time).Time.IsZero = false →
        env.jsonMarshal (closeRecord env
          (forwardHandler.body env h conn (forwardHandler.newRecord env h sid conn tr) tr)
          (forwardHandler.newRecord env h sid conn tr).Time) = .ok data →
        recEv = [Event.sinkRecord s data]) ∧
      ((closeRecord env
          (forwardHandler.body env h conn (forwardHandler.newRecord env h sid conn tr) tr)
          (forwardHandler.newRecord env h sid conn tr).Time).Time.IsZero = true →
        recEv = []) := by
  refine ⟨rfl, ?_⟩
  unfold forwardHandler.Handle
  dsimp only
  rcases Record_events env (closeRecord env
      (forwardHandler.body env h conn (forwardHandler.newRecord env h sid conn tr) tr)
      (forwardHandler.newRecord env h sid conn tr).Time)
      (h.recorder.map (fun x => x.Recorder))
      (forwardHandler.body env h conn (forwardHandler.newRecord env h sid conn tr) tr).tr with
    hr | ⟨s, data, hs, hz, hm, hr⟩
  · refine ⟨[], by rw [hr]; simp, by simp, ?_, by simp⟩
    intro s data hs hz hm
    have : (HandlerRecorderObject.Record env (some (closeRecord env
        (forwardHandler.body env h conn (forwardHandler.newRecord env h sid conn tr) tr)
        (forwardHandler.newRecord env h sid conn tr).Time))
        (h.recorder.map (fun x => x.Recorder))
        (forwardHandler.body env h conn (forwardHandler.newRecord env h sid conn tr) tr).tr).2 =
        (forwardHandler.body env h conn (forwardHandler.newRecord env h sid conn tr) tr).tr ++
          [Event.sinkRecord s data] := by
      rw [hs]
      simp [HandlerRecorderObject.Record, hz, hm]
    rw [hr] at this
    simp at this
  · refine ⟨[Event.sinkRecord s data], by rw [hr]; simp, by simp [Event.isSinkRecord], ?_, ?_⟩
    · intro s1 data1 hs1 _ hm1
      rw [hs] at hs1
      rw [hm] at hm1
      cases hs1
      cases hm1
      rfl
    · intro hz1
      rw [hz] at hz1
      cases hz1

theorem countP_eq_zero_of_forall {α : Type} (p : α → Bool) (l : List α)
    (h : ∀ x ∈ l, p x = false) : l.countP p = 0 := by
  rw [List.countP_eq_zero]
  intro x hx
  simp [h x hx]

theorem not_markerCall_of_prelude (P : List Event) (hp : ∀ x ∈ P, x.isPrelude = true) :
    ∀ x ∈ P, x.isMarkerCall = false := by
  intro x hx
  have := hp x hx
  cases x <;> first | rfl | (simp [Event.isPrelude] at this)

theorem not_markerCall_of_routerCall (P : List Event) (hp : ∀ x ∈ P, x.isRouterCall = true) :
    ∀ x ∈ P, x.isMarkerCall = false := by
  intro x hx
  have := hp x hx
  cases x <;> first | rfl | (simp [Event.isRouterCall] at this)

theorem not_markerCall_of_sinkRecord (P : List Event) (hp : ∀ x ∈ P, x.isSinkRecord = true) :
    ∀ x ∈ P, x.isMarkerCall = false := by
  intro x hx
  have := hp x hx
  cases x <;> first | rfl | (simp [Event.isSinkRecord] at this)

theorem marker_counts_zero (m : Nat) (l : List Event) (h : ∀ x ∈ l, x.isMarkerCall = false) :
    l.countP (Event.isMark m) = 0 ∧ l.countP (Event.isReset m) = 0 := by
  constructor
  · apply countP_eq_zero_of_forall
    intro x hx
    have := h x hx
    cases x <;> first | rfl | (simp [Event.isMarkerCall] at this)
  · apply countP_eq_zero_of_forall
    intro x hx
    have := h x hx
    cases x <;> first | rfl | (simp [Event.isMarkerCall] at this)

/-- C6: for every `forwardHandler.Handle` call in which `Hop.Select` returns a node `N` with a
marker `m`, `Router.Dial` is invoked for `N` right after the selection and `Handle` returns the
error of that dial; if the dial succeeds, the marker receives `Reset` exactly once and `Mark`
never; if the dial fails, the marker receives `Mark` exactly once and `Reset` never, and
`Handle` returns the dial error. -/
theorem c6_marker_feedback (env : Env) (h : forwardHandler) (sid : String) (conn : ClientConn)
    (tr pre post : List Event) (hop : Nat) (proto : String) (N : Node) (m : Nat)
    (hsel : newEvents tr (forwardHandler.Handle env h sid conn tr).2 =
      pre ++ Event.hopSelect hop proto (some N) :: post)
    (hm : N.Marker = some m) :
    (forwardHandler.Handle env h sid conn tr).1 =
      (Router.Dial env h.options.Router (targetNetwork (connNetwork conn) N) N.Addr
        (tr ++ (pre ++ [Event.hopSelect hop proto (some N)]))).1.2 ∧
    ((Router.Dial env h.options.Router (targetNetwork (connNetwork conn) N) N.Addr
        (tr ++ (pre ++ [Event.hopSelect hop proto (some N)]))).1.2 = none →
      (newEvents tr (forwardHandler.Handle env h sid conn tr).2).countP (Event.isReset m) = 1 ∧
      (newEvents tr (forwardHandler.Handle env h sid conn tr).2).countP (Event.isMark m) = 0) ∧
    (∀ e, (Router.Dial env h.options.Router (targetNetwork (connNetwork conn) N) N.Addr
        (tr ++ (pre ++ [Event.hopSelect hop proto (some N)]))).1.2 = some e →
      (newEvents tr (forwardHandler.Handle env h sid conn tr).2).countP (Event.isMark m) = 1 ∧
      (newEvents tr (forwardHandler.Handle env h sid conn tr).2).countP (Event.isReset m) = 0 ∧
      (forwardHandler.Handle env h sid conn tr).1 = some e) := by
  obtain ⟨herr, recEv, htr, hrecs, _, _⟩ := Handle_events env h sid conn tr
  obtain ⟨P0, _, hcases⟩ := body_cases env h conn (forwardHandler.newRecord env h sid conn tr) tr
  -- the body extends the history
  have hext : ∃ bev, (forwardHandler.body env h conn
      (forwardHandler.newRecord env h sid conn tr) tr).tr = tr ++ bev := by
    rcases hcases with hb | ⟨roP, _, hb⟩ | ⟨roP, rw, _, hb⟩ | ⟨proto0, rw, ro1, _, hb⟩
    · exact ⟨_, by rw [hb]⟩
    · exact ⟨_, by rw [hb]⟩
    · exact ⟨_, by rw [hb]⟩
    · rcases forward_cases env h conn (connNetwork conn) proto0 rw ro1 (tr ++ P0) with
        ⟨S, _, hf⟩ | ⟨hop0, N0, hf⟩
      · exact ⟨P0 ++ S, by rw [hb, hf]; simp⟩
      · obtain ⟨_, _, htail⟩ := dialTarget_cases env h conn (connNetwork conn) rw ro1 N0
          (tr ++ P0 ++ [Event.hopSelect hop0 proto0 (some N0)])
        obtain ⟨dev, hdev, _⟩ := Dial_events env h.options.Router
          (targetNetwork (connNetwork conn) N0) N0.Addr
          (tr ++ P0 ++ [Event.hopSelect hop0 proto0 (some N0)])
        rcases htail with ⟨e, _, ht⟩ | ⟨_, cc, ht⟩
        · exact ⟨P0 ++ ([Event.hopSelect hop0 proto0 (some N0)] ++ (dev ++ markEvents N0)),
            by rw [hb, hf, ht, hdev]; simp [List.append_assoc]⟩
        · exact ⟨P0 ++ ([Event.hopSelect hop0 proto0 (some N0)] ++ (dev ++
              (resetEvents N0 ++ [Event.transport rw cc, Event.upstreamClose]))),
            by rw [hb, hf, ht, hdev]; simp [List.append_assoc]⟩
  obtain ⟨bev, hbev⟩ := hext
  have hnew : newEvents tr (forwardHandler.Handle env h sid conn tr).2 =
      bev ++ (recEv ++ [Event.clientClose]) := by
    rw [htr, hbev, List.append_assoc]
    exact newEvents_append _ _
  have hbnew : newEvents tr (forwardHandler.body env h conn
      (forwardHandler.newRecord env h sid conn tr) tr).tr = bev := by
    rw [hbev]
    exact newEvents_append _ _
  rw [hnew] at hsel
  have hnsC : ∀ x ∈ recEv ++ [Event.clientClose], x.isSelected = false := by
    intro x hx
    simp only [List.mem_append, List.mem_singleton] at hx
    rcases hx with hx | rfl
    · have := hrecs x hx
      cases x <;> first | rfl | (simp [Event.isSinkRecord] at this)
    · rfl
  obtain ⟨pre1, post1, h1, h2, h3⟩ := split_in_middle Event.isSelected
    (Event.hopSelect hop proto (some N)) rfl [] bev (recEv ++ [Event.clientClose]) pre post
    (by simp) hnsC (by simpa using hsel)
  simp only [List.nil_append] at h3
  subst h3
  obtain ⟨hpre, hberr, _, hpost⟩ := body_selected env h conn
    (forwardHandler.newRecord env h sid conn tr) tr pre post1 hop proto N (by rw [hbnew, h1])
  obtain ⟨dev, hdev, hrc⟩ := Dial_events env h.options.Router
    (targetNetwork (connNetwork conn) N) N.Addr (tr ++ (pre ++ [Event.hopSelect hop proto (some N)]))
  have hdnew : newEvents (tr ++ (pre ++ [Event.hopSelect hop proto (some N)]))
      (Router.Dial env h.options.Router (targetNetwork (connNetwork conn) N) N.Addr
        (tr ++ (pre ++ [Event.hopSelect hop proto (some N)]))).2 = dev := by
    rw [hdev]
    exact newEvents_append _ _
  rw [hdnew] at hpost
  obtain ⟨p1, p2⟩ := marker_counts_zero m pre (not_markerCall_of_prelude pre hpre)
  obtain ⟨d1, d2⟩ := marker_counts_zero m dev (not_markerCall_of_routerCall dev hrc)
  obtain ⟨r1, r2⟩ := marker_counts_zero m recEv (not_markerCall_of_sinkRecord recEv hrecs)
  have hmark : markEvents N = [Event.mark m] := by simp [markEvents, hm]
  have hreset : resetEvents N = [Event.reset m] := by simp [resetEvents, hm]
  refine ⟨by rw [herr, hberr], ?_, ?_⟩
  · intro hok
    rcases hpost with ⟨e, he, _⟩ | ⟨_, rw, cc, hp⟩
    · rw [hok] at he
      cases he
    · rw [hnew, h1, hp, hreset]
      simp [List.countP_append, List.countP_cons, Event.isReset, Event.isMark, p1, p2, d1, d2,
        r1, r2]
  · intro e he
    rcases hpost with ⟨e1, _, hp⟩ | ⟨hnone, _⟩
    · refine ⟨?_, ?_, by rw [herr, hberr, he]⟩
      · rw [hnew, h1, hp, hmark]
        simp [List.countP_append, List.countP_cons, Event.isReset, Event.isMark, p1, p2, d1, d2,
          r1, r2]
      · rw [hnew, h1, hp, hmark]
        simp [List.countP_append, List.countP_cons, Event.isReset, Event.isMark, p1, p2, d1, d2,
          r1, r2]
    · rw [hnone] at he
      cases he

/-- C6, a concrete call: the selected node has the marker 4 and its route refuses; the marker
receives `Mark` once, `Reset` never, and `Handle` returns the dial error. -/
theorem c6_marker_feedback_witness :
    (newEvents [] (forwardHandler.Handle (selectingEnv []) (plainForward false none) "sid"
      tcpClient []).2).countP (Event.isMark 4) = 1 ∧
    (newEvents [] (forwardHandler.Handle (selectingEnv []) (plainForward false none) "sid"
      tcpClient []).2).countP (Event.isReset 4) = 0 ∧
    (forwardHandler.Handle (selectingEnv []) (plainForward false none) "sid"
      tcpClient []).1 = some "connection refused" :=
  (c6_marker_feedback (selectingEnv []) (plainForward false none) "sid" tcpClient [] []
    [Event.resolve "10.0.0.9:80" (.ok "10.0.0.9:80"),
      Event.routeDial DefaultRoute "tcp" "10.0.0.9:80" (.error "connection refused"),
      Event.mark 4, Event.clientClose]
    1 "" markedNode 4 (by rfl) (by rfl)).2.2 "connection refused" (by rfl)

/-- The events of `Router.record` do not depend on what the sinks answer. -/
theorem record_sink_irrelevant (env : Env) (f : List Event → Nat → Bytes → Option GoError)
    (o : RouterOptions) (name : String) (data : Bytes) (tr : List Event) :
    (Router.record { env with sinkRecord := f } o name data tr).2 =
      (Router.record env o name data tr).2 := by
  unfold Router.record
  split
  · rfl
  · cases o.Recorders.find? (fun rec => decide (rec.Record = name)) <;> rfl

theorem dialLoop_sink_irrelevant (env : Env) (f : List Event → Nat → Bytes → Option GoError)
    (o : RouterOptions) (network address : String) :
    ∀ (n : Nat) (conn : Option Conn) (err : Option GoError) (tr : List Event),
      Router.dialLoop { env with sinkRecord := f } o network address n conn err tr =
        Router.dialLoop env o network address n conn err tr := by
  intro n
  induction n with
  | zero =>
    intro conn err tr
    rfl
  | succ n ih =>
    intro conn err tr
    have hiter : Router.dialIter { env with sinkRecord := f } o network address conn tr =
        Router.dialIter env o network address conn tr := rfl
    simp only [Router.dialLoop, hiter, ih]

/-- The results and events of `Router.Dial` do not depend on what the sinks answer. -/
theorem Dial_sink_irrelevant (env : Env) (f : List Event → Nat → Bytes → Option GoError)
    (o : RouterOptions) (network address : String) (tr : List Event) :
    Router.Dial { env with sinkRecord := f } o network address tr =
      Router.Dial env o network address tr := by
  have hhost : Router.dialHost { env with sinkRecord := f } address =
      Router.dialHost env address := rfl
  have hpk : ∀ c, isPacket { env with sinkRecord := f } c = isPacket env c := by
    intro c
    rfl
  unfold Router.Dial Router.dial
  simp only [hhost, record_sink_irrelevant, dialLoop_sink_irrelevant, hpk]

/-- The body of `forwardHandler.Handle` does not depend on what the sinks answer. -/
theorem body_sink_irrelevant (env : Env) (f : List Event → Nat → Bytes → Option GoError)
    (h : forwardHandler) (conn : ClientConn) (ro : HandlerRecorderObject) (tr : List Event) :
    forwardHandler.body { env with sinkRecord := f } h conn ro tr =
      forwardHandler.body env h conn ro tr := by
  have hrl : ∀ a t, forwardHandler.checkRateLimit { env with sinkRecord := f } h a t =
      forwardHandler.checkRateLimit env h a t := fun _ _ => rfl
  have hsn : ∀ t u, sniffStep { env with sinkRecord := f } t u = sniffStep env t u :=
    fun _ _ => rfl
  have hca : ∀ a, convertAddr { env with sinkRecord := f } a = convertAddr env a := fun _ => rfl
  have hdt : ∀ network rw ro1 N t,
      forwardHandler.dialTarget { env with sinkRecord := f } h conn network rw ro1 N t =
        forwardHandler.dialTarget env h conn network rw ro1 N t := by
    intro network rw ro1 N t
    unfold forwardHandler.dialTarget
    simp only [Dial_sink_irrelevant, hca]
  have hfw : ∀ network proto rw ro1 t,
      forwardHandler.forward { env with sinkRecord := f } h conn network proto rw ro1 t =
        forwardHandler.forward env h conn network proto rw ro1 t := by
    intro network proto rw ro1 t
    unfold forwardHandler.forward
    simp only [hdt]
  unfold forwardHandler.body
  simp only [hrl, hsn, hfw]

/-- The events of the body of `forwardHandler.Handle`: every recorder invocation in them is one
of the router, on a binding of the router with a router tag and with a telemetry host as payload;
and when no sub-handler is dispatched to, the body leaves the time and the error text of the
record as it found them. -/
theorem body_events (env : Env) (h : forwardHandler) (conn : ClientConn)
    (ro : HandlerRecorderObject) (tr : List Event) :
    ∃ bev, (forwardHandler.body env h conn ro tr).tr = tr ++ bev ∧
      (∀ x ∈ bev, x.isSinkRecord = true →
        ∃ rec, rec ∈ h.options.Router.Recorders ∧
          (rec.Record = RecorderServiceRouterDialAddress ∨
            rec.Record = RecorderServiceRouterDialAddressError) ∧
          ∃ addr, x = Event.sinkRecord rec.Recorder (bytesOf (Router.dialHost env addr))) ∧
      ((∀ x ∈ bev, x.isSubHandler = false) →
        (forwardHandler.body env h conn ro tr).ro.Time = ro.Time ∧
        (forwardHandler.body env h conn ro tr).ro.Err = ro.Err) := by
  obtain ⟨P, hP, hcases⟩ := body_cases env h conn ro tr
  have hPs : ∀ x ∈ P, x.isSinkRecord = true → False := by
    intro x hx hs
    have := hP x hx
    cases x <;> simp [Event.isSinkRecord, Event.isPrelude] at hs this
  rcases hcases with hb | ⟨roP, _, hb⟩ | ⟨roP, rw, _, hb⟩ | ⟨proto0, rw, ro1, hro1, hb⟩
  · refine ⟨P, by rw [hb], ?_, ?_⟩
    · intro x hx hs
      exact (hPs x hx hs).elim
    · intro _
      rw [hb]
      exact ⟨rfl, rfl⟩
  · refine ⟨_, by rw [hb], ?_, ?_⟩
    · intro x hx hs
      simp only [List.mem_append, List.mem_singleton] at hx
      rcases hx with hx | rfl
      · exact (hPs x hx hs).elim
      · simp [Event.isSinkRecord] at hs
    · intro hno
      have := hno (Event.subHandler ProtoHTTP (RW.readWriter (RW.bufio RW.conn) RW.conn) none
        ObjRef.ro2 roP) (by simp)
      simp [Event.isSubHandler] at this
  · refine ⟨_, by rw [hb], ?_, ?_⟩
    · intro x hx hs
      simp only [List.mem_append, List.mem_singleton] at hx
      rcases hx with hx | rfl
      · exact (hPs x hx hs).elim
      · simp [Event.isSinkRecord] at hs
    · intro hno
      have := hno (Event.subHandler ProtoTLS rw none ObjRef.ro roP) (by simp)
      simp [Event.isSubHandler] at this
  · rcases forward_cases env h conn (connNetwork conn) proto0 rw ro1 (tr ++ P) with
      ⟨S, hS, hf⟩ | ⟨hop0, N0, hf⟩
    · refine ⟨P ++ S, by rw [hb, hf]; simp, ?_, ?_⟩
      · intro x hx hs
        rw [List.mem_append] at hx
        rcases hx with hx | hx
        · exact (hPs x hx hs).elim
        · obtain ⟨hp0, rfl⟩ := hS x hx
          simp [Event.isSinkRecord] at hs
      · intro _
        rw [hb, hf]
        exact hro1
    · obtain ⟨hrec, _, htail⟩ := dialTarget_cases env h conn (connNetwork conn) rw ro1 N0
        (tr ++ P ++ [Event.hopSelect hop0 proto0 (some N0)])
      obtain ⟨dev, hdev, _⟩ := Dial_events env h.options.Router
        (targetNetwork (connNetwork conn) N0) N0.Addr
        (tr ++ P ++ [Event.hopSelect hop0 proto0 (some N0)])
      have horigin := Dial_sinkRecords env h.options.Router
        (targetNetwork (connNetwork conn) N0) N0.Addr
        (tr ++ P ++ [Event.hopSelect hop0 proto0 (some N0)])
      rw [hdev, newEvents_append] at horigin
      have htl : ∃ tail, (∀ x ∈ tail, x.isSinkRecord = false) ∧
          (forwardHandler.dialTarget env h conn (connNetwork conn) rw ro1 N0
            (tr ++ P ++ [Event.hopSelect hop0 proto0 (some N0)])).tr =
          tr ++ (P ++ ([Event.hopSelect hop0 proto0 (some N0)] ++ (dev ++ tail))) := by
        rcases htail with ⟨e, _, ht⟩ | ⟨_, cc, ht⟩
        · refine ⟨markEvents N0, ?_, by rw [ht, hdev]; simp [List.append_assoc]⟩
          intro x hx
          unfold markEvents at hx
          cases hm : N0.Marker with
          | none => simp [hm] at hx
          | some m =>
            simp only [hm, List.mem_singleton] at hx
            subst hx
            rfl
        · refine ⟨resetEvents N0 ++ [Event.transport rw cc, Event.upstreamClose], ?_,
            by rw [ht, hdev]; simp [List.append_assoc]⟩
          intro x hx
          simp only [List.mem_append, List.mem_cons, List.mem_singleton, List.not_mem_nil,
            or_false] at hx
          rcases hx with hx | rfl | rfl
          · unfold resetEvents at hx
            cases hm : N0.Marker with
            | none => simp [hm] at hx
            | some m =>
              simp only [hm, List.mem_singleton] at hx
              subst hx
              rfl
          · rfl
          · rfl
      obtain ⟨tail, htail1, htr⟩ := htl
      refine ⟨_, by rw [hb, hf, htr], ?_, ?_⟩
      · intro x hx hs
        simp only [List.mem_append, List.mem_singleton] at hx
        rcases hx with hx | rfl | hx | hx
        · exact (hPs x hx hs).elim
        · simp [Event.isSinkRecord] at hs
        · obtain ⟨rec, h1, h2, h3⟩ := horigin x hx hs
          exact ⟨rec, h1, h2, N0.Addr, h3⟩
        · rw [htail1 x hx] at hs
          cases hs
      · intro _
        rw [hb, hf]
        exact ⟨hrec.1.trans hro1.1, hrec.2.trans hro1.2⟩

theorem closeRecord_fields (env : Env) (b : BodyResult) (start : GoTime) :
    (closeRecord env b start).Time = b.ro.Time ∧
    (closeRecord env b start).Err = (match b.err with
      | some e => e
      | none => b.ro.Err) := by
  unfold closeRecord
  cases b.err <;> exact ⟨rfl, rfl⟩

/-- C8: for every `forwardHandler.Handle` call with a bound recorder sink that does not dispatch
to a sub-handler, whatever the exit path of the body, exactly one `HandlerRecorderObject` is
emitted to the sink, by the deferred function, after the body and before the client connection
is closed (serialisation being assumed to succeed); its `Err` field is the message of the error
`Handle` returns, empty when `Handle` returns nil; the recorder invocations of the body are those
of the router; and the error `Handle` returns is the same whatever the sinks answer. -/
theorem c8_exactly_one_record (env : Env) (h : forwardHandler) (sid : String)
    (conn : ClientConn) (tr : List Event) (rb : RecorderObject)
    (hrec : h.recorder = some rb)
    (hmarshal : ∀ p, ∃ data, env.jsonMarshal p = .ok data)
    (hnd : ∀ x ∈ newEvents tr (forwardHandler.Handle env h sid conn tr).2,
      x.isSubHandler = false) :
    ∃ bev p data,
      (forwardHandler.body env h conn (forwardHandler.newRecord env h sid conn tr) tr).tr =
        tr ++ bev ∧
      (forwardHandler.Handle env h sid conn tr).2 =
        tr ++ (bev ++ [Event.sinkRecord rb.Recorder data, Event.clientClose]) ∧
      env.jsonMarshal p = .ok data ∧
      p.Time.IsZero = false ∧
      p.Err = ((forwardHandler.Handle env h sid conn tr).1).getD "" ∧
      (∀ x ∈ bev, x.isSinkRecord = true →
        ∃ rec, rec ∈ h.options.Router.Recorders ∧
          (rec.Record = RecorderServiceRouterDialAddress ∨
            rec.Record = RecorderServiceRouterDialAddressError) ∧
          ∃ addr, x = Event.sinkRecord rec.Recorder (bytesOf (Router.dialHost env addr))) ∧
      (∀ f, (forwardHandler.Handle { env with sinkRecord := f } h sid conn tr).1 =
        (forwardHandler.Handle env h sid conn tr).1) := by
  obtain ⟨bev, hbev, horigin, hpres⟩ :=
    body_events env h conn (forwardHandler.newRecord env h sid conn tr) tr
  obtain ⟨herr, recEv, htr, hrecs, hone, _⟩ := Handle_events env h sid conn tr
  have hnew : newEvents tr (forwardHandler.Handle env h sid conn tr).2 =
      bev ++ (recEv ++ [Event.clientClose]) := by
    rw [htr, hbev, List.append_assoc]
    exact newEvents_append _ _
  obtain ⟨htime, herrtext⟩ := hpres (by
    intro x hx
    exact hnd x (by rw [hnew]; simp [hx]))
  obtain ⟨hct, hce⟩ := closeRecord_fields env
    (forwardHandler.body env h conn (forwardHandler.newRecord env h sid conn tr) tr)
    (forwardHandler.newRecord env h sid conn tr).Time
  have hz : (closeRecord env
      (forwardHandler.body env h conn (forwardHandler.newRecord env h sid conn tr) tr)
      (forwardHandler.newRecord env h sid conn tr).Time).Time.IsZero = false := by
    rw [hct, htime]
    rfl
  obtain ⟨data, hdata⟩ := hmarshal (closeRecord env
      (forwardHandler.body env h conn (forwardHandler.newRecord env h sid conn tr) tr)
      (forwardHandler.newRecord env h sid conn tr).Time)
  have hrecEv := hone rb.Recorder data (by rw [hrec]; rfl) hz hdata
  refine ⟨bev, _, data, hbev, ?_, hdata, hz, ?_, horigin, ?_⟩
  · rw [htr, hbev, hrecEv]
    simp [List.append_assoc]
  · rw [hce, herr]
    cases hb : (forwardHandler.body env h conn
        (forwardHandler.newRecord env h sid conn tr) tr).err with
    | some e => rfl
    | none =>
      simp only [Option.getD_none]
      rw [herrtext]
      rfl
  · intro f
    have hnr : forwardHandler.newRecord { env with sinkRecord := f } h sid conn tr =
        forwardHandler.newRecord env h sid conn tr := rfl
    obtain ⟨herr1, _⟩ := Handle_events { env with sinkRecord := f } h sid conn tr
    rw [herr1, herr, hnr, body_sink_irrelevant]

/-- C8, a concrete call: the selected node connects and the stream is spliced; the record goes
to the bound sink 9 once, with an empty error text. -/
theorem c8_exactly_one_record_witness :
    ∃ bev p data,
      (forwardHandler.Handle (selectingEnv [.ok (Conn.handle 3)])
        (plainForward false (some ⟨9, RecorderServiceHandler⟩)) "sid" tcpClient []).2 =
        [] ++ (bev ++ [Event.sinkRecord 9 data, Event.clientClose]) ∧
      (selectingEnv [.ok (Conn.handle 3)]).jsonMarshal p = .ok data ∧
      p.Err = "" := by
  obtain ⟨bev, p, data, _, h2, h3, _, h5, _⟩ := c8_exactly_one_record
    (selectingEnv [.ok (Conn.handle 3)])
    (plainForward false (some ⟨9, RecorderServiceHandler⟩)) "sid" tcpClient []
    ⟨9, RecorderServiceHandler⟩ rfl (fun p => ⟨_, rfl⟩) (by decide)
  exact ⟨bev, p, data, h2, h3, h5⟩

/-- The HTTP dispatch of `forwardHandler.Handle`: `handleHTTP` is handed the copy `ro2`, whose
time is the start of the connection, the time of `ro` is zeroed and the deferred `ro.Record`
invokes no sink: after the sub-handler only the client connection is closed. -/
theorem forward_http_dispatch (env : Env) (h : forwardHandler) (sid : String)
    (conn : ClientConn) (tr : List Event)
    (hrl : (forwardHandler.checkRateLimit env h conn.RemoteAddr tr).1 = true)
    (hs : connNetwork conn = "tcp" ∧ h.md.sniffing = true)
    (hp : (sniffStep env h.md.sniffingTimeout
      (forwardHandler.checkRateLimit env h conn.RemoteAddr tr).2).1 = ProtoHTTP) :
    ∃ roP, roP.Time = GoTime.clock (env.now tr) ∧
      (forwardHandler.body env h conn (forwardHandler.newRecord env h sid conn tr) tr).ro.Time
        = GoTime.zero ∧
      (forwardHandler.Handle env h sid conn tr).2 =
        (sniffStep env h.md.sniffingTimeout
          (forwardHandler.checkRateLimit env h conn.RemoteAddr tr).2).2 ++
          [Event.subHandler ProtoHTTP (RW.readWriter (RW.bufio RW.conn) RW.conn) none
            ObjRef.ro2 roP, Event.clientClose] := by
  have hb : forwardHandler.body env h conn (forwardHandler.newRecord env h sid conn tr) tr =
      ⟨(env.subHandler (sniffStep env h.md.sniffingTimeout
          (forwardHandler.checkRateLimit env h conn.RemoteAddr tr).2).2 ProtoHTTP
          (RW.readWriter (RW.bufio RW.conn) RW.conn) none
          (sniffedRecord (forwardHandler.newRecord env h sid conn tr) (connNetwork conn)
            ProtoHTTP)).1,
        { sniffedRecord (forwardHandler.newRecord env h sid conn tr) (connNetwork conn)
            ProtoHTTP with Time := GoTime.zero },
        (sniffStep env h.md.sniffingTimeout
          (forwardHandler.checkRateLimit env h conn.RemoteAddr tr).2).2 ++
          [Event.subHandler ProtoHTTP (RW.readWriter (RW.bufio RW.conn) RW.conn) none
            ObjRef.ro2 (sniffedRecord (forwardHandler.newRecord env h sid conn tr)
              (connNetwork conn) ProtoHTTP)]⟩ := by
    unfold forwardHandler.body
    simp only [hrl, Bool.true_eq_false, if_false, hs, and_self, if_true, hp]
    rfl
  obtain ⟨_, recEv, htr, _, _, hzero⟩ := Handle_events env h sid conn tr
  have hre : recEv = [] := by
    apply hzero
    rw [(closeRecord_fields env _ _).1, hb]
    rfl
  refine ⟨sniffedRecord (forwardHandler.newRecord env h sid conn tr) (connNetwork conn)
    ProtoHTTP, rfl, by rw [hb], ?_⟩
  rw [htr, hre, hb]
  simp

/-- The HTTP dispatch of `relayHandler.handleConnect`, in `splice`: `handleHTTP` is handed the
copy `ro2`, which carries the time of `ro`, the time of `ro` is zeroed, the deferred calls invoke
no sink, and a `Record` on `ro` after the call invokes no sink either. -/
theorem relay_http_dispatch (env : Env) (h : relayHandler) (clientID : String)
    (conn : ClientConn) (network address : String) (conn1 : RW) (cc : Option Conn)
    (ro : HandlerRecorderObject) (tr : List Event) (r : Option Nat)
    (hs : h.md.sniffing = true)
    (hp : (sniffStep env h.md.sniffingTimeout
      (relayHandler.wrap h clientID conn network address conn1 tr).2).1 = ProtoHTTP) :
    (relayHandler.splice env h clientID conn network address conn1 cc ro tr).ro.Time
      = GoTime.zero ∧
    (∃ roP, roP.Time = ro.Time ∧
      (relayHandler.splice env h clientID conn network address conn1 cc ro tr).tr =
        (sniffStep env h.md.sniffingTimeout
          (relayHandler.wrap h clientID conn network address conn1 tr).2).2 ++
          [Event.subHandler ProtoHTTP (RW.readWriter (RW.bufio conn1) conn1)
            (some (Upstream.conn cc)) ObjRef.ro2 roP] ++ relayHandler.deferred h clientID) ∧
    (∀ x ∈ relayHandler.deferred h clientID, x.isSinkRecord = false) ∧
    HandlerRecorderObject.Record env
      (some (relayHandler.splice env h clientID conn network address conn1 cc ro tr).ro) r
      (relayHandler.splice env h clientID conn network address conn1 cc ro tr).tr =
      (none, (relayHandler.splice env h clientID conn network address conn1 cc ro tr).tr) := by
  have hsp : relayHandler.splice env h clientID conn network address conn1 cc ro tr =
      ⟨(env.subHandler (sniffStep env h.md.sniffingTimeout
          (relayHandler.wrap h clientID conn network address conn1 tr).2).2 ProtoHTTP
          (RW.readWriter (RW.bufio conn1) conn1) (some (Upstream.conn cc))
          (sniffedRecord ro ro.Network ProtoHTTP)).1,
        { sniffedRecord ro ro.Network ProtoHTTP with Time := GoTime.zero },
        (sniffStep env h.md.sniffingTimeout
          (relayHandler.wrap h clientID conn network address conn1 tr).2).2 ++
          [Event.subHandler ProtoHTTP (RW.readWriter (RW.bufio conn1) conn1)
            (some (Upstream.conn cc)) ObjRef.ro2 (sniffedRecord ro ro.Network ProtoHTTP)] ++
          relayHandler.deferred h clientID⟩ := by
    unfold relayHandler.splice
    simp only [hs, if_true, hp]
    rfl
  rw [hsp]
  refine ⟨rfl, ⟨sniffedRecord ro ro.Network ProtoHTTP, rfl, rfl⟩, ?_, ?_⟩
  · intro x hx
    unfold relayHandler.deferred at hx
    cases hobs : h.options.Observer with
    | none =>
      simp only [hobs, List.mem_singleton] at hx
      subst hx
      rfl
    | some ob =>
      simp only [hobs, List.mem_cons, List.mem_singleton, List.not_mem_nil, or_false] at hx
      rcases hx with rfl | rfl <;> rfl
  · cases r <;> rfl

/-- C5 as first stated, on the TLS dispatch: with sniffing on and a TLS client hello,
`forwardHandler.Handle` hands `handleTLS` the object `ro` itself, not a copy, and leaves its time
set, so that the deferred `ro.Record` invokes the bound sink 9; `relayHandler.handleConnect` does
the same, and a `Record` on the object it leaves invokes the sink. -/
theorem c5_tls_dispatch_hands_over_ro :
    (forwardHandler.Handle tlsEnv (plainForward true (some ⟨9, RecorderServiceHandler⟩)) "sid"
        tcpClient []).2 =
      [Event.sniff "tls",
        Event.subHandler "tls"
          (RW.readWriteConn (RW.readWriter (RW.bufio RW.conn) RW.conn)
            (RW.readWriter (RW.bufio RW.conn) RW.conn) RW.conn)
          none ObjRef.ro
          { Service := "forward", Network := "tcp", RemoteAddr := "192.0.2.7:51000",
            LocalAddr := "192.0.2.1:8080", ClientIP := "192.0.2.7", Proto := "tls",
            Time := GoTime.clock 1, SID := "sid" },
        Event.sinkRecord 9 (bytesOf "err="),
        Event.clientClose] ∧
    (relayHandler.handleConnect tlsEnv (plainRelay true true) "" tcpClient "tcp"
        "10.0.0.1:443" startedRecord []).tr =
      [Event.resolve "10.0.0.1:443" (.ok "10.0.0.1:443"),
        Event.routeDial DefaultRoute "tcp" "10.0.0.1:443" (.ok (Conn.handle 1)),
        Event.writeTo false ⟨1, 200⟩,
        Event.sniff "tls",
        Event.subHandler "tls" (RW.readWriter (RW.bufio RW.conn) RW.conn)
          (some (Upstream.conn (some (Conn.handle 1)))) ObjRef.ro
          { Service := "relay", Proto := "tls", Time := GoTime.clock 1 },
        Event.upstreamClose] ∧
    (relayHandler.handleConnect tlsEnv (plainRelay true true) "" tcpClient "tcp"
        "10.0.0.1:443" startedRecord []).ro.Time = GoTime.clock 1 ∧
    (HandlerRecorderObject.Record tlsEnv
        (some (relayHandler.handleConnect tlsEnv (plainRelay true true) "" tcpClient "tcp"
          "10.0.0.1:443" startedRecord []).ro) (some 9)
        (relayHandler.handleConnect tlsEnv (plainRelay true true) "" tcpClient "tcp"
          "10.0.0.1:443" startedRecord []).tr).2 =
      (relayHandler.handleConnect tlsEnv (plainRelay true true) "" tcpClient "tcp"
          "10.0.0.1:443" startedRecord []).tr ++ [Event.sinkRecord 9 (bytesOf "err=")] :=
  ⟨by rfl, by rfl, by rfl, by rfl⟩

/-- C1 (amended): for every `Router.Dial` call with `Retries = R`, any Go `int`, and every
behaviour of the resolver, chain and routes, `Route.Dial` is invoked at most `max(R+1, 1)`
times; it is invoked at least once when the first resolution of the call succeeds and not at
all when the first resolution fails.  Resolution is invoked exactly once in every retry
iteration, hence at least once and at most `max(R+1, 1)` times in the call, and `Route.Dial`
never more often than resolution. -/
theorem c1_dial_attempt_bounds (env : Env) (o : RouterOptions) (network address : String)
    (tr : List Event) (hR : isGoInt o.Retries) :
    ∃ ev, (Router.Dial env o network address tr).2 = tr ++ ev ∧
      (ev.countP Event.isRouteDial : Int) ≤ max (o.Retries + 1) 1 ∧
      (ev.countP Event.isResolve : Int) ≤ max (o.Retries + 1) 1 ∧
      1 ≤ ev.countP Event.isResolve ∧
      ev.countP Event.isRouteDial ≤ ev.countP Event.isResolve ∧
      (∀ a ip, ev.find? Event.isResolve = some (Event.resolve a (.ok ip)) →
        1 ≤ ev.countP Event.isRouteDial) ∧
      (∀ a e, ev.find? Event.isResolve = some (Event.resolve a (.error e)) →
        ev.countP Event.isRouteDial = 0) ∧
      (∀ conn h, ∃ it, (Router.dialIter env o network address conn h).2.2 = h ++ it ∧
        it.countP Event.isResolve = 1 ∧ it.countP Event.isRouteDial ≤ 1) := by
  obtain ⟨rec1, ev, rec2, res, htr, _, hr1, hr2, hrun, _, _, _⟩ :=
    Dial_run env o network address tr
  obtain ⟨a1, a2, a3⟩ := sinkRecords_counts rec1 hr1
  obtain ⟨b1, b2, _⟩ := sinkRecords_counts rec2 hr2
  obtain ⟨c1, c2, _, c4, c5, c6⟩ := hrun.counts
  have hpos := retryCount_pos o.Retries
  have hle := retryCount_le_max o.Retries hR
  have hfind : (rec1 ++ (ev ++ rec2)).find? Event.isResolve = ev.find? Event.isResolve := by
    rw [List.find?_append, a3, List.find?_append]
    cases hf : ev.find? Event.isResolve with
    | none =>
      have := List.find?_eq_none.mp hf
      have hx : ev.countP Event.isResolve = 0 := by
        rw [List.countP_eq_zero]
        intro x hx
        exact this x hx
      have := c4 (by omega)
      omega
    | some x => simp
  refine ⟨rec1 ++ (ev ++ rec2), htr, ?_, ?_, ?_, ?_, ?_, ?_, ?_⟩
  · simp only [List.countP_append, a2, b2]
    omega
  · simp only [List.countP_append, a1, b1]
    omega
  · simp only [List.countP_append, a1, b1]
    have := c4 (by omega)
    omega
  · simp only [List.countP_append, a1, b1, a2, b2]
    omega
  · intro a ip h
    rw [hfind] at h
    have := c5 a ip h
    simp only [List.countP_append, a2, b2]
    omega
  · intro a e h
    rw [hfind] at h
    have := c6 a e h
    simp only [List.countP_append, a2, b2]
    omega
  · intro conn h
    exact dialIter_counts env o network address conn h

/-- C1, a concrete call: two retries, the first two routes fail and the third connects. -/
theorem c1_dial_attempt_bounds_witness :
    ∃ ev, (Router.Dial
        thirdTimeEnv ⟨none, 2, []⟩ "tcp" "example.com:80" []).2 = [] ++ ev ∧
      (ev.countP Event.isRouteDial : Int) ≤ max ((2 : Int) + 1) 1 ∧
      ev.countP Event.isRouteDial = 3 := by
  obtain ⟨ev, h, hb, _⟩ := c1_dial_attempt_bounds
    thirdTimeEnv ⟨none, 2, []⟩ "tcp" "example.com:80" [] (by decide)
  refine ⟨ev, h, hb, ?_⟩
  have h2 : ev = newEvents [] (Router.Dial
        thirdTimeEnv ⟨none, 2, []⟩ "tcp" "example.com:80" []).2 := by
    rw [h]
    simp [newEvents]
  rw [h2]
  decide

/-- C1 as stated fails: with three retries allowed and a resolver that fails, `Router.Dial`
resolves once and never invokes `Route.Dial`, so the operation is not invoked at least once. -/
theorem c1_resolution_failure_no_route_dial :
    isGoInt 3 ∧
    (newEvents [] (Router.Dial (scriptedEnv [] []) ⟨none, 3, []⟩ "tcp"
      "example.com:80" []).2).countP Event.isResolve = 1 ∧
    ¬ (1 ≤ (newEvents [] (Router.Dial (scriptedEnv [] []) ⟨none, 3, []⟩ "tcp"
      "example.com:80" []).2).countP Event.isRouteDial) := by
  decide

/-! ## `routePath` -/

mutual
/-- On a route, `routePath` is the traversal of the specification when every node has options,
and fails otherwise. -/
theorem routePath_eq_route : ∀ r : Route,
    r.routePath = if r.hasOptions then some r.preorderPath else none
  | .defaultRoute => by simp [Route.routePath, Route.hasOptions, Route.preorderPath]
  | .chainRoute nodes => by
    have h := routePathLoop_eq nodes []
    simp [Route.routePath, Route.hasOptions, Route.preorderPath, h]
/-- The loop of `routePath` appends the traversals of the nodes left, in order. -/
theorem routePathLoop_eq : ∀ (ns path : List Node),
    routePathLoop ns path =
      if nodesHaveOptions ns then some (path ++ preorderNodes ns) else none
  | [], path => by simp [routePathLoop, nodesHaveOptions, preorderNodes]
  | n :: ns, path => by
    have h1 := routePathStep_eq n
    simp only [routePathLoop, nodesHaveOptions, preorderNodes, h1]
    cases hn : Node.hasOptions n with
    | false => simp
    | true =>
      have h2 := routePathLoop_eq ns (path ++ Node.preorderPath n)
      simp only [if_true, h2, Bool.true_and, List.append_assoc]
/-- One iteration of the loop appends the traversal of the node. -/
theorem routePathStep_eq : ∀ n : Node,
    n.routePathStep = if n.hasOptions then some n.preorderPath else none
  | .mk _ _ none _ => by simp [Node.routePathStep, Node.hasOptions]
  | .mk name addr (some opts) marker => by
    have h1 := transportPath_eq opts
    simp only [Node.routePathStep, Node.hasOptions, Node.preorderPath, h1]
    cases NodeOptions.hasOptions opts <;> simp
/-- The path of the route below the options of a node. -/
theorem transportPath_eq : ∀ o : NodeOptions,
    o.transportPath = if o.hasOptions then some o.preorderPath else none
  | .mk _ none => by
    simp [NodeOptions.transportPath, NodeOptions.hasOptions, NodeOptions.preorderPath]
  | .mk _ (some tr) => by
    have h := routePath_eq_transport tr
    simp [NodeOptions.transportPath, NodeOptions.hasOptions, NodeOptions.preorderPath, h]
/-- The path of the route of a transport. -/
theorem routePath_eq_transport : ∀ t : Transport,
    t.routePath = if t.hasOptions then some t.preorderPath else none
  | .mk none => by simp [Transport.routePath, Transport.hasOptions, Transport.preorderPath]
  | .mk (some r) => by
    have h := routePath_eq_route r
    simp [Transport.routePath, Transport.hasOptions, Transport.preorderPath, h]
end

/-- The traversal of a node is the traversal of its nested route followed by the node. -/
theorem preorderPath_node (n : Node) : n.preorderPath = preorderPath n.nestedRoute ++ [n] := by
  cases n with
  | mk name addr options marker =>
    cases options with
    | none => rfl
    | some opts =>
      cases opts with
      | mk network transport =>
        cases transport with
        | none => rfl
        | some tr =>
          cases tr with
          | mk route =>
            cases route <;> rfl

/-- The traversal of a list of nodes as a concatenation over the list. -/
theorem preorderNodes_eq_flatMap (ns : List Node) :
    preorderNodes ns = ns.flatMap (fun n => preorderPath n.nestedRoute ++ [n]) := by
  induction ns with
  | nil => rfl
  | cons n ns ih => simp [preorderNodes, preorderPath_node, ih]

/-- The traversal of a route as a concatenation over its nodes. -/
theorem preorderPath_eq_flatMap (r : Route) :
    preorderPath (some r) = r.Nodes.flatMap (fun n => preorderPath n.nestedRoute ++ [n]) := by
  cases r with
  | defaultRoute => rfl
  | chainRoute nodes => exact preorderNodes_eq_flatMap nodes

/-- The nodes of the tree of a node: the node, then the nodes of its nested route. -/
theorem treeNodes_node (n : Node) :
    n.treeNodes = n :: (match n.nestedRoute with
      | some r => r.treeNodes
      | none => []) := by
  cases n with
  | mk name addr options marker =>
    cases options with
    | none => rfl
    | some opts =>
      cases opts with
      | mk network transport =>
        cases transport with
        | none => rfl
        | some tr =>
          cases tr with
          | mk route =>
            cases route <;> rfl

mutual
/-- The traversal of a route lists the nodes of its tree, each once. -/
theorem preorder_perm_route : ∀ r : Route, r.preorderPath.Perm r.treeNodes
  | .defaultRoute => by simp [Route.preorderPath, Route.treeNodes]
  | .chainRoute nodes => by
    simpa [Route.preorderPath, Route.treeNodes] using preorder_perm_nodes nodes
/-- The traversal of a list of nodes lists the nodes of their trees, each once. -/
theorem preorder_perm_nodes : ∀ ns : List Node, (preorderNodes ns).Perm (treeNodesOf ns)
  | [] => by simp [preorderNodes, treeNodesOf]
  | n :: ns => by
    simp only [preorderNodes, treeNodesOf]
    exact List.Perm.append (preorder_perm_node n) (preorder_perm_nodes ns)
/-- The traversal of a node lists the nodes of its tree, each once. -/
theorem preorder_perm_node : ∀ n : Node, n.preorderPath.Perm n.treeNodes
  | .mk _ _ none _ => by simp [Node.preorderPath, Node.treeNodes]
  | .mk name addr (some opts) marker => by
    simp only [Node.preorderPath, Node.treeNodes]
    exact (List.perm_append_singleton _ _).trans (List.Perm.cons _ (preorder_perm_options opts))
/-- The traversal below the options of a node lists the nodes below, each once. -/
theorem preorder_perm_options : ∀ o : NodeOptions, o.preorderPath.Perm o.treeNodes
  | .mk _ none => by simp [NodeOptions.preorderPath, NodeOptions.treeNodes]
  | .mk _ (some tr) => by
    simpa [NodeOptions.preorderPath, NodeOptions.treeNodes] using preorder_perm_transport tr
/-- The traversal of the route of a transport lists the nodes of its tree, each once. -/
theorem preorder_perm_transport : ∀ t : Transport, t.preorderPath.Perm t.treeNodes
  | .mk none => by simp [Transport.preorderPath, Transport.treeNodes]
  | .mk (some r) => by
    simpa [Transport.preorderPath, Transport.treeNodes] using preorder_perm_route r
end

mutual
/-- In the traversal of a route, every node of the tree comes right after the traversal of its
own nested route. -/
theorem nested_infix_route : ∀ (r : Route) (n : Node), n ∈ r.treeNodes →
    (preorderPath n.nestedRoute ++ [n]) <:+: r.preorderPath
  | .defaultRoute, n, h => by simp [Route.treeNodes] at h
  | .chainRoute nodes, n, h => by
    simpa [Route.preorderPath] using
      nested_infix_nodes nodes n (by simpa [Route.treeNodes] using h)
/-- The same in the traversal of a list of nodes. -/
theorem nested_infix_nodes : ∀ (ns : List Node) (n : Node), n ∈ treeNodesOf ns →
    (preorderPath n.nestedRoute ++ [n]) <:+: preorderNodes ns
  | [], n, h => by simp [treeNodesOf] at h
  | m :: ns, n, h => by
    simp only [treeNodesOf, List.mem_append] at h
    simp only [preorderNodes]
    rcases h with h | h
    · exact (nested_infix_node m n h).trans (List.prefix_append _ _).isInfix
    · exact (nested_infix_nodes ns n h).trans (List.suffix_append _ _).isInfix
/-- The same in the traversal of a node. -/
theorem nested_infix_node : ∀ (m n : Node), n ∈ m.treeNodes →
    (preorderPath n.nestedRoute ++ [n]) <:+: m.preorderPath
  | .mk name addr none marker, n, h => by
    simp only [Node.treeNodes, List.mem_singleton] at h
    subst h
    rw [← preorderPath_node]
  | .mk name addr (some opts) marker, n, h => by
    simp only [Node.treeNodes, List.mem_cons] at h
    rcases h with h | h
    · subst h
      rw [← preorderPath_node]
    · simp only [Node.preorderPath]
      exact (nested_infix_options opts n h).trans (List.prefix_append _ _).isInfix
/-- The same in the traversal below the options of a node. -/
theorem nested_infix_options : ∀ (o : NodeOptions) (n : Node), n ∈ o.treeNodes →
    (preorderPath n.nestedRoute ++ [n]) <:+: o.preorderPath
  | .mk _ none, n, h => by simp [NodeOptions.treeNodes] at h
  | .mk _ (some tr), n, h => by
    simpa [NodeOptions.preorderPath] using
      nested_infix_transport tr n (by simpa [NodeOptions.treeNodes] using h)
/-- The same in the traversal of the route of a transport. -/
theorem nested_infix_transport : ∀ (t : Transport) (n : Node), n ∈ t.treeNodes →
    (preorderPath n.nestedRoute ++ [n]) <:+: t.preorderPath
  | .mk none, n, h => by simp [Transport.treeNodes] at h
  | .mk (some r), n, h => by
    simpa [Transport.preorderPath] using
      nested_infix_route r n (by simpa [Transport.treeNodes] using h)
end

/-- The nodes of a list all of whose nodes have options. -/
theorem hasOptions_of_mem (ns : List Node) (h : nodesHaveOptions ns = true) :
    ∀ n ∈ ns, n.hasOptions = true := by
  induction ns with
  | nil => simp
  | cons m ns ih =>
    simp only [nodesHaveOptions, Bool.and_eq_true] at h
    intro n hn
    simp only [List.mem_cons] at hn
    rcases hn with rfl | hn
    · exact h.1
    · exact ih h.2 n hn

/-- Below a node with options everywhere, `routePath` of the nested route is its traversal. -/
theorem routePath_nested (n : Node) (h : n.hasOptions = true) :
    routePath n.nestedRoute = some (preorderPath n.nestedRoute) := by
  cases n with
  | mk name addr options marker =>
    cases options with
    | none => simp [Node.hasOptions] at h
    | some opts =>
      cases opts with
      | mk network transport =>
        cases transport with
        | none => rfl
        | some tr =>
          cases tr with
          | mk route =>
            cases route with
            | none => rfl
            | some r =>
              have hr : r.hasOptions = true := by
                simpa [Node.hasOptions, NodeOptions.hasOptions, Transport.hasOptions] using h
              have := routePath_eq_route r
              rw [hr] at this
              simpa [routePath, preorderPath, Node.nestedRoute, Node.Options,
                NodeOptions.Transport, Transport.Route] using this

mutual
/-- In a route all of whose nodes have options, every node of the tree has. -/
theorem hasOptions_tree_route : ∀ (r : Route), r.hasOptions = true →
    ∀ n ∈ r.treeNodes, n.hasOptions = true
  | .defaultRoute, _, n, h => by simp [Route.treeNodes] at h
  | .chainRoute nodes, hw, n, h =>
    hasOptions_tree_nodes nodes (by simpa [Route.hasOptions] using hw) n
      (by simpa [Route.treeNodes] using h)
/-- The same for a list of nodes. -/
theorem hasOptions_tree_nodes : ∀ (ns : List Node), nodesHaveOptions ns = true →
    ∀ n ∈ treeNodesOf ns, n.hasOptions = true
  | [], _, n, h => by simp [treeNodesOf] at h
  | m :: ns, hw, n, h => by
    simp only [nodesHaveOptions, Bool.and_eq_true] at hw
    simp only [treeNodesOf, List.mem_append] at h
    rcases h with h | h
    · exact hasOptions_tree_node m hw.1 n h
    · exact hasOptions_tree_nodes ns hw.2 n h
/-- The same for a node. -/
theorem hasOptions_tree_node : ∀ (m : Node), m.hasOptions = true →
    ∀ n ∈ m.treeNodes, n.hasOptions = true
  | .mk _ _ none _, hw, _, _ => by simp [Node.hasOptions] at hw
  | .mk name addr (some opts) marker, hw, n, h => by
    simp only [Node.treeNodes, List.mem_cons] at h
    rcases h with h | h
    · subst h
      exact hw
    · exact hasOptions_tree_options opts (by simpa [Node.hasOptions] using hw) n h
/-- The same below the options of a node. -/
theorem hasOptions_tree_options : ∀ (o : NodeOptions), o.hasOptions = true →
    ∀ n ∈ o.treeNodes, n.hasOptions = true
  | .mk _ none, _, n, h => by simp [NodeOptions.treeNodes] at h
  | .mk _ (some tr), hw, n, h =>
    hasOptions_tree_transport tr (by simpa [NodeOptions.hasOptions] using hw) n
      (by simpa [NodeOptions.treeNodes] using h)
/-- The same below a transport. -/
theorem hasOptions_tree_transport : ∀ (t : Transport), t.hasOptions = true →
    ∀ n ∈ t.treeNodes, n.hasOptions = true
  | .mk none, _, n, h => by simp [Transport.treeNodes] at h
  | .mk (some r), hw, n, h =>
    hasOptions_tree_route r (by simpa [Transport.hasOptions] using hw) n
      (by simpa [Transport.treeNodes] using h)
end

theorem flatMap_congr_mem {α β : Type} (l : List α) (f g : α → List β)
    (h : ∀ a ∈ l, f a = g a) : l.flatMap f = l.flatMap g := by
  induction l with
  | nil => rfl
  | cons a l ih =>
    simp only [List.flatMap_cons]
    rw [h a (by simp), ih (fun b hb => h b (by simp [hb]))]

/-- The nodes of a route are nodes of its tree. -/
theorem nodes_subset_treeNodes (r : Route) : ∀ n ∈ r.Nodes, n ∈ r.treeNodes := by
  cases r with
  | defaultRoute => simp [Route.Nodes]
  | chainRoute nodes =>
    simp only [Route.Nodes, Route.treeNodes]
    induction nodes with
    | nil => simp
    | cons m ns ih =>
      intro n hn
      simp only [List.mem_cons] at hn
      simp only [treeNodesOf, List.mem_append]
      rcases hn with rfl | hn
      · left
        rw [treeNodes_node]
        simp
      · exact Or.inr (ih n hn)

/-- A node without transport has no nested route. -/
theorem nestedRoute_of_no_transport (n : Node)
    (h : n.Options.bind NodeOptions.Transport = none) : n.nestedRoute = none := by
  unfold Node.nestedRoute
  cases ho : n.Options with
  | none => rfl
  | some opts =>
    rw [ho] at h
    simp only [Option.some_bind] at h
    simp only [h]

/-- `routePath` on any route: the traversal of the specification when every node has options;
otherwise the nil pointer `node.Options()` is dereferenced. -/
theorem routePath_eq (r : Route) :
    routePath (some r) = if r.hasOptions then some (preorderPath (some r)) else none :=
  routePath_eq_route r

/-- C11: for every finite route tree whose nodes have options, `routePath` is the empty list for
the nil route and otherwise the concatenation, over the nodes of the route in order, of
`routePath` of the route nested in the transport of the node (nothing when the node has no
transport) followed by the node itself; hence the path lists the nodes of the tree, each once,
and every node comes right after the nodes of its own nested route. -/
theorem c11_routePath_traversal (r : Route) (hwf : r.hasOptions = true) :
    routePath none = some [] ∧
    routePath (some r) =
      some (r.Nodes.flatMap (fun n => (routePath n.nestedRoute).getD [] ++ [n])) ∧
    (∀ n ∈ r.Nodes, ∃ nested, routePath n.nestedRoute = some nested ∧
      (n.Options.bind NodeOptions.Transport = none → nested = [])) ∧
    (∃ path, routePath (some r) = some path ∧ path.Perm r.treeNodes ∧
      ∀ n ∈ r.treeNodes, ∃ nested, routePath n.nestedRoute = some nested ∧
        (nested ++ [n]) <:+: path) := by
  have hall : ∀ n ∈ r.treeNodes, n.hasOptions = true := hasOptions_tree_route r hwf
  have hpath : routePath (some r) = some (preorderPath (some r)) := by
    rw [routePath_eq, hwf]
    rfl
  refine ⟨rfl, ?_, ?_, ?_⟩
  · rw [hpath, preorderPath_eq_flatMap]
    congr 1
    apply flatMap_congr_mem
    intro n hn
    rw [routePath_nested n (hall n (nodes_subset_treeNodes r n hn))]
    rfl
  · intro n hn
    refine ⟨preorderPath n.nestedRoute,
      routePath_nested n (hall n (nodes_subset_treeNodes r n hn)), ?_⟩
    intro hno
    rw [nestedRoute_of_no_transport n hno]
    rfl
  · refine ⟨preorderPath (some r), hpath, preorder_perm_route r, ?_⟩
    intro n hn
    exact ⟨preorderPath n.nestedRoute, routePath_nested n (hall n hn),
      nested_infix_route r n hn⟩

/-- C11, a concrete tree: `b` goes through `a1` and `a2`, `d` through `c`, which goes through
`c1`; the path is a1, a2, b, c1, c, d, e. -/
theorem c11_routePath_traversal_witness :
    routePath (some sampleRoute) =
      some (sampleRoute.Nodes.flatMap (fun n => (routePath n.nestedRoute).getD [] ++ [n])) ∧
    (routePath (some sampleRoute)).map (fun l => l.map Node.Name) =
      some ["a1", "a2", "b", "c1", "c", "d", "e"] :=
  ⟨(c11_routePath_traversal sampleRoute (by decide)).2.1, by decide⟩

/-! ## The client-side stream of `handleConnect` -/

/-- The stream built by the wrappers of `handleConnect`: the traffic limiter of scope client,
keyed by the client id, around the connection, and the stats around it when an observer is
configured. -/
theorem wrap_stream (h : relayHandler) (clientID : String) (conn : ClientConn)
    (network address : String) (conn1 : RW) (tr : List Event) :
    (relayHandler.wrap h clientID conn network address conn1 tr).1 =
      (match h.options.Observer with
        | some _ =>
          RW.stats (RW.trafficLimited h.limiter conn1 clientID
            ⟨ScopeClient, h.options.Service, network, address, clientID,
              conn.RemoteAddr.String⟩) clientID
        | none =>
          RW.trafficLimited h.limiter conn1 clientID
            ⟨ScopeClient, h.options.Service, network, address, clientID,
              conn.RemoteAddr.String⟩) ∧
    (relayHandler.wrap h clientID conn network address conn1 tr).1.hasTrafficLimiter = true ∧
    (h.options.Observer ≠ none →
      (relayHandler.wrap h clientID conn network address conn1 tr).1.hasStats = true) := by
  unfold relayHandler.wrap
  cases h.options.Observer with
  | none => exact ⟨rfl, rfl, fun hne => absurd rfl hne⟩
  | some ob => exact ⟨rfl, rfl, fun _ => rfl⟩

/-- Without sniffing, `handleConnect` hands the splice the wrapped stream. -/
theorem relay_splice_without_sniffing (env : Env) (h : relayHandler) (clientID : String)
    (conn : ClientConn) (network address : String) (conn1 : RW) (cc : Option Conn)
    (ro : HandlerRecorderObject) (tr : List Event) (hs : h.md.sniffing = false) :
    relayHandler.splice env h clientID conn network address conn1 cc ro tr =
      ⟨none, ro, (relayHandler.wrap h clientID conn network address conn1 tr).2 ++
        [Event.transport (relayHandler.wrap h clientID conn network address conn1 tr).1
          (Upstream.conn cc)] ++ relayHandler.deferred h clientID⟩ := by
  unfold relayHandler.splice
  simp [hs]

/-- With sniffing, `handleConnect` hands the splice, `handleHTTP` or `handleTLS` the stream
`xio.NewReadWriter(bufio.NewReader(conn), conn)` built on the connection itself: the stream of
the wrappers is dropped. -/
theorem relay_splice_with_sniffing (env : Env) (h : relayHandler) (clientID : String)
    (conn : ClientConn) (network address : String) (conn1 : RW) (cc : Option Conn)
    (ro : HandlerRecorderObject) (tr : List Event) (hs : h.md.sniffing = true) :
    ∃ x, x ∈ newEvents tr
        (relayHandler.splice env h clientID conn network address conn1 cc ro tr).tr ∧
      x.handedStream = some (RW.readWriter (RW.bufio conn1) conn1) ∧
      ∀ y ∈ newEvents tr
        (relayHandler.splice env h clientID conn network address conn1 cc ro tr).tr,
        ∀ s, y.handedStream = some s → s = RW.readWriter (RW.bufio conn1) conn1 := by
  obtain ⟨W, hW, hWs⟩ : ∃ W, (relayHandler.wrap h clientID conn network address conn1 tr).2 =
      tr ++ W ∧ ∀ y ∈ W, y.handedStream = none := by
    unfold relayHandler.wrap
    cases h.options.Observer with
    | none => exact ⟨[], by simp, by simp⟩
    | some ob => exact ⟨_, rfl, by simp [Event.handedStream]⟩
  obtain ⟨P, hP, hPp⟩ := sniffStep_events env h.md.sniffingTimeout (tr ++ W)
  have hPs : ∀ y ∈ P, y.handedStream = none := by
    intro y hy
    have := hPp y hy
    cases y <;> first | rfl | (simp [Event.isPrelude] at this)
  have hDs : ∀ y ∈ relayHandler.deferred h clientID, y.handedStream = none := by
    intro y hy
    unfold relayHandler.deferred at hy
    cases hobs : h.options.Observer with
    | none =>
      simp only [hobs, List.mem_singleton] at hy
      subst hy
      rfl
    | some ob =>
      simp only [hobs, List.mem_cons, List.mem_singleton, List.not_mem_nil, or_false] at hy
      rcases hy with rfl | rfl <;> rfl
  have hne : ∀ E : Event, newEvents tr
      (tr ++ W ++ P ++ [E] ++ relayHandler.deferred h clientID) =
        W ++ (P ++ ([E] ++ relayHandler.deferred h clientID)) := by
    intro E
    simp [newEvents, List.append_assoc]
  have key : ∀ x : Event, x.handedStream = some (RW.readWriter (RW.bufio conn1) conn1) →
      ∃ x1, x1 ∈ W ++ (P ++ ([x] ++ relayHandler.deferred h clientID)) ∧
        x1.handedStream = some (RW.readWriter (RW.bufio conn1) conn1) ∧
        ∀ y ∈ W ++ (P ++ ([x] ++ relayHandler.deferred h clientID)),
          ∀ s, y.handedStream = some s → s = RW.readWriter (RW.bufio conn1) conn1 := by
    intro x hx
    refine ⟨x, by simp, hx, ?_⟩
    intro y hy s hys
    simp only [List.mem_append, List.mem_singleton] at hy
    rcases hy with hy | hy | hy | hy
    · rw [hWs y hy] at hys
      cases hys
    · rw [hPs y hy] at hys
      cases hys
    · subst hy
      rw [hx] at hys
      cases hys
      rfl
    · rw [hDs y hy] at hys
      cases hys
  unfold relayHandler.splice
  simp only [hs, if_true, hW, hP]
  by_cases hh : (sniffStep env h.md.sniffingTimeout (tr ++ W)).1 = ProtoHTTP
  · rw [if_pos hh, hne]
    exact key _ rfl
  · rw [if_neg hh]
    by_cases ht : (sniffStep env h.md.sniffingTimeout (tr ++ W)).1 = ProtoTLS
    · rw [if_pos ht, hne]
      exact key _ rfl
    · rw [if_neg ht, hne]
      exact key _ rfl

/-- C12 on the sniffing path: a relay handler with a traffic limiter and an observer, sniffing
on, a stream of no known protocol.  `handleConnect` reaches the splice and hands it the stream
`xio.NewReadWriter(bufio.NewReader(conn), conn)`, in which neither the traffic limiter nor the
stats wrapper occurs, although the connection was counted; with sniffing off the same call hands
the splice the stream wrapped by both. -/
theorem c12_sniffing_drops_limiter :
    (relayHandler.handleConnect (scriptedEnv [.ok "10.0.0.1:22"] [.ok (Conn.handle 1)])
        (observedRelay true) "client-1" tcpClient "tcp" "10.0.0.1:22" startedRecord []).tr =
      [Event.resolve "10.0.0.1:22" (.ok "10.0.0.1:22"),
        Event.routeDial DefaultRoute "tcp" "10.0.0.1:22" (.ok (Conn.handle 1)),
        Event.writeTo false ⟨1, 200⟩,
        Event.statsAdd "client-1" StatsKind.KindTotalConns 1,
        Event.statsAdd "client-1" StatsKind.KindCurrentConns 1,
        Event.sniff "",
        Event.transport (RW.readWriter (RW.bufio RW.conn) RW.conn)
          (Upstream.conn (some (Conn.handle 1))),
        Event.statsAdd "client-1" StatsKind.KindCurrentConns (-1),
        Event.upstreamClose] ∧
    (RW.readWriter (RW.bufio RW.conn) RW.conn).hasTrafficLimiter = false ∧
    (RW.readWriter (RW.bufio RW.conn) RW.conn).hasStats = false ∧
    (relayHandler.handleConnect (scriptedEnv [.ok "10.0.0.1:22"] [.ok (Conn.handle 1)])
        (observedRelay false) "client-1" tcpClient "tcp" "10.0.0.1:22" startedRecord []).tr =
      [Event.resolve "10.0.0.1:22" (.ok "10.0.0.1:22"),
        Event.routeDial DefaultRoute "tcp" "10.0.0.1:22" (.ok (Conn.handle 1)),
        Event.writeTo false ⟨1, 200⟩,
        Event.statsAdd "client-1" StatsKind.KindTotalConns 1,
        Event.statsAdd "client-1" StatsKind.KindCurrentConns 1,
        Event.transport
          (RW.stats (RW.trafficLimited (some 2) RW.conn "client-1"
            ⟨"client", "relay", "tcp", "10.0.0.1:22", "client-1", "192.0.2.7:51000"⟩)
            "client-1")
          (Upstream.conn (some (Conn.handle 1))),
        Event.statsAdd "client-1" StatsKind.KindCurrentConns (-1),
        Event.upstreamClose] :=
  ⟨by rfl, by rfl, by rfl, by rfl⟩

/-! ## `convertAddr` and the PROXY-protocol wrapper -/

/-- The method `Equal` against `net.IPv6zero` holds of the sixteen zero bytes only. -/
theorem Equal_IPv6zero (ip : IP) : IP.Equal ip IPv6zero = true ↔ ip = IPv6zero := by
  cases ip with
  | none => simp [IP.Equal, IPv6zero]
  | some l =>
    unfold IP.Equal IPv6zero
    simp only [Option.getD_some, List.length_cons, List.length_nil]
    by_cases h16 : l.length = 16
    · simp [h16]
    · have hne : l ≠ [0, 0, 0, 0, 0, 0, 0, 0, 0, 0, 0, 0, 0, 0, 0, 0] := by
        intro heq
        apply h16
        rw [heq]
        rfl
      have hv : ([0, 0, 0, 0, 0, 0, 0, 0, 0, 0, 0, 0, 0, 0, 0, 0] : List UInt8).take 12
          ≠ v4InV6Prefix := by decide
      simp only [h16, hne, false_and, and_false, if_false, false_iff, ne_eq, not_false_eq_true,
        Option.some.injEq, beq_iff_eq, Bool.and_eq_true, List.length_cons, List.length_nil]
      simp
      intro _ hc
      exact absurd hc (by decide)

theorem not_transport_of_prelude (x : Event) (hp : x.isPrelude = true) :
    x.isTransport = false := by
  cases x <;> first | rfl | (simp [Event.isPrelude] at hp)

theorem not_transport_of_routerCall (x : Event) (hp : x.isRouterCall = true) :
    x.isTransport = false := by
  cases x <;> first | rfl | (simp [Event.isRouterCall] at hp)

theorem not_transport_of_sinkRecord (x : Event) (hp : x.isSinkRecord = true) :
    x.isTransport = false := by
  cases x <;> first | rfl | (simp [Event.isSinkRecord] at hp)

/-- The splice of `forwardHandler.dialTarget`: it happens when the dial succeeded, and its
upstream is the dialled connection in the PROXY-protocol wrapper, with the remote address of the
client and `convertAddr` of its local address. -/
theorem dialTarget_transport (env : Env) (h : forwardHandler) (conn : ClientConn)
    (network : String) (rw : RW) (ro : HandlerRecorderObject) (N : Node) (tr : List Event) :
    ((Router.Dial env h.options.Router (targetNetwork network N) N.Addr tr).1.2 = none →
      Event.transport rw (Upstream.wrapClientConn h.md.proxyProtocol conn.RemoteAddr
        (convertAddr env conn.LocalAddr)
        (Upstream.conn (Router.Dial env h.options.Router (targetNetwork network N) N.Addr
          tr).1.1)) ∈ newEvents tr (forwardHandler.dialTarget env h conn network rw ro N tr).tr) ∧
    ∀ x ∈ newEvents tr (forwardHandler.dialTarget env h conn network rw ro N tr).tr,
      x.isTransport = true →
      (Router.Dial env h.options.Router (targetNetwork network N) N.Addr tr).1.2 = none ∧
      x = Event.transport rw (Upstream.wrapClientConn h.md.proxyProtocol conn.RemoteAddr
        (convertAddr env conn.LocalAddr)
        (Upstream.conn (Router.Dial env h.options.Router (targetNetwork network N) N.Addr
          tr).1.1)) := by
  obtain ⟨dev, hdev, hrc⟩ := Dial_events env h.options.Router (targetNetwork network N) N.Addr tr
  unfold forwardHandler.dialTarget
  dsimp only
  cases hd : (Router.Dial env h.options.Router (targetNetwork network N) N.Addr tr).1.2 with
  | some e =>
    simp only [hdev, List.append_assoc, newEvents_append]
    refine ⟨fun hc => (by cases hc), ?_⟩
    intro x hx ht
    exfalso
    rw [List.mem_append] at hx
    rcases hx with hx | hx
    · rw [not_transport_of_routerCall x (hrc x hx)] at ht
      cases ht
    · unfold markEvents at hx
      cases hm : N.Marker with
      | none => simp [hm] at hx
      | some m =>
        simp only [hm, List.mem_singleton] at hx
        subst hx
        cases ht
  | none =>
    simp only [hdev, List.append_assoc, newEvents_append]
    refine ⟨fun _ => by simp, ?_⟩
    intro x hx ht
    refine ⟨trivial, ?_⟩
    simp only [List.mem_append, List.mem_cons, List.mem_singleton, List.not_mem_nil,
      or_false] at hx
    rcases hx with hx | hx | hx | hx
    · rw [not_transport_of_routerCall x (hrc x hx)] at ht
      cases ht
    · exfalso
      unfold resetEvents at hx
      cases hm : N.Marker with
      | none => simp [hm] at hx
      | some m =>
        simp only [hm, List.mem_singleton] at hx
        subst hx
        cases ht
    · exact hx
    · subst hx
      cases ht

/-- The splice of the body of `forwardHandler.Handle`: when the body returns nil without
dispatching to a sub-handler there is one, and the upstream of every splice is a connection
`Router.Dial` returned without error, in the PROXY-protocol wrapper with the remote address of
the client unmodified and `convertAddr` of its local address. -/
theorem body_transport (env : Env) (h : forwardHandler) (conn : ClientConn)
    (ro : HandlerRecorderObject) (tr : List Event) :
    ((forwardHandler.body env h conn ro tr).err = none →
      (∀ x ∈ newEvents tr (forwardHandler.body env h conn ro tr).tr, x.isSubHandler = false) →
      ∃ x ∈ newEvents tr (forwardHandler.body env h conn ro tr).tr, x.isTransport = true) ∧
    ∀ x ∈ newEvents tr (forwardHandler.body env h conn ro tr).tr, x.isTransport = true →
      ∃ rw N hist,
        (Router.Dial env h.options.Router (targetNetwork (connNetwork conn) N) N.Addr
          hist).1.2 = none ∧
        x = Event.transport rw (Upstream.wrapClientConn h.md.proxyProtocol conn.RemoteAddr
          (convertAddr env conn.LocalAddr)
          (Upstream.conn (Router.Dial env h.options.Router
            (targetNetwork (connNetwork conn) N) N.Addr hist).1.1)) := by
  obtain ⟨P, hP, hcases⟩ := body_cases env h conn ro tr
  rcases hcases with hb | ⟨roP, _, hb⟩ | ⟨roP, rw, _, hb⟩ | ⟨proto0, rw, ro1, _, hb⟩
  · rw [hb]
    simp only [newEvents_append]
    refine ⟨fun hc => (by cases hc), ?_⟩
    intro x hx ht
    rw [not_transport_of_prelude x (hP x hx)] at ht
    cases ht
  · rw [hb]
    simp only [newEvents_append]
    refine ⟨fun _ hsub => ?_, ?_⟩
    · have := hsub (Event.subHandler ProtoHTTP (RW.readWriter (RW.bufio RW.conn) RW.conn)
        none ObjRef.ro2 roP) (by simp)
      cases this
    · intro x hx ht
      rw [List.mem_append, List.mem_singleton] at hx
      rcases hx with hx | hx
      · rw [not_transport_of_prelude x (hP x hx)] at ht
        cases ht
      · subst hx
        cases ht
  · rw [hb]
    simp only [newEvents_append]
    refine ⟨fun _ hsub => ?_, ?_⟩
    · have := hsub (Event.subHandler ProtoTLS rw none ObjRef.ro roP) (by simp)
      cases this
    · intro x hx ht
      rw [List.mem_append, List.mem_singleton] at hx
      rcases hx with hx | hx
      · rw [not_transport_of_prelude x (hP x hx)] at ht
        cases ht
      · subst hx
        cases ht
  · rw [hb]
    rcases forward_cases env h conn (connNetwork conn) proto0 rw ro1 (tr ++ P) with
      ⟨S, hS, hf⟩ | ⟨hop, N, hf⟩
    · rw [hf]
      simp only [List.append_assoc, newEvents_append]
      refine ⟨fun hc => (by cases hc), ?_⟩
      intro x hx ht
      rw [List.mem_append] at hx
      rcases hx with hx | hx
      · rw [not_transport_of_prelude x (hP x hx)] at ht
        cases ht
      · obtain ⟨hop, rfl⟩ := hS x hx
        cases ht
    · rw [hf]
      obtain ⟨hex, hall⟩ := dialTarget_transport env h conn (connNetwork conn) rw ro1 N
        (tr ++ P ++ [Event.hopSelect hop proto0 (some N)])
      obtain ⟨_, herr, hpaths⟩ := dialTarget_cases env h conn (connNetwork conn) rw ro1 N
        (tr ++ P ++ [Event.hopSelect hop proto0 (some N)])
      obtain ⟨dev, hdev, _⟩ := Dial_events env h.options.Router
        (targetNetwork (connNetwork conn) N) N.Addr
        (tr ++ P ++ [Event.hopSelect hop proto0 (some N)])
      have hpre : ∃ E, (forwardHandler.dialTarget env h conn (connNetwork conn) rw ro1 N
          (tr ++ P ++ [Event.hopSelect hop proto0 (some N)])).tr =
          (tr ++ P ++ [Event.hopSelect hop proto0 (some N)]) ++ E := by
        rcases hpaths with ⟨e, _, ht⟩ | ⟨_, cc, ht⟩
        · exact ⟨dev ++ markEvents N, by rw [ht, hdev, List.append_assoc]⟩
        · exact ⟨dev ++ (resetEvents N ++ [Event.transport rw cc, Event.upstreamClose]),
            by rw [ht, hdev, List.append_assoc]⟩
      obtain ⟨E, hE⟩ := hpre
      rw [hE, newEvents_append] at hex hall
      have hnew : newEvents tr (tr ++ P ++ [Event.hopSelect hop proto0 (some N)] ++ E) =
          P ++ ([Event.hopSelect hop proto0 (some N)] ++ E) := by
        simp [newEvents, List.append_assoc]
      rw [hE, hnew]
      refine ⟨fun hnil _ => ?_, ?_⟩
      · have hmem := hex (by rw [← herr]; exact hnil)
        exact ⟨Event.transport rw (Upstream.wrapClientConn h.md.proxyProtocol conn.RemoteAddr
          (convertAddr env conn.LocalAddr)
          (Upstream.conn (Router.Dial env h.options.Router
            (targetNetwork (connNetwork conn) N) N.Addr
            (tr ++ P ++ [Event.hopSelect hop proto0 (some N)])).1.1)),
          List.mem_append_right _ (List.mem_append_right _ hmem), rfl⟩
      · intro x hx ht
        simp only [List.mem_append, List.mem_singleton] at hx
        rcases hx with hx | hx | hx
        · rw [not_transport_of_prelude x (hP x hx)] at ht
          cases ht
        · subst hx
          cases ht
        · obtain ⟨hd, hxeq⟩ := hall x hx ht
          exact ⟨rw, N, tr ++ P ++ [Event.hopSelect hop proto0 (some N)], hd, hxeq⟩

/-- C13: `convertAddr` keeps the port of the address (the port part of its string, read as a
number); the IP of the result is `net.IPv4zero` when the host part does not parse (`net.ParseIP`
returns nil) or parses to the IPv6 zero address, and the parsed IP unchanged otherwise; the result
is a TCP address for the networks `tcp`, `tcp4` and `tcp6` and a UDP address for every other one.
In `forwardHandler.Handle` the upstream of every splice is a connection `Router.Dial` returned
without error, in the PROXY-protocol wrapper with the configured version, the remote address of
the client unmodified and `convertAddr` of its local address; and a call that returns nil
without dispatching to a sub-handler has such a splice. -/
theorem c13_convertAddr_in_proxy_wrapper (env : Env) (h : forwardHandler) (sid : String)
    (conn : ClientConn) (addr : Addr) (tr : List Event) :
    (convertAddr env addr).Port = env.Atoi (env.SplitHostPort addr.String).2 ∧
    ((env.ParseIP (env.SplitHostPort addr.String).1 = none ∨
        env.ParseIP (env.SplitHostPort addr.String).1 = IPv6zero) →
      (convertAddr env addr).IP = IPv4zero) ∧
    (env.ParseIP (env.SplitHostPort addr.String).1 ≠ none →
      env.ParseIP (env.SplitHostPort addr.String).1 ≠ IPv6zero →
      (convertAddr env addr).IP = env.ParseIP (env.SplitHostPort addr.String).1) ∧
    ((convertAddr env addr).isTCP = true ↔
      (addr.Network = "tcp" ∨ addr.Network = "tcp4" ∨ addr.Network = "tcp6")) ∧
    (∀ x ∈ newEvents tr (forwardHandler.Handle env h sid conn tr).2, x.isTransport = true →
      ∃ rw N hist,
        (Router.Dial env h.options.Router (targetNetwork (connNetwork conn) N) N.Addr
          hist).1.2 = none ∧
        x = Event.transport rw (Upstream.wrapClientConn h.md.proxyProtocol conn.RemoteAddr
          (convertAddr env conn.LocalAddr)
          (Upstream.conn (Router.Dial env h.options.Router
            (targetNetwork (connNetwork conn) N) N.Addr hist).1.1))) ∧
    ((forwardHandler.Handle env h sid conn tr).1 = none →
      (∀ x ∈ newEvents tr (forwardHandler.Handle env h sid conn tr).2, x.isSubHandler = false) →
      ∃ x ∈ newEvents tr (forwardHandler.Handle env h sid conn tr).2, x.isTransport = true) := by
  have hconv : ∀ ip1 : IP, ∀ port : Int,
      ((if addr.Network = "tcp" ∨ addr.Network = "tcp4" ∨ addr.Network = "tcp6" then
          IPAddr.TCPAddr ip1 port else IPAddr.UDPAddr ip1 port).Port = port) ∧
      ((if addr.Network = "tcp" ∨ addr.Network = "tcp4" ∨ addr.Network = "tcp6" then
          IPAddr.TCPAddr ip1 port else IPAddr.UDPAddr ip1 port).IP = ip1) ∧
      ((if addr.Network = "tcp" ∨ addr.Network = "tcp4" ∨ addr.Network = "tcp6" then
          IPAddr.TCPAddr ip1 port else IPAddr.UDPAddr ip1 port).isTCP = true ↔
        (addr.Network = "tcp" ∨ addr.Network = "tcp4" ∨ addr.Network = "tcp6")) := by
    intro ip1 port
    by_cases hn : addr.Network = "tcp" ∨ addr.Network = "tcp4" ∨ addr.Network = "tcp6"
    · rw [if_pos hn]
      exact ⟨rfl, rfl, ⟨fun _ => hn, fun _ => rfl⟩⟩
    · rw [if_neg hn]
      exact ⟨rfl, rfl, ⟨fun hc => (by cases hc), fun hc => absurd hc hn⟩⟩
  obtain ⟨_, recEv, hH, hrec, _, _⟩ := Handle_events env h sid conn tr
  obtain ⟨bev, hbev, _, _⟩ :=
    body_events env h conn (forwardHandler.newRecord env h sid conn tr) tr
  obtain ⟨hex, hall⟩ :=
    body_transport env h conn (forwardHandler.newRecord env h sid conn tr) tr
  rw [hbev, newEvents_append] at hex hall
  have hnew : newEvents tr (forwardHandler.Handle env h sid conn tr).2 =
      bev ++ (recEv ++ [Event.clientClose]) := by
    rw [hH, hbev, List.append_assoc, newEvents_append]
  rw [hnew]
  refine ⟨?_, ?_, ?_, ?_, ?_, ?_⟩
  · unfold convertAddr
    exact (hconv _ _).1
  · intro hip
    unfold convertAddr
    dsimp only
    rw [(hconv _ _).2.1, if_pos]
    rcases hip with hip | hip
    · exact Or.inl (by rw [hip]; rfl)
    · exact Or.inr ((Equal_IPv6zero _).2 hip)
  · intro hnn hnz
    unfold convertAddr
    dsimp only
    rw [(hconv _ _).2.1, if_neg]
    intro hc
    rcases hc with hc | hc
    · apply hnn
      cases hp : env.ParseIP (env.SplitHostPort addr.String).1 with
      | none => rfl
      | some l =>
        rw [hp] at hc
        cases hc
    · exact hnz ((Equal_IPv6zero _).1 hc)
  · unfold convertAddr
    exact (hconv _ _).2.2
  · intro x hx ht
    simp only [List.mem_append, List.mem_singleton] at hx
    rcases hx with hx | hx | hx
    · exact hall x hx ht
    · rw [not_transport_of_sinkRecord x (hrec x hx)] at ht
      cases ht
    · subst hx
      cases ht
  · intro hnil hsub
    have hbnil : (forwardHandler.body env h conn
        (forwardHandler.newRecord env h sid conn tr) tr).err = none := hnil
    obtain ⟨x, hx, ht⟩ := hex hbnil (fun y hy => hsub y (List.mem_append_left _ hy))
    exact ⟨x, List.mem_append_left _ hx, ht⟩

/-- The run of `forwardHandler.Handle` for a client of a listener on `[::]:8080`: the local
address handed to the PROXY-protocol wrapper is the TCP address 0.0.0.0:8080, the remote address
is the address of the client. -/
theorem c13_convertAddr_in_proxy_wrapper_witness :
    (convertAddr wildcardEnv wildcardClient.LocalAddr).IP = IPv4zero ∧
    (forwardHandler.Handle wildcardEnv (plainForward false none) "sid-1" wildcardClient []).2 =
      [Event.hopSelect 1 "" (some markedNode),
        Event.resolve "10.0.0.9:80" (.ok "10.0.0.9:80"),
        Event.routeDial DefaultRoute "tcp" "10.0.0.9:80" (.ok (Conn.handle 1)),
        Event.reset 4,
        Event.transport RW.conn
          (Upstream.wrapClientConn 0 ⟨"tcp", "192.0.2.7:51000"⟩
            (IPAddr.TCPAddr IPv4zero 8080) (Upstream.conn (some (Conn.handle 1)))),
        Event.upstreamClose,
        Event.clientClose] :=
  ⟨(c13_convertAddr_in_proxy_wrapper wildcardEnv (plainForward false none) "sid-1"
      wildcardClient wildcardClient.LocalAddr []).2.1 (Or.inr (by rfl)), by rfl⟩

/-! ## The record under sub-handler dispatch -/

/-- The deferred `ro.Record` of `forwardHandler.Handle` invokes the sink at most once. -/
theorem Handle_record_length (env : Env) (h : forwardHandler) (sid : String)
    (conn : ClientConn) (tr recEv : List Event)
    (htr : (forwardHandler.Handle env h sid conn tr).2 =
      (forwardHandler.body env h conn (forwardHandler.newRecord env h sid conn tr) tr).tr ++
        (recEv ++ [Event.clientClose])) :
    recEv.length ≤ 1 := by
  have hrfl : (forwardHandler.Handle env h sid conn tr).2 =
      (HandlerRecorderObject.Record env (some (closeRecord env
        (forwardHandler.body env h conn (forwardHandler.newRecord env h sid conn tr) tr)
        (forwardHandler.newRecord env h sid conn tr).Time))
        (h.recorder.map (fun x => x.Recorder))
        (forwardHandler.body env h conn (forwardHandler.newRecord env h sid conn tr) tr).tr).2
        ++ [Event.clientClose] := rfl
  rw [hrfl] at htr
  rcases Record_events env (closeRecord env
      (forwardHandler.body env h conn (forwardHandler.newRecord env h sid conn tr) tr)
      (forwardHandler.newRecord env h sid conn tr).Time)
      (h.recorder.map (fun x => x.Recorder))
      (forwardHandler.body env h conn (forwardHandler.newRecord env h sid conn tr) tr).tr with
    hr | ⟨s, data, _, _, _, hr⟩
  · rw [hr] at htr
    have h2 := List.append_cancel_left htr
    have h3 := congrArg List.length h2
    simp only [List.length_append, List.length_singleton, List.length_nil] at h3
    omega
  · rw [hr, List.append_assoc] at htr
    have h2 := List.append_cancel_left htr
    have h3 := congrArg List.length h2
    simp only [List.length_append, List.length_singleton, List.length_nil,
      List.length_cons] at h3
    omega

/-- The TLS dispatch of `forwardHandler.Handle`: `handleTLS` is handed the object `ro` itself,
with its time set; the record of the body is the object as `handleTLS` left it, and the deferred
`ro.Record` is made on it: at most one invocation of the sink, none when `handleTLS` zeroed the
time, one when the time is set, a sink is bound and the serialisation succeeds. -/
theorem forward_tls_dispatch (env : Env) (h : forwardHandler) (sid : String)
    (conn : ClientConn) (tr : List Event)
    (hrl : (forwardHandler.checkRateLimit env h conn.RemoteAddr tr).1 = true)
    (hs : connNetwork conn = "tcp" ∧ h.md.sniffing = true)
    (hp : (sniffStep env h.md.sniffingTimeout
      (forwardHandler.checkRateLimit env h conn.RemoteAddr tr).2).1 = ProtoTLS) :
    ∃ roP recEv, roP.Time = GoTime.clock (env.now tr) ∧
      (forwardHandler.body env h conn (forwardHandler.newRecord env h sid conn tr) tr).ro =
        (env.subHandler (sniffStep env h.md.sniffingTimeout
            (forwardHandler.checkRateLimit env h conn.RemoteAddr tr).2).2 ProtoTLS
          (RW.readWriteConn (RW.readWriter (RW.bufio RW.conn) RW.conn)
            (RW.readWriter (RW.bufio RW.conn) RW.conn) RW.conn) none roP).2 ∧
      (forwardHandler.Handle env h sid conn tr).2 =
        (sniffStep env h.md.sniffingTimeout
          (forwardHandler.checkRateLimit env h conn.RemoteAddr tr).2).2 ++
          [Event.subHandler ProtoTLS
            (RW.readWriteConn (RW.readWriter (RW.bufio RW.conn) RW.conn)
              (RW.readWriter (RW.bufio RW.conn) RW.conn) RW.conn) none ObjRef.ro roP] ++
          (recEv ++ [Event.clientClose]) ∧
      recEv.length ≤ 1 ∧
      (∀ x ∈ recEv, x.isSinkRecord = true) ∧
      ((forwardHandler.body env h conn (forwardHandler.newRecord env h sid conn tr) tr).ro.Time.IsZero
          = true → recEv = []) ∧
      (∀ s data, h.recorder.map (fun x => x.Recorder) = some s →
        (forwardHandler.body env h conn (forwardHandler.newRecord env h sid conn tr)
          tr).ro.Time.IsZero = false →
        env.jsonMarshal (closeRecord env
          (forwardHandler.body env h conn (forwardHandler.newRecord env h sid conn tr) tr)
          (forwardHandler.newRecord env h sid conn tr).Time) = .ok data →
        recEv = [Event.sinkRecord s data]) := by
  have hne : ¬ ProtoTLS = ProtoHTTP := by decide
  have hb : forwardHandler.body env h conn (forwardHandler.newRecord env h sid conn tr) tr =
      ⟨(env.subHandler (sniffStep env h.md.sniffingTimeout
          (forwardHandler.checkRateLimit env h conn.RemoteAddr tr).2).2 ProtoTLS
          (RW.readWriteConn (RW.readWriter (RW.bufio RW.conn) RW.conn)
            (RW.readWriter (RW.bufio RW.conn) RW.conn) RW.conn) none
          (sniffedRecord (forwardHandler.newRecord env h sid conn tr) (connNetwork conn)
            ProtoTLS)).1,
        (env.subHandler (sniffStep env h.md.sniffingTimeout
          (forwardHandler.checkRateLimit env h conn.RemoteAddr tr).2).2 ProtoTLS
          (RW.readWriteConn (RW.readWriter (RW.bufio RW.conn) RW.conn)
            (RW.readWriter (RW.bufio RW.conn) RW.conn) RW.conn) none
          (sniffedRecord (forwardHandler.newRecord env h sid conn tr) (connNetwork conn)
            ProtoTLS)).2,
        (sniffStep env h.md.sniffingTimeout
          (forwardHandler.checkRateLimit env h conn.RemoteAddr tr).2).2 ++
          [Event.subHandler ProtoTLS
            (RW.readWriteConn (RW.readWriter (RW.bufio RW.conn) RW.conn)
              (RW.readWriter (RW.bufio RW.conn) RW.conn) RW.conn) none ObjRef.ro
            (sniffedRecord (forwardHandler.newRecord env h sid conn tr)
              (connNetwork conn) ProtoTLS)]⟩ := by
    unfold forwardHandler.body
    simp only [hrl, Bool.true_eq_false, if_false, hs, and_self, if_true, hp, hne]
    rfl
  obtain ⟨_, recEv, htr, hsink, hone, hzero⟩ := Handle_events env h sid conn tr
  have hlen := Handle_record_length env h sid conn tr recEv htr
  refine ⟨sniffedRecord (forwardHandler.newRecord env h sid conn tr) (connNetwork conn)
    ProtoTLS, recEv, rfl, by rw [hb], ?_, hlen, hsink, ?_, ?_⟩
  · rw [htr, hb]
  · intro hz
    apply hzero
    rw [(closeRecord_fields env _ _).1]
    exact hz
  · intro s data hsome hz hm
    apply hone s data hsome _ hm
    rw [(closeRecord_fields env _ _).1]
    exact hz

/-- The TLS dispatch of `relayHandler.handleConnect`, in `splice`: `handleTLS` is handed the
object `ro` itself, with its time as it was, and the object of the call is the object as
`handleTLS` left it; the deferred calls invoke no sink. -/
theorem relay_tls_dispatch (env : Env) (h : relayHandler) (clientID : String)
    (conn : ClientConn) (network address : String) (conn1 : RW) (cc : Option Conn)
    (ro : HandlerRecorderObject) (tr : List Event)
    (hs : h.md.sniffing = true)
    (hp : (sniffStep env h.md.sniffingTimeout
      (relayHandler.wrap h clientID conn network address conn1 tr).2).1 = ProtoTLS) :
    ∃ roP, roP.Time = ro.Time ∧
      (relayHandler.splice env h clientID conn network address conn1 cc ro tr).ro =
        (env.subHandler (sniffStep env h.md.sniffingTimeout
            (relayHandler.wrap h clientID conn network address conn1 tr).2).2 ProtoTLS
          (RW.readWriter (RW.bufio conn1) conn1) (some (Upstream.conn cc)) roP).2 ∧
      (relayHandler.splice env h clientID conn network address conn1 cc ro tr).tr =
        (sniffStep env h.md.sniffingTimeout
          (relayHandler.wrap h clientID conn network address conn1 tr).2).2 ++
          [Event.subHandler ProtoTLS (RW.readWriter (RW.bufio conn1) conn1)
            (some (Upstream.conn cc)) ObjRef.ro roP] ++ relayHandler.deferred h clientID := by
  have hne : ¬ ProtoTLS = ProtoHTTP := by decide
  refine ⟨sniffedRecord ro ro.Network ProtoTLS, rfl, ?_, ?_⟩
  · unfold relayHandler.splice
    simp only [hs, if_true, hp, hne, if_false]
    rfl
  · unfold relayHandler.splice
    simp only [hs, if_true, hp, hne, if_false]
    rfl

/-- The calls of `relayHandler.handleConnect` that reach line 117: the target is specified, the
bypass lets it pass, the upstream opens and the header is written or cached. -/
theorem handleConnect_reaches_splice (env : Env) (h : relayHandler) (clientID : String)
    (conn : ClientConn) (network address : String) (ro : HandlerRecorderObject)
    (tr : List Event)
    (haddr : relayHandler.connectAddress env network address ≠ "")
    (hbp : (relayHandler.checkBypass env h network
      (relayHandler.connectAddress env network address) tr).1 = false)
    (hup : (relayHandler.openUpstream env h network
      (relayHandler.connectAddress env network address) ro
      (relayHandler.checkBypass env h network
        (relayHandler.connectAddress env network address) tr).2).2.1 = none)
    (hw : (relayHandler.writeHeader env h network ⟨Version1, StatusOK⟩
      (relayHandler.openUpstream env h network
        (relayHandler.connectAddress env network address) ro
        (relayHandler.checkBypass env h network
          (relayHandler.connectAddress env network address) tr).2).2.2.2).1 = none) :
    relayHandler.handleConnect env h clientID conn network address ro tr =
      relayHandler.splice env h clientID conn network
        (relayHandler.connectAddress env network address)
        (relayHandler.writeHeader env h network ⟨Version1, StatusOK⟩
          (relayHandler.openUpstream env h network
            (relayHandler.connectAddress env network address) ro
            (relayHandler.checkBypass env h network
              (relayHandler.connectAddress env network address) tr).2).2.2.2).2.1
        (relayHandler.openUpstream env h network
          (relayHandler.connectAddress env network address) ro
          (relayHandler.checkBypass env h network
            (relayHandler.connectAddress env network address) tr).2).1
        (relayHandler.openUpstream env h network
          (relayHandler.connectAddress env network address) ro
          (relayHandler.checkBypass env h network
            (relayHandler.connectAddress env network address) tr).2).2.2.1
        (relayHandler.writeHeader env h network ⟨Version1, StatusOK⟩
          (relayHandler.openUpstream env h network
            (relayHandler.connectAddress env network address) ro
            (relayHandler.checkBypass env h network
              (relayHandler.connectAddress env network address) tr).2).2.2.2).2.2 := by
  unfold relayHandler.handleConnect
  simp only [haddr, if_false, hbp, Bool.false_eq_true, hup, hw]

theorem not_sinkRecord_of_prelude (x : Event) (hp : x.isPrelude = true) :
    x.isSinkRecord = false := by
  cases x <;> first | rfl | (simp [Event.isPrelude] at hp)

/-- The events of `forwardHandler.Handle` up to the sniffed protocol invoke no sink. -/
theorem forward_sniff_prelude (env : Env) (h : forwardHandler) (addr : Addr)
    (tr : List Event) :
    ∃ P, (sniffStep env h.md.sniffingTimeout
        (forwardHandler.checkRateLimit env h addr tr).2).2 = tr ++ P ∧
      P.countP Event.isSinkRecord = 0 := by
  obtain ⟨P1, hP1, hp1⟩ := checkRateLimit_events env h addr tr
  obtain ⟨P2, hP2, hp2⟩ := sniffStep_events env h.md.sniffingTimeout
    (forwardHandler.checkRateLimit env h addr tr).2
  refine ⟨P1 ++ P2, by rw [hP2, hP1, List.append_assoc], ?_⟩
  apply countP_eq_zero_of_forall
  intro x hx
  rw [List.mem_append] at hx
  rcases hx with hx | hx
  · exact not_sinkRecord_of_prelude x (hp1 x hx)
  · exact not_sinkRecord_of_prelude x (hp2 x hx)

/-- C5 (amended): for every connection that is sniffed.  When the protocol is HTTP,
`forwardHandler.Handle` and `relayHandler.handleConnect` hand `handleHTTP` the copy `ro2` of the
in-progress `HandlerRecorderObject`, which carries its time, and set the time of the outer object
to zero, so that the deferred `Record` of the outer handler invokes the sink zero times.  When the
protocol is TLS, both hand `handleTLS` the in-progress object itself, not a copy, with its time
set, and the object of the outer handler is the object as `handleTLS` left it: the deferred
`Record` of `forwardHandler.Handle` is made on it and invokes the sink at most once, not at all
when `handleTLS` zeroed the time, once when the time is set, a sink is bound and the
serialisation succeeds.  In both cases the outer handler invokes the sink at most once.  The
part of `handleConnect` this is stated on is reached when the target is specified, the bypass
lets it pass, the upstream opens and the header is written or cached. -/
theorem c5_dispatch_record_ownership (env : Env) (h : forwardHandler) (sid : String)
    (conn : ClientConn) (tr : List Event) (g : relayHandler) (clientID : String)
    (rconn : ClientConn) (network address : String) (conn1 : RW) (cc : Option Conn)
    (ro : HandlerRecorderObject) (rtr : List Event) (r : Option Nat)
    (hrl : (forwardHandler.checkRateLimit env h conn.RemoteAddr tr).1 = true)
    (hs : connNetwork conn = "tcp" ∧ h.md.sniffing = true)
    (hg : g.md.sniffing = true) :
    ((sniffStep env h.md.sniffingTimeout
        (forwardHandler.checkRateLimit env h conn.RemoteAddr tr).2).1 = ProtoHTTP →
      (∃ roP, roP.Time = GoTime.clock (env.now tr) ∧
        (forwardHandler.body env h conn (forwardHandler.newRecord env h sid conn tr) tr).ro.Time
          = GoTime.zero ∧
        (forwardHandler.Handle env h sid conn tr).2 =
          (sniffStep env h.md.sniffingTimeout
            (forwardHandler.checkRateLimit env h conn.RemoteAddr tr).2).2 ++
            [Event.subHandler ProtoHTTP (RW.readWriter (RW.bufio RW.conn) RW.conn) none
              ObjRef.ro2 roP, Event.clientClose]) ∧
      (newEvents tr (forwardHandler.Handle env h sid conn tr).2).countP Event.isSinkRecord = 0) ∧
    ((sniffStep env h.md.sniffingTimeout
        (forwardHandler.checkRateLimit env h conn.RemoteAddr tr).2).1 = ProtoTLS →
      (∃ roP recEv, roP.Time = GoTime.clock (env.now tr) ∧
        (forwardHandler.body env h conn (forwardHandler.newRecord env h sid conn tr) tr).ro =
          (env.subHandler (sniffStep env h.md.sniffingTimeout
              (forwardHandler.checkRateLimit env h conn.RemoteAddr tr).2).2 ProtoTLS
            (RW.readWriteConn (RW.readWriter (RW.bufio RW.conn) RW.conn)
              (RW.readWriter (RW.bufio RW.conn) RW.conn) RW.conn) none roP).2 ∧
        (forwardHandler.Handle env h sid conn tr).2 =
          (sniffStep env h.md.sniffingTimeout
            (forwardHandler.checkRateLimit env h conn.RemoteAddr tr).2).2 ++
            [Event.subHandler ProtoTLS
              (RW.readWriteConn (RW.readWriter (RW.bufio RW.conn) RW.conn)
                (RW.readWriter (RW.bufio RW.conn) RW.conn) RW.conn) none ObjRef.ro roP] ++
            (recEv ++ [Event.clientClose]) ∧
        recEv.length ≤ 1 ∧
        (∀ x ∈ recEv, x.isSinkRecord = true) ∧
        ((forwardHandler.body env h conn (forwardHandler.newRecord env h sid conn tr)
            tr).ro.Time.IsZero = true → recEv = []) ∧
        (∀ s data, h.recorder.map (fun x => x.Recorder) = some s →
          (forwardHandler.body env h conn (forwardHandler.newRecord env h sid conn tr)
            tr).ro.Time.IsZero = false →
          env.jsonMarshal (closeRecord env
            (forwardHandler.body env h conn (forwardHandler.newRecord env h sid conn tr) tr)
            (forwardHandler.newRecord env h sid conn tr).Time) = .ok data →
          recEv = [Event.sinkRecord s data])) ∧
      (newEvents tr (forwardHandler.Handle env h sid conn tr).2).countP Event.isSinkRecord ≤ 1) ∧
    ((sniffStep env g.md.sniffingTimeout
        (relayHandler.wrap g clientID rconn network address conn1 rtr).2).1 = ProtoHTTP →
      (relayHandler.splice env g clientID rconn network address conn1 cc ro rtr).ro.Time
        = GoTime.zero ∧
      (∃ roP, roP.Time = ro.Time ∧
        (relayHandler.splice env g clientID rconn network address conn1 cc ro rtr).tr =
          (sniffStep env g.md.sniffingTimeout
            (relayHandler.wrap g clientID rconn network address conn1 rtr).2).2 ++
            [Event.subHandler ProtoHTTP (RW.readWriter (RW.bufio conn1) conn1)
              (some (Upstream.conn cc)) ObjRef.ro2 roP] ++ relayHandler.deferred g clientID) ∧
      HandlerRecorderObject.Record env
        (some (relayHandler.splice env g clientID rconn network address conn1 cc ro rtr).ro) r
        (relayHandler.splice env g clientID rconn network address conn1 cc ro rtr).tr =
        (none, (relayHandler.splice env g clientID rconn network address conn1 cc ro rtr).tr)) ∧
    ((sniffStep env g.md.sniffingTimeout
        (relayHandler.wrap g clientID rconn network address conn1 rtr).2).1 = ProtoTLS →
      ∃ roP, roP.Time = ro.Time ∧
        (relayHandler.splice env g clientID rconn network address conn1 cc ro rtr).ro =
          (env.subHandler (sniffStep env g.md.sniffingTimeout
              (relayHandler.wrap g clientID rconn network address conn1 rtr).2).2 ProtoTLS
            (RW.readWriter (RW.bufio conn1) conn1) (some (Upstream.conn cc)) roP).2 ∧
        (relayHandler.splice env g clientID rconn network address conn1 cc ro rtr).tr =
          (sniffStep env g.md.sniffingTimeout
            (relayHandler.wrap g clientID rconn network address conn1 rtr).2).2 ++
            [Event.subHandler ProtoTLS (RW.readWriter (RW.bufio conn1) conn1)
              (some (Upstream.conn cc)) ObjRef.ro roP] ++ relayHandler.deferred g clientID) ∧
    (∀ x ∈ relayHandler.deferred g clientID, x.isSinkRecord = false) ∧
    (∀ (address0 : String) (ro0 : HandlerRecorderObject) (tr0 : List Event),
      relayHandler.connectAddress env network address0 ≠ "" →
      (relayHandler.checkBypass env g network
        (relayHandler.connectAddress env network address0) tr0).1 = false →
      (relayHandler.openUpstream env g network
        (relayHandler.connectAddress env network address0) ro0
        (relayHandler.checkBypass env g network
          (relayHandler.connectAddress env network address0) tr0).2).2.1 = none →
      (relayHandler.writeHeader env g network ⟨Version1, StatusOK⟩
        (relayHandler.openUpstream env g network
          (relayHandler.connectAddress env network address0) ro0
          (relayHandler.checkBypass env g network
            (relayHandler.connectAddress env network address0) tr0).2).2.2.2).1 = none →
      relayHandler.handleConnect env g clientID rconn network address0 ro0 tr0 =
        relayHandler.splice env g clientID rconn network
          (relayHandler.connectAddress env network address0)
          (relayHandler.writeHeader env g network ⟨Version1, StatusOK⟩
            (relayHandler.openUpstream env g network
              (relayHandler.connectAddress env network address0) ro0
              (relayHandler.checkBypass env g network
                (relayHandler.connectAddress env network address0) tr0).2).2.2.2).2.1
          (relayHandler.openUpstream env g network
            (relayHandler.connectAddress env network address0) ro0
            (relayHandler.checkBypass env g network
              (relayHandler.connectAddress env network address0) tr0).2).1
          (relayHandler.openUpstream env g network
            (relayHandler.connectAddress env network address0) ro0
            (relayHandler.checkBypass env g network
              (relayHandler.connectAddress env network address0) tr0).2).2.2.1
          (relayHandler.writeHeader env g network ⟨Version1, StatusOK⟩
            (relayHandler.openUpstream env g network
              (relayHandler.connectAddress env network address0) ro0
              (relayHandler.checkBypass env g network
                (relayHandler.connectAddress env network address0) tr0).2).2.2.2).2.2) := by
  obtain ⟨P, hP, hPc⟩ := forward_sniff_prelude env h conn.RemoteAddr tr
  refine ⟨?_, ?_, ?_, ?_, ?_, ?_⟩
  · intro hp
    obtain ⟨roP, h1, h2, h3⟩ := forward_http_dispatch env h sid conn tr hrl hs hp
    refine ⟨⟨roP, h1, h2, h3⟩, ?_⟩
    rw [h3, hP, List.append_assoc, newEvents_append, List.countP_append, hPc]
    rfl
  · intro hp
    obtain ⟨roP, recEv, h1, h2, h3, h4, h5, h6, h7⟩ :=
      forward_tls_dispatch env h sid conn tr hrl hs hp
    refine ⟨⟨roP, recEv, h1, h2, h3, h4, h5, h6, h7⟩, ?_⟩
    rw [h3, hP, List.append_assoc, List.append_assoc, newEvents_append, List.countP_append,
      hPc, List.countP_append, List.countP_append]
    have hle : recEv.countP Event.isSinkRecord ≤ recEv.length := List.countP_le_length _
    have hcl : [Event.clientClose].countP Event.isSinkRecord = 0 := rfl
    have hsub : [Event.subHandler ProtoTLS
        (RW.readWriteConn (RW.readWriter (RW.bufio RW.conn) RW.conn)
          (RW.readWriter (RW.bufio RW.conn) RW.conn) RW.conn) none ObjRef.ro roP].countP
        Event.isSinkRecord = 0 := rfl
    rw [hcl, hsub]
    omega
  · intro hp
    obtain ⟨h1, h2, _, h4⟩ := relay_http_dispatch env g clientID rconn network address conn1
      cc ro rtr r hg hp
    exact ⟨h1, h2, h4⟩
  · intro hp
    exact relay_tls_dispatch env g clientID rconn network address conn1 cc ro rtr hg hp
  · intro x hx
    unfold relayHandler.deferred at hx
    cases hobs : g.options.Observer with
    | none =>
      simp only [hobs, List.mem_singleton] at hx
      subst hx
      rfl
    | some ob =>
      simp only [hobs, List.mem_cons, List.mem_singleton, List.not_mem_nil, or_false] at hx
      rcases hx with rfl | rfl <;> rfl
  · intro address0 ro0 tr0 haddr hbp hup hw
    exact handleConnect_reaches_splice env g clientID rconn network address0 ro0 tr0
      haddr hbp hup hw

/-- C5 (amended), a concrete call: sniffing is on and the client sends an HTTP request.
`forwardHandler.Handle` hands `handleHTTP` the copy `ro2` and the bound sink 9 is not invoked;
`relayHandler.handleConnect` leaves the outer object with a zero time. -/
theorem c5_dispatch_record_ownership_witness :
    (forwardHandler.Handle httpEnv (plainForward true (some ⟨9, RecorderServiceHandler⟩)) "sid"
        tcpClient []).2 =
      [Event.sniff "http",
        Event.subHandler "http" (RW.readWriter (RW.bufio RW.conn) RW.conn) none ObjRef.ro2
          { Service := "forward", Network := "tcp", RemoteAddr := "192.0.2.7:51000",
            LocalAddr := "192.0.2.1:8080", ClientIP := "192.0.2.7", Proto := "http",
            Time := GoTime.clock 1, SID := "sid" },
        Event.clientClose] ∧
    (newEvents [] (forwardHandler.Handle httpEnv
      (plainForward true (some ⟨9, RecorderServiceHandler⟩)) "sid" tcpClient []).2).countP
        Event.isSinkRecord = 0 ∧
    (relayHandler.handleConnect httpEnv (plainRelay true true) "" tcpClient "tcp"
        "10.0.0.1:80" startedRecord []).ro.Time = GoTime.zero :=
  ⟨by rfl,
    ((c5_dispatch_record_ownership httpEnv (plainForward true (some ⟨9, RecorderServiceHandler⟩))
      "sid" tcpClient [] (plainRelay true true) "" tcpClient "tcp" "10.0.0.1:80" RW.conn
      (some (Conn.handle 1)) startedRecord
      [Event.resolve "10.0.0.1:80" (.ok "10.0.0.1:80"),
        Event.routeDial DefaultRoute "tcp" "10.0.0.1:80" (.ok (Conn.handle 1)),
        Event.writeTo false ⟨1, 200⟩]
      (some 9) (by rfl) ⟨by rfl, by rfl⟩ (by rfl)).1 (by rfl)).2,
    ((c5_dispatch_record_ownership httpEnv (plainForward true (some ⟨9, RecorderServiceHandler⟩))
      "sid" tcpClient [] (plainRelay true true) "" tcpClient "tcp" "10.0.0.1:80" RW.conn
      (some (Conn.handle 1)) startedRecord
      [Event.resolve "10.0.0.1:80" (.ok "10.0.0.1:80"),
        Event.routeDial DefaultRoute "tcp" "10.0.0.1:80" (.ok (Conn.handle 1)),
        Event.writeTo false ⟨1, 200⟩]
      (some 9) (by rfl) ⟨by rfl, by rfl⟩ (by rfl)).2.2.1 (by rfl)).1⟩

end Gost
